import Mathlib

/-!
# direkt_exporter: the per-request gathering pipeline

A shallow embedding of `pkg/direkt/direkt.go`: the remote client (`doRequest`), request
validation (`validateRequest`), the orchestrator (`gatherMetrics`) and the request handler
(`Handle`); of `pkg/metrics/metrics.go`; and of the five stages `system`, `interfaces`,
`decoders`, `outputs` and `encoders` with the tables of gauge definitions of their files.

Conventions of the embedding.

* Go strings and byte slices are Lean strings; `float64` gauge values are only stored and
  compared, and are rationals here.
* A Go `error` is a value of `GoError`; the package variable `errUnitOffline` is its own
  constructor, so that identity with the sentinel is not confused with equality of texts.
* The logger argument has no influence on any returned value and is left out.
* State is passed explicitly: a stage receives the registry as it stands and returns the
  registry as it leaves it. A panic (`MustRegister`) is the `Except.error` case.
* The Prometheus client library and `net/http` are collaborators outside the repository; the
  parts the code relies on (registration by name, gathering of samples, the response writer)
  are modelled directly. The order in which gathered samples are serialised is not modelled.
* The parsing of a URL by `net/url` and the decoding of a body by `encoding/json` are
  parameters of the stages (`Stdlib`): a stage is proved correct for every behaviour of both.
* A Go map is a list of keys with their values; where the code ranges over a map, the model
  walks the list in its order.
* The gauge writes of a stage are a list of `Write`, executed in program order; the writes of
  a loop body are a function of the item and of its decoded status.
-/

set_option autoImplicit false

namespace DirektExporter

/-! ## Errors -/

/-- Values of the Go `error` interface met in the package. -/
inductive GoError where
  /-- The package variable `errUnitOffline` (direkt.go line 21). -/
  | errUnitOffline : GoError
  /-- A value made by another `errors.New(text)` call of the package. -/
  | errorsNew (text : String) : GoError
  /-- A value made by a library (`net/http`, `io`, `encoding/json`); never the sentinel. -/
  | external (text : String) : GoError
  /-- An error that wraps `inner` (it has an `Unwrap` method), as `fmt.Errorf` with `%w` makes. -/
  | wrapped (text : String) (inner : GoError) : GoError
  deriving DecidableEq, Repr

/-- The `Error()` method: `errors.New("unit offline")` for the sentinel. -/
def GoError.Error : GoError → String
  | .errUnitOffline => "unit offline"
  | .errorsNew t => t
  | .external t => t
  | .wrapped t _ => t

/-- The test `errors.Is(err, errUnitOffline)`: walks the `Unwrap` chain looking for the
sentinel value itself. -/
def errorsIsUnitOffline : GoError → Bool
  | .errUnitOffline => true
  | .errorsNew _ => false
  | .external _ => false
  | .wrapped _ inner => errorsIsUnitOffline inner

/-! ## Contexts and HTTP -/

/-- Nanoseconds in `time.Second`. -/
def Second : Nat := 1000000000

/-- A `context.Context`, reduced to its timeout in nanoseconds (`none`: no deadline). -/
structure Context where
  timeout : Option Nat
  deriving DecidableEq, Repr

/-- The context `context.Background()`. -/
def Background : Context := ⟨none⟩

/-- The call `context.WithTimeout(parent, d)`: the earlier of the two deadlines. -/
def WithTimeout (parent : Context) (d : Nat) : Context :=
  match parent.timeout with
  | none => ⟨some d⟩
  | some p => ⟨some (min p d)⟩

/-- An outbound `*http.Request` as built by `http.NewRequestWithContext`. -/
structure Request where
  ctx : Context
  method : String
  url : String
  basicAuth : Option (String × String) := none
  deriving DecidableEq, Repr

/-- An `*http.Response`: the status code and what `io.ReadAll(res.Body)` gives, the bytes or
the text of the read error. -/
structure Response where
  StatusCode : Int
  Body : Except String String

/-- The `http.Client`: its `Timeout` in nanoseconds and the behaviour of `Do`, which returns
a response and the text of a transport error, either of which may be nil. -/
structure Client where
  Timeout : Nat
  Do : Request → Option Response × Option String

/-- The struct `Direkt`. -/
structure Direkt where
  username : String
  password : String
  client : Client

/-- The constructor `New`; the network reached through the client is a parameter. -/
def New (username password : String) (network : Request → Option Response × Option String) :
    Direkt :=
  { username := username, password := password,
    client := { Timeout := 15 * Second, Do := network } }

/-- Lines 62-65 of `doRequest`: the request after the conditional `SetBasicAuth`. -/
def Direkt.authenticate (d : Direkt) (req : Request) : Request :=
  if d.username ≠ "" ∧ d.password ≠ "" then
    { req with basicAuth := some (d.username, d.password) }
  else req

/-- The method `doRequest`: returns the body and the error (either may be nil). -/
def Direkt.doRequest (d : Direkt) (req : Request) : Option String × Option GoError :=
  match d.client.Do (d.authenticate req) with
  | (_, some e) => (none, some (.external e))
  | (none, none) => (none, none)
  | (some res, none) =>
    if res.StatusCode = 503 then (none, some .errUnitOffline)
    else if res.StatusCode ≠ 200 then (none, some (.errorsNew "non-okay request returned"))
    else
      match res.Body with
      | .error e => (none, some (.external e))
      | .ok body => (some body, none)

/-! ## Request validation -/

/-- The parsed query of the inbound request, `url.Values`: keys with their values. -/
abbrev Values := List (String × List String)

/-- The method `Values.Get`: the first value of the key, or the empty string. -/
def Values.Get (v : Values) (key : String) : String :=
  match v.lookup key with
  | some (x :: _) => x
  | _ => ""

/-- The inbound probe request, reduced to `r.URL.Query()`. -/
structure ProbeRequest where
  query : Values
  deriving DecidableEq, Repr

/-- The function `strings.HasPrefix`:
`len(s) >= len(p) && s[:len(p)] == p`. -/
def HasPrefix (s p : String) : Bool :=
  decide (p.data.length ≤ s.data.length) && (s.data.take p.data.length == p.data)

/-- The function `validateRequest`. -/
def validateRequest (r : ProbeRequest) : String × Option GoError :=
  let val := Values.Get r.query "serial"
  if val = "" then ("", some (.errorsNew "no serial provided"))
  else if !HasPrefix val "D0" then ("", some (.errorsNew "invalid serial provided"))
  else (val, none)

/-! ## The metric registry -/

/-- Gauge values. -/
abbrev Float64 := Rat

/-- The struct `prometheus.GaugeOpts`, the fields the package sets. -/
structure GaugeOpts where
  Name : String
  Help : String
  deriving DecidableEq, Repr

/-- A `*prometheus.GaugeVec`: its options, variable label names and the entries set so far,
keyed by the tuple of label values. -/
structure GaugeVec where
  opts : GaugeOpts
  labelNames : List String
  entries : List (List String × Float64)
  deriving DecidableEq, Repr

/-- A collector that can be registered: a scalar `prometheus.Gauge`, whose value lives in the
gauge object held by whoever created it, or a `GaugeVec`. -/
inductive Collector where
  | gauge (opts : GaugeOpts) : Collector
  | gaugeVec (v : GaugeVec) : Collector
  deriving DecidableEq, Repr

/-- The fully qualified metric name of a collector. -/
def Collector.Name : Collector → String
  | .gauge o => o.Name
  | .gaugeVec v => v.opts.Name

/-- A collector as it sits in the base registry: with the constant labels of the wrapping
registerer it was registered through. -/
structure Registered where
  constLabels : List (String × String)
  collector : Collector
  deriving DecidableEq, Repr

/-- A `*prometheus.Registry`: the registered collectors in registration order. -/
structure Registry where
  collectors : List Registered
  deriving DecidableEq, Repr

/-- The call `prometheus.NewRegistry()`. -/
def NewRegistry : Registry := ⟨[]⟩

/-- The result of `prometheus.WrapRegistererWith(labels, base)`: a registerer that adds
`labels` to everything registered through it; the base registry is the state passed along. -/
structure Registerer where
  labels : List (String × String)
  deriving DecidableEq, Repr

/-- The call `prometheus.WrapRegistererWith`. -/
def WrapRegistererWith (labels : List (String × String)) : Registerer := ⟨labels⟩

/-- The method `Register`: refused when a collector of the same name is already there. -/
def Registerer.Register (reg : Registerer) (base : Registry) (c : Collector) :
    Except String Registry :=
  if base.collectors.any (fun x => x.collector.Name == c.Name) then
    .error "duplicate metrics collector registration attempted"
  else .ok ⟨base.collectors ++ [⟨reg.labels, c⟩]⟩

/-- A panic, with its message. -/
abbrev Panic := String

/-- The method `MustRegister`: panics where `Register` returns an error. -/
def Registerer.MustRegister (reg : Registerer) (base : Registry) (c : Collector) :
    Except Panic Registry :=
  match reg.Register base c with
  | .error e => .error e
  | .ok r => .ok r

/-- One gathered sample: metric name, label pairs (constant labels first) and value. -/
structure Sample where
  name : String
  labels : List (String × String)
  value : Float64
  deriving DecidableEq, Repr

/-- The samples one registered collector contributes; `gauges` gives the current value of
the scalar gauge objects by name. A vector without entries contributes nothing. -/
def Registered.collect (gauges : String → Float64) (x : Registered) : List Sample :=
  match x.collector with
  | .gauge o => [⟨o.Name, x.constLabels, gauges o.Name⟩]
  | .gaugeVec v =>
    v.entries.map (fun e => ⟨v.opts.Name, x.constLabels ++ v.labelNames.zip e.1, e.2⟩)

/-- The method `Gather`: the samples of all registered collectors. -/
def Registry.Gather (r : Registry) (gauges : String → Float64) : List Sample :=
  (r.collectors.map (Registered.collect gauges)).flatten

/-! ## Stages and the orchestrator -/

/-- What a stage hands back: the registry as it leaves it, the outbound requests it passed to
`doReq` (in order), and the error it returns. -/
structure StageReturn where
  registry : Registry
  requests : List Request
  err : Option GoError
  deriving DecidableEq, Repr

/-- The function type `metricGatherer`: context, registerer, `doReq` and the serial, run on
the registry as it stands. A stage may panic. -/
abbrev metricGatherer :=
  Context → Registerer → (Request → Option String × Option GoError) → String → Registry →
    Except Panic StageReturn

/-- A record of one stage invocation, kept by the model to speak about which stages ran:
the position of the stage in the list, the registry it was run on, the registry it left and
the error it returned. -/
structure Call where
  index : Nat
  input : Registry
  output : Registry
  err : Option GoError
  deriving DecidableEq, Repr

/-- The variables of `gatherMetrics` that change in its loop, with the record of calls and of
outbound requests. -/
structure LoopState where
  registry : Registry
  successGauge : Float64
  retErr : Option GoError
  calls : List Call
  requests : List Request
  deriving DecidableEq, Repr

/-- The loop of `gatherMetrics` (lines 113-123) over the stages from position `i` on. -/
def gatherLoop (ctx : Context) (registry : Registerer)
    (doReq : Request → Option String × Option GoError) (id : String) :
    List metricGatherer → Nat → LoopState → Except Panic LoopState
  | [], _, st => .ok st
  | metric :: rest, i, st =>
    match metric ctx registry doReq id st.registry with
    | .error p => .error p
    | .ok r =>
      let st1 : LoopState :=
        { st with
          registry := r.registry
          calls := st.calls ++ [⟨i, st.registry, r.registry, r.err⟩]
          requests := st.requests ++ r.requests }
      match r.err with
      | none => gatherLoop ctx registry doReq id rest (i + 1) st1
      | some err =>
        let st2 : LoopState := { st1 with successGauge := 0 }
        if errorsIsUnitOffline err then .ok st2
        else gatherLoop ctx registry doReq id rest (i + 1) { st2 with retErr := some err }

/-- What `gatherMetrics` returns, the base registry and the retained error, together with
the final values of the two scalar gauge objects registered in it and the records of the
run. -/
structure GatherResult where
  baseRegistry : Registry
  retErr : Option GoError
  successGauge : Float64
  durationGauge : Float64
  calls : List Call
  requests : List Request
  deriving DecidableEq, Repr

/-- Options of the gauge `request_success`. -/
def successGaugeOpts : GaugeOpts :=
  { Name := "request_success", Help := "Displays whether or not the request was a success" }

/-- Options of the gauge `request_duration_seconds`. -/
def durationGaugeOpts : GaugeOpts :=
  { Name := "request_duration_seconds",
    Help := "Returns how long the request took to complete in seconds" }

/-- The method `gatherMetrics`. The wall-clock reading `time.Since(start).Seconds()` is the
parameter `duration`. A new gauge holds 0. -/
def Direkt.gatherMetrics (d : Direkt) (ctx : Context) (metrics : List metricGatherer)
    (id : String) (duration : Float64) : Except Panic GatherResult :=
  let baseRegistry := NewRegistry
  let registry := WrapRegistererWith [("serial", id)]
  match registry.MustRegister baseRegistry (.gauge successGaugeOpts) with
  | .error p => .error p
  | .ok r1 =>
    match registry.MustRegister r1 (.gauge durationGaugeOpts) with
    | .error p => .error p
    | .ok r2 =>
      match gatherLoop ctx registry d.doRequest id metrics 0
          { registry := r2, successGauge := 0, retErr := none, calls := [], requests := [] } with
      | .error p => .error p
      | .ok st =>
        .ok { baseRegistry := st.registry
              retErr := st.retErr
              successGauge := if st.retErr = none then 1 else st.successGauge
              durationGauge := duration
              calls := st.calls
              requests := st.requests }

/-! ## The request handler -/

/-- A piece of response body: text written with `w.Write`, or the exposition of gathered
samples written by the `promhttp` handler. -/
inductive Chunk where
  | text (s : String) : Chunk
  | exposition (samples : List Sample) : Chunk
  deriving DecidableEq, Repr

/-- The `http.ResponseWriter` after the handler ran: the status given to `WriteHeader`
(`none` when it was never called, which leaves the default) and the body written. -/
structure ResponseWriter where
  status : Option Nat
  body : List Chunk
  deriving DecidableEq, Repr

/-- The response of `Handle` with the records of the run behind it. -/
structure HandleResult where
  w : ResponseWriter
  calls : List Call
  requests : List Request
  deriving DecidableEq, Repr

/-- Value of the scalar gauge objects of a gathering run, by metric name. -/
def GatherResult.gauges (g : GatherResult) (name : String) : Float64 :=
  if name = successGaugeOpts.Name then g.successGauge
  else if name = durationGaugeOpts.Name then g.durationGauge
  else 0

/-- The body of the method `Handle` with the stage list it passes to `gatherMetrics` as the
parameter `stages` (line 50 passes system, interfaces, decoders, outputs, encoders). -/
def Direkt.HandleWith (d : Direkt) (stages : List metricGatherer) (r : ProbeRequest)
    (duration : Float64) : Except Panic HandleResult :=
  match validateRequest r with
  | (_, some err) =>
    .ok { w := { status := none, body := [.text err.Error] }, calls := [], requests := [] }
  | (id, none) =>
    let ctx := WithTimeout Background (10 * Second)
    match d.gatherMetrics ctx stages id duration with
    | .error p => .error p
    | .ok g =>
      match g.retErr with
      | some err =>
        .ok { w := { status := none, body := [.text err.Error] }
              calls := g.calls, requests := g.requests }
      | none =>
        .ok { w := { status := none, body := [.exposition (g.baseRegistry.Gather g.gauges)] }
              calls := g.calls, requests := g.requests }

/-! ## Auxiliary notions for the proofs -/

/-- The loop variables after the iteration that ran stage `i` and got `r` from it. -/
def LoopState.next (st : LoopState) (i : Nat) (r : StageReturn) : LoopState :=
  { registry := r.registry
    successGauge := if r.err = none then st.successGauge else 0
    retErr :=
      match r.err with
      | none => st.retErr
      | some e => if errorsIsUnitOffline e then st.retErr else some e
    calls := st.calls ++ [⟨i, st.registry, r.registry, r.err⟩]
    requests := st.requests ++ r.requests }

/-- Whether the loop breaks after a stage returned `r`. -/
def StageReturn.aborts (r : StageReturn) : Bool :=
  match r.err with
  | none => false
  | some e => errorsIsUnitOffline e

/-- The error of a call when it is not nil and not the offline sentinel. -/
def Call.softErr (c : Call) : Option GoError :=
  match c.err with
  | none => none
  | some e => if errorsIsUnitOffline e then none else some e

/-- Whether a call returned an error matching the offline sentinel. -/
def Call.offline (c : Call) : Bool :=
  match c.err with
  | none => false
  | some e => errorsIsUnitOffline e

/-- The loop variables at the start of the loop of `gatherMetrics`: the two scalar gauges
registered under the serial label, no call made yet. -/
def initialState (id : String) : LoopState :=
  { registry := ⟨[⟨[("serial", id)], .gauge successGaugeOpts⟩,
                  ⟨[("serial", id)], .gauge durationGaugeOpts⟩]⟩
    successGauge := 0
    retErr := none
    calls := []
    requests := [] }

/-- The result `gatherMetrics` builds from the loop variables once the loop is over. -/
def finish (duration : Float64) (st : LoopState) : GatherResult :=
  { baseRegistry := st.registry
    retErr := st.retErr
    successGauge := if st.retErr = none then 1 else st.successGauge
    durationGauge := duration
    calls := st.calls
    requests := st.requests }

/-- Registries are threaded: each call of the list runs on what the one before left, starting
from `r0` and ending with `r`. -/
def Threaded (r0 : Registry) : List Call → Registry → Prop
  | [], r => r = r0
  | c :: cs, r => c.input = r0 ∧ Threaded c.output cs r

/-! ## Example stages and requests

Small stages used to run the orchestrator and the handler on concrete inputs. -/

/-- A client without credentials whose network never answers. -/
def probe : Direkt := New "" "" (fun _ => (none, some "no route to host"))

/-- A stage that touches nothing and returns `err`. -/
def stageReturning (err : Option GoError) : metricGatherer :=
  fun _ _ _ _ reg => .ok ⟨reg, [], err⟩

/-- A stage that registers one collection `name` without labels, sets it to `v` and
returns `err`. -/
def stageSetting (name : String) (v : Float64) (err : Option GoError) : metricGatherer :=
  fun _ registry _ _ reg =>
    match registry.MustRegister reg (.gaugeVec ⟨⟨name, "help"⟩, [], [([], v)]⟩) with
    | .error p => .error p
    | .ok r => .ok ⟨r, [], err⟩

/-- A stage that, as the stages of the package do, requests a resource of the unit through
`doReq` and returns the error of that request; it registers nothing. -/
def stageFetching (resource : String) : metricGatherer :=
  fun ctx _ doReq id reg =>
    let request : Request :=
      { ctx := ctx, method := "GET",
        url := "https://iss.intinor.se/" ++ "api/v1/units/" ++ id ++ resource }
    .ok ⟨reg, [request], (doReq request).2⟩

/-- A probe request with the given `serial` query values. -/
def probeRequest (serial : List String) : ProbeRequest := ⟨[("serial", serial)]⟩

/-- A client whose network answers every request with the given status and an empty body. -/
def answering (status : Int) : Direkt :=
  New "" "" (fun _ => (some ⟨status, .ok ""⟩, none))

/-- A GET request for the system status of unit D01. -/
def statusRequest : Request :=
  { ctx := Background, method := "GET",
    url := "https://iss.intinor.se/api/v1/units/D01/system/status" }

/-- What a run of `gatherMetrics` returned, for a run that returned. -/
def returned (x : Except Panic GatherResult) : GatherResult :=
  match x with
  | .ok g => g
  | .error _ => finish 0 (initialState "")

/-- What a run of `Handle` answered, for a run that returned. -/
def answered (x : Except Panic HandleResult) : HandleResult :=
  match x with
  | .ok h => h
  | .error _ => ⟨⟨none, []⟩, [], []⟩

/-- The call recorded at position `k`, for a position that has one. -/
def callAt (calls : List Call) (k : Nat) : Call :=
  calls.getD k ⟨0, ⟨[]⟩, ⟨[]⟩, none⟩

/-- Sets `a`, then meets the offline sentinel, then would set `c`. -/
def offlineSecond : List metricGatherer :=
  [stageSetting "a" 1 none, stageReturning (some .errUnitOffline), stageSetting "c" 2 none]

/-- Two stages that fail with the errors `first` and `second`. -/
def twoFailing : List metricGatherer :=
  [stageReturning (some (.errorsNew "first")), stageReturning (some (.errorsNew "second"))]

/-- A stage that sets `a` and fails with `boom`, followed by two stages that succeed. -/
def failingFirst : List metricGatherer :=
  [stageSetting "a" 1 (some (.errorsNew "boom")), stageSetting "b" 2 none,
    stageSetting "c" 3 none]

/-- A stage that sets `a` and fails with `boom`, then a stage that meets the sentinel. -/
def failingThenOffline : List metricGatherer :=
  [stageSetting "a" 1 (some (.errorsNew "boom")), stageReturning (some .errUnitOffline)]

/-! ## Package metrics and the label encoders -/

/-- Insertion into a Go map kept as a list of keys with their values: the value of an
existing key is replaced, a new key is added. -/
def upsert {α β : Type} [DecidableEq α] : List (α × β) → α → β → List (α × β)
  | [], k, v => [(k, v)]
  | (k0, v0) :: rest, k, v => if k0 = k then (k0, v) :: rest else (k0, v0) :: upsert rest k v

/-- The value a Go map kept as a list holds for a key. -/
def find {α β : Type} [DecidableEq α] : List (α × β) → α → Option β
  | [], _ => none
  | (k0, v0) :: rest, k => if k0 = k then some v0 else find rest k

/-- A `map[string]*prometheus.GaugeVec`. -/
abbrev GaugeMap := List (String × GaugeVec)

/-- The call `prometheus.NewGaugeVec(opts, labelNames)`: a vector without entries. -/
def NewGaugeVec (opts : GaugeOpts) (labelNames : List String) : GaugeVec :=
  { opts := opts, labelNames := labelNames, entries := [] }

/-- The method `Reset`: drops every entry. -/
def GaugeVec.Reset (v : GaugeVec) : GaugeVec := { v with entries := [] }

/-- The call `v.WithLabelValues(lvs...).Set(x)`: panics when the number of values is not the
number of label names of the vector, otherwise sets the entry of the tuple `lvs` to `x`. -/
def GaugeVec.Set (v : GaugeVec) (lvs : List String) (x : Float64) : Except Panic GaugeVec :=
  if lvs.length = v.labelNames.length then .ok { v with entries := upsert v.entries lvs x }
  else .error "inconsistent label cardinality"

namespace metrics

/-- The struct `metrics.Gauge`: one gauge definition. -/
structure Gauge where
  Name : String
  Desc : String
  Labels : List String
  deriving DecidableEq, Repr

/-- The function `metrics.NewGaugeMap`. -/
def NewGaugeMap (metrics : List Gauge) : GaugeMap :=
  metrics.foldl
    (fun ret metric =>
      upsert ret metric.Name (NewGaugeVec { Name := metric.Name, Help := metric.Desc } metric.Labels))
    []

/-- The function `strconv.ParseBool`: the value and whether the string was rejected. -/
def ParseBool (str : String) : Bool × Option GoError :=
  if str = "1" ∨ str = "t" ∨ str = "T" ∨ str = "true" ∨ str = "TRUE" ∨ str = "True" then
    (true, none)
  else if str = "0" ∨ str = "f" ∨ str = "F" ∨ str = "false" ∨ str = "FALSE" ∨ str = "False" then
    (false, none)
  else (false, some (.external "strconv.ParseBool: parsing: invalid syntax"))

/-- The function `metrics.StringBoolToInt`. -/
def StringBoolToInt (s : String) : Int :=
  let s := if s = "ok" then "true" else s
  match ParseBool s with
  | (b, err) => if b ∧ err = none then 1 else 0

/-- The function `metrics.BoolToString`. -/
def BoolToString (b : Bool) : String :=
  if b then "true" else "false"

/-- The function `metrics.BoolToFloat64`. -/
def BoolToFloat64 (b : Bool) : Float64 :=
  if b then 1 else 0

end metrics

/-- The empty collection built from one definition: same name, help text and label names. -/
def gaugeVecOf (g : metrics.Gauge) : GaugeVec :=
  { opts := { Name := g.Name, Help := g.Desc }, labelNames := g.Labels, entries := [] }

/-- The function `strconv.Itoa`, also `fmt.Sprintf` with the verb `%d`. -/
def Itoa (i : Int) : String := toString i

/-- The nearest natural number to the quotient `a / b`, ties going to the even one. -/
def roundHalfEven (a b : Nat) : Nat :=
  let q := a / b
  let r := a % b
  if 2 * r < b then q
  else if b < 2 * r then q + 1
  else if q % 2 = 0 then q
  else q + 1

/-- The call `fmt.Sprintf` with the verb `%.2f` (`prec` 2) or `%.4f` (`prec` 4): the value
rounded to `prec` decimals, computed on the numerator and denominator of the value. -/
def formatFloat (prec : Nat) (x : Float64) : String :=
  let n := roundHalfEven (x.num.natAbs * 10 ^ prec) x.den
  let frac := toString (n % 10 ^ prec)
  (if x.num < 0 then "-" else "") ++ toString (n / 10 ^ prec) ++ "." ++
    String.mk (List.replicate (prec - frac.length) '0') ++ frac

/-- Splitting of a list of characters at every occurrence of `sep`. -/
def splitChars (sep : Char) : List Char → List (List Char)
  | [] => [[]]
  | c :: cs =>
    if c = sep then [] :: splitChars sep cs
    else
      match splitChars sep cs with
      | [] => [[c]]
      | p :: ps => (c :: p) :: ps

/-- The function `strings.Split(s, sep)` for a separator of one character. -/
def Split (s : String) (sep : Char) : List String :=
  (splitChars sep s.data).map String.mk

/-- The function `simplifyNetworkInterface` (system.go). -/
def simplifyNetworkInterface (fullPath : String) : String :=
  let parts := Split fullPath '/'
  if parts.length < 7 then fullPath
  else parts.getD 6 ""

/-! ## Metric names, label names and gauge definitions -/

/-! ### Constants of system.go -/

def SystemInfo : String := "system_info"
def CPUUtilisationPercent : String := "cpu_utilisation_percent"
def MemoryTotalBytes : String := "memory_total_bytes"
def MemoryAvailableBytes : String := "memory_available_bytes"
def BondingPathRTTSeconds : String := "bonding_path_rtt_seconds"
def BondingPathRxBitrate : String := "bonding_path_rx_bitrate_bytes_per_second"
def BondingPathTxBitrate : String := "bonding_path_tx_bitrate_bytes_per_second"
def BondingPathHealth : String := "bonding_path_health"
def LabelActiveFirmwareVersion : String := "active_firmware_version"
def LabelBackupFirmwareVersion : String := "backup_firmware_verison"
def LabelDefaultFirmwareVersion : String := "default_firmware_version"
def LabelNetworkInterface : String := "network_interface"

/-! ### Constants of interfaces.go -/

def InterfaceRxBitrate : String := "interface_rx_bitrate_bytes_per_second"
def InterfaceTxBitrate : String := "interface_tx_bitrate_bytes_per_second"
def InterfaceLinkSpeed : String := "interface_link_speed_bits_per_second"
def InterfaceInternetAccess : String := "interface_internet_access"
def InterfaceTestingInternetAccess : String := "interface_testing_internet_access"
def LabelInterfaceMAC : String := "interface_mac"
def LabelIPAddress : String := "ip_address"
def LabelPrimaryInterface : String := "primary_interface"

/-! ### Constants of decoders.go -/

def NetworkInputVideoStatus : String := "network_input_video_status"
def NetworkInputAudioStatus : String := "network_input_audio_status"
def NetworkInputVideoBitrate : String := "network_input_video_bitrate"
def NetworkInputAudioBitrateBytes : String := "network_input_audio_bitrate"
def NetworkInputBitrate : String := "network_input_bitrate"
def NetworkInputPacketLoss : String := "network_input_packet_loss"
def NetworkInputEndToEndDelay : String := "network_input_end_to_end_delay_seconds"
def NetworkInputBuffersReception : String := "network_input_buffers_reception_seconds"
def NetworkInputBuffersDecoder : String := "network_input_buffers_decoder_seconds"
def NetworkInputBuffersTarget : String := "network_input_buffers_target_seconds"
def NetworkInputFecBuffer : String := "network_input_fec_buffer_seconds"
def NetworkInputFecPacketLoss : String := "network_input_fec_packet_loss"
def NetworkInputBondingBuffer : String := "network_input_bonding_buffer_seconds"
def NetworkInputBondingPaths : String := "network_input_bonding_paths"
def NetworkInputActive : String := "network_input_active"
def LabelInputIndex : String := "input_index"
def LabelInputName : String := "input_name"
def LabelActive : String := "active"
def LabelCodec : String := "codec"
def LabelCodecBitrate : String := "codec_bitrate"
def LabelCodecLevel : String := "codec_level"
def LabelSourceType : String := "source_type"
def LabelTarget : String := "target"
def LabelProtocol : String := "protocol"
def LabelProgramIndex : String := "program_number"
def LabelAddress : String := "address"
def LabelSenderSerial : String := "sender_serial"
def LabelSenderVerified : String := "sender_verified"
def LevelAudioIndex : String := "audio_index"

/-! ### Constants of outputs.go -/

def OutputVideoActive : String := "output_video_active"
def OutputAudioActive : String := "output_audio_active"
def OutputVideoSourceAvailable : String := "output_video_source_available"
def OutputAudioSourceAvailable : String := "output_audio_source_available"
def LabelSourceAvailable : String := "source_available"
def LabelOutputIndex : String := "output_index"
def LabelOutputName : String := "output_name"
def LabelSourceIndex : String := "source_index"
def LabelSourceName : String := "source_name"
def LabelAudioCodecName : String := "audio_codec_name"
def LabelAudioChannels : String := "audio_channels"
def LabelAudioSampleRate : String := "audio_sample_rate"
def LabelAudioBitDepth : String := "audio_bit_depth"
def LabelAudioIndex : String := "audio_index"

/-! ### Constants of encoders.go -/

def MetricEncoderVideoStatus : String := "encoder_video_config"
def MetricEncoderAudioStatus : String := "encoder_audio_config"
def MetricEncoderVideoInputStatus : String := "encoder_video_input_status"
def MetricEncoderAudioInputStatus : String := "encoder_audio_input_status"
def MetricEncoderTotalBitrate : String := "encoder_total_bitrate_bits"
def MetricEncoderDestinationBitrate : String := "encoder_basic_destination_bitrate_bits"
def MetricEncoderBasicDestinationPacketLoss : String := "encoder_basic_destination_packet_loss"
def MetricEncoderBasicDestinationFECPacketLoss : String := "encoder_basic_destination_fec_packet_loss"
def MetricEncoderBasicDestinationFECOverhead : String := "encoder_basic_destination_fec_bitrate_overhead"
def MetricEncoderBasicDestinationUDPSmoothingBuffer : String := "encoder_basic_destination_udp_smoothing_buffer_seconds"
def MetricEncoderBasicDestinationPathLatency : String := "encoder_basic_destination_path_latency_seconds"
def MetricEncoderBasicDestinationPathLatencyHistorical : String := "encoder_basic_destination_path_latency_historical_seconds"
def MetricEncoderBasicDestinationPathViable : String := "encoder_basic_destination_path_viable"
def MetricEncoderBasicDestinationPathBitrate : String := "encoder_basic_destination_path_bitrate_bits"
def MetricEncoderBasicDestinationPathPacketLoss : String := "encoder_basic_destination_path_packet_loss"
def MetricEncoderBasicDestinationPathPacketLossHistorical : String := "encoder_basic_destination_path_packet_loss_historical"
def MetricEncoderBasicDestinationPathCapacity : String := "encoder_basic_destination_path_estimated_capacity_bits"
def MetricEncoderBasicDestinationPathRedundancy : String := "encoder_basic_destination_path_redundancy_bitrate_bits"
def MetricEncoderBasicDestinationFailoverActive : String := "encoder_basic_destination_failover_active"
def LabelEncoderIndex : String := "encoder_index"
def LabelEncoderName : String := "encoder_name"
def LabelDestination : String := "destination"
def LabelDestinationIndex : String := "destination_index"
def LabelBondingDestination : String := "bonding_destination"
def LabelInterlaced : String := "interlaced"
def LabelChromaSubsampling : String := "chroma_subsampling"
def LabelFramerate : String := "framerate"
def LabelBitDepth : String := "bit_depth"
def LabelDisplayAspect : String := "display_aspect"
def LabelWidth : String := "width"
def LabelPixelAspect : String := "pixel_aspect"
def LabelForcedAspect : String := "forced_aspect"
def LabelHeight : String := "height"
def LabelTopFieldFirst : String := "top_field_first"
def LabelTargetBitrate : String := "target_bitrate"
def LabelCodecName : String := "codec_name"
def LabelAdaptiveBitrate : String := "adaptive_bitrate"
def LabelConfiguredPerformanceMode : String := "configured_performance_mode"
def LabelBitrateBuffer : String := "bitrate_buffer"
def LabelDefaultPerformanceMode : String := "default_performance_mode"
def LabelProfile : String := "profile"
def LabelPerformanceMode : String := "performance_mode"
def LabelLevel : String := "level"
def LabelSampleRate : String := "sample_rate"
def LabelChannels : String := "channels"

/-! ### The gauge definition tables -/

/-- The table `sysMetrics` (system.go). -/
def sysMetrics : List metrics.Gauge :=
  [{ Name := SystemInfo,
     Desc := "Provides informtion on system uptime and statistics",
     Labels := [LabelActiveFirmwareVersion, LabelBackupFirmwareVersion,
                LabelDefaultFirmwareVersion] },
   { Name := CPUUtilisationPercent,
     Desc := "Percentage of CPU utilisation",
     Labels := [] },
   { Name := MemoryTotalBytes,
     Desc := "Total amount of memory in bytes",
     Labels := [] },
   { Name := MemoryAvailableBytes,
     Desc := "Amount of memory available in bytes",
     Labels := [] },
   { Name := BondingPathRTTSeconds,
     Desc := "Round trip time in seconds for bonding path",
     Labels := [LabelNetworkInterface] },
   { Name := BondingPathRxBitrate,
     Desc := "Receive bitrate in bytes per second for bonding path",
     Labels := [LabelNetworkInterface] },
   { Name := BondingPathTxBitrate,
     Desc := "Transmit bitrate in bytes per second for bonding path",
     Labels := [LabelNetworkInterface] },
   { Name := BondingPathHealth,
     Desc := "Network management bonding path health",
     Labels := [LabelNetworkInterface] }]

/-- The table `interfaceMetrics` (interfaces.go). -/
def interfaceMetrics : List metrics.Gauge :=
  [{ Name := InterfaceRxBitrate,
     Desc := "Receive bitrate in bits per second for the interface",
     Labels := [LabelInterfaceMAC, LabelIPAddress, LabelPrimaryInterface] },
   { Name := InterfaceTxBitrate,
     Desc := "Transmit bitrate in bits per second for the interface",
     Labels := [LabelInterfaceMAC, LabelIPAddress, LabelPrimaryInterface] },
   { Name := InterfaceLinkSpeed,
     Desc := "Ethernet link speed in bits per second. -1 if unknown",
     Labels := [LabelInterfaceMAC, LabelIPAddress, LabelPrimaryInterface] },
   { Name := InterfaceInternetAccess,
     Desc := "Boolean indicating if the interface has internet access (1 = yes, 0 = no)",
     Labels := [LabelInterfaceMAC, LabelIPAddress, LabelPrimaryInterface] },
   { Name := InterfaceTestingInternetAccess,
     Desc := "Boolean indicating if the interface is testing internet access (1 = yes, 0 = no)",
     Labels := [LabelInterfaceMAC, LabelIPAddress, LabelPrimaryInterface] }]

/-- The table `networkInputMetrics` (decoders.go). -/
def networkInputMetrics : List metrics.Gauge :=
  [{ Name := NetworkInputVideoStatus,
     Desc := "Video input status (1=active, 0=inactive)",
     Labels := [LabelInputIndex, LabelInputName, LabelCodec, LabelProfile, LabelCodecLevel,
                LabelChromaSubsampling, LabelFramerate, LabelWidth, LabelHeight, LabelBitDepth,
                LabelInterlaced, LabelTopFieldFirst, LabelDisplayAspect, LabelPixelAspect,
                LabelForcedAspect, LabelProgramIndex] },
   { Name := NetworkInputAudioStatus,
     Desc := "Audio input status (1=active, 0=inactive)",
     Labels := [LabelInputIndex, LabelInputName, LabelCodec, LabelChannels, LabelSampleRate,
                LabelBitDepth, LabelProgramIndex, LevelAudioIndex] },
   { Name := NetworkInputVideoBitrate,
     Desc := "Video codec bitrate in bits per second",
     Labels := [LabelInputIndex, LabelInputName, LabelProgramIndex] },
   { Name := NetworkInputBitrate,
     Desc := "Total network input bitrate in bits per second",
     Labels := [LabelInputIndex, LabelInputName, LabelSourceType, LabelSenderSerial] },
   { Name := NetworkInputPacketLoss,
     Desc := "Network input packet loss",
     Labels := [LabelInputIndex, LabelInputName] },
   { Name := NetworkInputEndToEndDelay,
     Desc := "End-to-end delay for the input in seconds",
     Labels := [LabelInputIndex, LabelInputName, LabelProgramIndex, LabelTarget] },
   { Name := NetworkInputBuffersReception,
     Desc := "Reception buffer duration in seconds",
     Labels := [LabelInputIndex, LabelInputName, LabelProgramIndex] },
   { Name := NetworkInputBuffersDecoder,
     Desc := "Decoder buffer duration in seconds",
     Labels := [LabelInputIndex, LabelInputName, LabelProgramIndex] },
   { Name := NetworkInputBuffersTarget,
     Desc := "Target buffer duration in seconds",
     Labels := [LabelInputIndex, LabelInputName, LabelProgramIndex] },
   { Name := NetworkInputFecBuffer,
     Desc := "FEC buffer duration in seconds",
     Labels := [LabelInputIndex, LabelInputName, LabelProgramIndex] },
   { Name := NetworkInputFecPacketLoss,
     Desc := "FEC packet loss",
     Labels := [LabelInputIndex, LabelInputName, LabelProgramIndex] },
   { Name := NetworkInputBondingBuffer,
     Desc := "Bonding buffer duration in seconds",
     Labels := [LabelInputIndex, LabelInputName, LabelProtocol] },
   { Name := NetworkInputActive,
     Desc := "Indicates if the network input is active (1=active, 0=inactive)",
     Labels := [LabelInputIndex, LabelInputName, LabelSourceType, LabelAddress,
                LabelSenderSerial, LabelSenderVerified] }]

/-- The table `videoMetrics` (outputs.go). -/
def videoMetrics : List metrics.Gauge :=
  [{ Name := OutputVideoActive,
     Desc := "Indicates if the video output is active (1=active, 0=inactive) with video format properties as labels",
     Labels := [LabelOutputIndex, LabelOutputName, LabelWidth, LabelHeight, LabelFramerate,
                LabelBitDepth, LabelInterlaced, LabelChromaSubsampling, LabelPixelAspect,
                LabelDisplayAspect, LabelTopFieldFirst] },
   { Name := OutputAudioActive,
     Desc := "Indicates if the audio output is active (1=active, 0=inactive) with audio format properties as labels",
     Labels := [LabelOutputIndex, LabelOutputName, LabelAudioIndex, LabelAudioChannels,
                LabelAudioSampleRate, LabelAudioBitDepth] },
   { Name := OutputVideoSourceAvailable,
     Desc := "Indicates if the video source is available (1=active, 0=inactive) with video format properties as labels",
     Labels := [LabelSourceIndex, LabelSourceName, LabelCodecName, LabelCodecBitrate,
                LabelProfile, LabelLevel, LabelWidth, LabelHeight, LabelFramerate,
                LabelBitDepth, LabelInterlaced, LabelChromaSubsampling, LabelPixelAspect,
                LabelDisplayAspect, LabelTopFieldFirst] },
   { Name := OutputAudioSourceAvailable,
     Desc := "Indicates if the audio source is available (1=active, 0=inactive) with audio format properties as labels",
     Labels := [LabelSourceIndex, LabelSourceName, LabelAudioIndex, LabelAudioCodecName,
                LabelAudioChannels, LabelAudioSampleRate, LabelAudioBitDepth] }]

/-- The table `encoderMetrics` (encoders.go). -/
def encoderMetrics : List metrics.Gauge :=
  [{ Name := MetricEncoderVideoInputStatus,
     Desc := "Video input and encoding status. Value is 1 if source is available, 0 otherwise. Encoding and format info are exposed as labels.",
     Labels := [LabelEncoderIndex, LabelEncoderName, LabelFramerate, LabelWidth, LabelHeight,
                LabelBitDepth, LabelInterlaced, LabelTopFieldFirst, LabelChromaSubsampling,
                LabelDisplayAspect, LabelPixelAspect, LabelForcedAspect] },
   { Name := MetricEncoderAudioInputStatus,
     Desc := "Audio encoding status. Value is 1 if source is available, 0 otherwise. Audio properties are in labels.",
     Labels := [LabelEncoderIndex, LabelEncoderName, LabelCodec, LabelAudioSampleRate,
                LabelAudioChannels] },
   { Name := MetricEncoderVideoStatus,
     Desc := "Video encoder configuration. Exposes all static and configured parameters as labels. Value always 1 if encoder is active.",
     Labels := [LabelEncoderIndex, LabelEncoderName, LabelCodec, LabelProfile, LabelCodecLevel,
                LabelTargetBitrate, LabelFramerate, LabelWidth, LabelHeight, LabelBitDepth,
                LabelInterlaced, LabelTopFieldFirst, LabelChromaSubsampling,
                LabelDisplayAspect, LabelPixelAspect, LabelForcedAspect] },
   { Name := MetricEncoderAudioStatus,
     Desc := "Audio encoder configuration. Exposes all static and configured parameters as labels. Value always 1 if encoder is active.",
     Labels := [LabelEncoderIndex, LabelEncoderName, LabelAudioIndex, LabelCodec,
                LabelTargetBitrate, LabelAudioSampleRate, LabelAudioChannels] },
   { Name := MetricEncoderTotalBitrate,
     Desc := "Total encoder bitrate in bits per second (sum of video and audio streams).",
     Labels := [LabelEncoderIndex, LabelEncoderName] },
   { Name := MetricEncoderDestinationBitrate,
     Desc := "Output bitrate to a destination in bits per second.",
     Labels := [LabelEncoderIndex, LabelEncoderName, LabelDestination, LabelDestinationIndex] },
   { Name := MetricEncoderBasicDestinationPacketLoss,
     Desc := "Overall packet loss ratio for a destination (0-1).",
     Labels := [LabelEncoderIndex, LabelEncoderName, LabelDestination, LabelDestinationIndex] },
   { Name := MetricEncoderBasicDestinationFECPacketLoss,
     Desc := "FEC packet loss for a destination (fractional).",
     Labels := [LabelEncoderIndex, LabelEncoderName, LabelDestination, LabelDestinationIndex] },
   { Name := MetricEncoderBasicDestinationFECOverhead,
     Desc := "FEC bitrate overhead ratio for a destination (fractional).",
     Labels := [LabelEncoderIndex, LabelEncoderName, LabelDestination, LabelDestinationIndex] },
   { Name := MetricEncoderBasicDestinationUDPSmoothingBuffer,
     Desc := "UDP smoothing buffer duration for a destination in seconds.",
     Labels := [LabelEncoderIndex, LabelEncoderName, LabelDestination, LabelDestinationIndex] },
   { Name := MetricEncoderBasicDestinationPathLatency,
     Desc := "Current latency in seconds for a destination path.",
     Labels := [LabelEncoderIndex, LabelEncoderName, LabelBondingDestination, LabelDestination,
                LabelDestinationIndex, LabelNetworkInterface] },
   { Name := MetricEncoderBasicDestinationPathLatencyHistorical,
     Desc := "Historical average latency in seconds for a destination path.",
     Labels := [LabelEncoderIndex, LabelEncoderName, LabelBondingDestination, LabelDestination,
                LabelDestinationIndex, LabelNetworkInterface] },
   { Name := MetricEncoderBasicDestinationPathViable,
     Desc := "1 if the destination path is viable, 0 otherwise.",
     Labels := [LabelEncoderIndex, LabelEncoderName, LabelBondingDestination, LabelDestination,
                LabelDestinationIndex, LabelNetworkInterface] },
   { Name := MetricEncoderBasicDestinationPathBitrate,
     Desc := "Current bitrate on a specific destination path (bits per second).",
     Labels := [LabelEncoderIndex, LabelEncoderName, LabelBondingDestination, LabelDestination,
                LabelDestinationIndex, LabelNetworkInterface] },
   { Name := MetricEncoderBasicDestinationPathPacketLoss,
     Desc := "Current packet loss ratio (0-1) on a destination path.",
     Labels := [LabelEncoderIndex, LabelEncoderName, LabelBondingDestination, LabelDestination,
                LabelDestinationIndex, LabelNetworkInterface] },
   { Name := MetricEncoderBasicDestinationPathPacketLossHistorical,
     Desc := "Historical average packet loss ratio (0-1) on a destination path.",
     Labels := [LabelEncoderIndex, LabelEncoderName, LabelBondingDestination, LabelDestination,
                LabelDestinationIndex, LabelNetworkInterface] },
   { Name := MetricEncoderBasicDestinationPathCapacity,
     Desc := "Estimated capacity in bits per second for a destination path.",
     Labels := [LabelEncoderIndex, LabelEncoderName, LabelBondingDestination, LabelDestination,
                LabelDestinationIndex, LabelNetworkInterface] },
   { Name := MetricEncoderBasicDestinationPathRedundancy,
     Desc := "Configured redundancy bitrate for a destination path (bits per second).",
     Labels := [LabelEncoderIndex, LabelEncoderName, LabelBondingDestination, LabelDestination,
                LabelDestinationIndex, LabelNetworkInterface] },
   { Name := MetricEncoderBasicDestinationFailoverActive,
     Desc := "Configured redundancy bitrate for a destination path (bits per second).",
     Labels := [LabelEncoderIndex, LabelEncoderName, LabelDestination, LabelDestinationIndex] }]

/-! ## Package models

The JSON schema structs, with the fields the stages read (and the number and id of a
program); a field left out is read by no stage. The default of every field is its Go zero
value. -/

namespace models

structure AudioFormat where
  SampleRate : Int := 0
  Channels : Int := 0
  BitDepth : Int := 0
  deriving DecidableEq, Repr

structure AudioCodec where
  Name : String := ""
  Bitrate : Int := 0
  deriving DecidableEq, Repr

structure AudioStream where
  Format : AudioFormat := {}
  Codec : AudioCodec := {}
  deriving DecidableEq, Repr

structure VideoFormat where
  Interlaced : Bool := false
  BitDepth : Int := 0
  ForcedAspect : Bool := false
  PixelAspect : String := ""
  Height : Int := 0
  TopFieldFirst : Bool := false
  DisplayAspect : String := ""
  ChromaSubsampling : String := ""
  Framerate : Float64 := 0
  Width : Int := 0
  deriving DecidableEq, Repr

structure VideoCodec where
  Bitrate : Int := 0
  Name : String := ""
  Profile : String := ""
  Level : String := ""
  deriving DecidableEq, Repr

structure VideoStream where
  Format : VideoFormat := {}
  Codec : VideoCodec := {}
  deriving DecidableEq, Repr

structure VideoSource where
  Audio : List AudioStream := []
  Video : VideoStream := {}
  Available : Bool := false
  deriving DecidableEq, Repr

structure VideoOut where
  Audio : List AudioStream := []
  Video : VideoStream := {}
  deriving DecidableEq, Repr

structure VideoOutputStatus where
  Active : Bool := false
  VideoSource : VideoSource := {}
  VideoOut : VideoOut := {}
  Description : String := ""
  deriving DecidableEq, Repr

structure VideoOutput where
  Description : String := ""
  Index : Int := 0
  deriving DecidableEq, Repr

structure VideoOutputsResponse where
  VideoOutputs : List VideoOutput := []
  deriving DecidableEq, Repr

structure DecoderVideoFormat where
  Framerate : Float64 := 0
  DisplayAspect : String := ""
  TopFieldFirst : Bool := false
  ChromaSubsampling : String := ""
  Width : Int := 0
  ForcedAspect : Bool := false
  BitDepth : Int := 0
  Interlaced : Bool := false
  PixelAspect : String := ""
  Height : Int := 0
  deriving DecidableEq, Repr

structure DecoderVideoCodec where
  Level : String := ""
  Profile : String := ""
  Name : String := ""
  Bitrate : Int := 0
  deriving DecidableEq, Repr

structure DecoderVideo where
  Format : DecoderVideoFormat := {}
  Codec : DecoderVideoCodec := {}
  deriving DecidableEq, Repr

structure DecoderAudioFormat where
  BitDepth : Int := 0
  SampleRate : Int := 0
  Channels : Int := 0
  deriving DecidableEq, Repr

structure DecoderAudioCodec where
  Name : String := ""
  deriving DecidableEq, Repr

structure Audio where
  Codec : DecoderAudioCodec := {}
  Format : DecoderAudioFormat := {}
  deriving DecidableEq, Repr

structure EndToEndDelay where
  Delay : Float64 := 0
  Target : Float64 := 0
  deriving DecidableEq, Repr

structure Buffers where
  Reception : Float64 := 0
  Target : Float64 := 0
  Decoder : Float64 := 0
  deriving DecidableEq, Repr

structure Program where
  Video : DecoderVideo := {}
  Audio : List Audio := []
  Number : Int := 0
  ID : String := ""
  EndToEndDelay : EndToEndDelay := {}
  Buffers : Buffers := {}
  deriving DecidableEq, Repr

structure DecoderBonding where
  Buffer : Float64 := 0
  Protocol : String := ""
  deriving DecidableEq, Repr

structure FEC where
  Buffer : Float64 := 0
  PacketLoss : Float64 := 0
  deriving DecidableEq, Repr

structure Sender where
  Serial : String := ""
  Verified : Bool := false
  deriving DecidableEq, Repr

structure NetworkSource where
  Programs : List Program := []
  FEC : FEC := {}
  Bonding : DecoderBonding := {}
  Bitrate : Int := 0
  SourceType : String := ""
  Address : String := ""
  Sender : Sender := {}
  PacketLoss : Float64 := 0
  deriving DecidableEq, Repr

structure NetworkInputStatus where
  Description : String := ""
  NetworkSource : NetworkSource := {}
  Active : Bool := false
  deriving DecidableEq, Repr

structure NetworkInput where
  Index : Int := 0
  deriving DecidableEq, Repr

structure NetworkInputsResponse where
  NetworkInputs : List NetworkInput := []
  deriving DecidableEq, Repr

structure EncoderBondingPath where
  LatencyHistory : Float64 := 0
  Destination : String := ""
  RedundancyBitrate : Float64 := 0
  PacketLossHistory : Float64 := 0
  Bitrate : Float64 := 0
  Viable : Bool := false
  EstimatedCapacity : Float64 := 0
  NetworkInterface : String := ""
  Latency : Float64 := 0
  PacketLoss : Float64 := 0
  deriving DecidableEq, Repr

structure BondingInfo where
  Paths : List EncoderBondingPath := []
  Destination : String := ""
  FailoverActive : Bool := false
  deriving DecidableEq, Repr

structure FECStatus where
  PacketLoss : Float64 := 0
  BitrateOverhead : Float64 := 0
  deriving DecidableEq, Repr

structure BasicOutput where
  UDPSmoothingBuffer : Float64 := 0
  FEC : FECStatus := {}
  Bonding : BondingInfo := {}
  PacketLoss : Float64 := 0
  Bitrate : Float64 := 0
  deriving DecidableEq, Repr

structure EncoderDestinations where
  Basic : List BasicOutput := []
  deriving DecidableEq, Repr

structure EncodingStatus where
  Audio : List AudioStream := []
  TotalBitrate : Float64 := 0
  Video : VideoStream := {}
  deriving DecidableEq, Repr

structure EncoderStatus where
  VideoSource : VideoSource := {}
  Destinations : EncoderDestinations := {}
  Description : String := ""
  Active : Bool := false
  Encoding : EncodingStatus := {}
  deriving DecidableEq, Repr

structure Encoder where
  Index : Int := 0
  deriving DecidableEq, Repr

structure EncodersResponse where
  Encoders : List Encoder := []
  deriving DecidableEq, Repr

structure Ethernet where
  Link : Float64 := 0
  Address : String := ""
  deriving DecidableEq, Repr

structure IPAddress where
  Address : String := ""
  deriving DecidableEq, Repr

structure InterfaceStatus where
  TestingInternetAccess : Bool := false
  RxBitrate : Float64 := 0
  Ethernet : Ethernet := {}
  InternetAccess : Bool := false
  PrimaryInterface : Bool := false
  TxBitrate : Float64 := 0
  IP : IPAddress := {}
  deriving DecidableEq, Repr

structure StatusResponse where
  Status : List InterfaceStatus := []
  deriving DecidableEq, Repr

structure Memory where
  Available : Nat := 0
  Total : Nat := 0
  deriving DecidableEq, Repr

structure FirmwareVersion where
  Version : String := ""
  deriving DecidableEq, Repr

structure Firmware where
  Running : FirmwareVersion := {}
  Recovery : FirmwareVersion := {}
  Default : FirmwareVersion := {}
  deriving DecidableEq, Repr

structure CPU where
  Usage : Float64 := 0
  deriving DecidableEq, Repr

structure BondingPath where
  NetworkInterface : String := ""
  RTT : Float64 := 0
  RxBitrate : Int := 0
  Health : String := ""
  TxBitrate : Int := 0
  deriving DecidableEq, Repr

structure Bonding where
  Paths : List BondingPath := []
  deriving DecidableEq, Repr

structure RemoteManagement where
  Bonding : Bonding := {}
  deriving DecidableEq, Repr

structure SystemResponse where
  Memory : Memory := {}
  Firmware : Firmware := {}
  CPU : CPU := {}
  RemoteManagement : RemoteManagement := {}
  deriving DecidableEq, Repr

end models

/-! ## The standard library as the stages use it -/

/-- What the stages get from `net/url` and `encoding/json`, which are outside the
repository: for a raw URL, the text of the error `url.Parse` gives (`none` when it parses),
and for each struct decoded with `json.Unmarshal` into a zero value, the struct after the
call and the text of the error returned (`none` for nil). -/
structure Stdlib where
  urlParse : String → Option String
  unmarshalSystemResponse : String → models.SystemResponse × Option String
  unmarshalStatusResponse : String → models.StatusResponse × Option String
  unmarshalNetworkInputsResponse : String → models.NetworkInputsResponse × Option String
  unmarshalNetworkInputStatus : String → models.NetworkInputStatus × Option String
  unmarshalVideoOutputsResponse : String → models.VideoOutputsResponse × Option String
  unmarshalVideoOutputStatus : String → models.VideoOutputStatus × Option String
  unmarshalEncodersResponse : String → models.EncodersResponse × Option String
  unmarshalEncoderStatus : String → models.EncoderStatus × Option String

/-- The call `http.NewRequestWithContext(ctx, method, url, nil)`: fails when the URL does
not parse. -/
def NewRequestWithContext (lib : Stdlib) (ctx : Context) (method url : String) :
    Except GoError Request :=
  match lib.urlParse url with
  | some e => .error (.external e)
  | none => .ok { ctx := ctx, method := method, url := url }

/-- The call `http.NewRequest(method, url, nil)`: the request has the background context. -/
def NewRequest (lib : Stdlib) (method url : String) : Except GoError Request :=
  NewRequestWithContext lib Background method url

/-- The constant `url`. -/
def url : String := "https://iss.intinor.se/"

/-- The constant `unitEndpoint`. -/
def unitEndpoint : String := "api/v1/units/"

/-! ## Gauge writes -/

/-- One statement `mtrcs[name].WithLabelValues(labels...).Set(value)`. -/
structure Write where
  name : String
  labels : List String
  value : Float64
  deriving DecidableEq, Repr

/-- Execution of one gauge write on the map `mtrcs`: a panic when the map has no collection
of that name (nil pointer) or when the number of label values is wrong. -/
def setGauge (mtrcs : GaugeMap) (w : Write) : Except Panic GaugeMap :=
  match find mtrcs w.name with
  | none => .error "invalid memory address or nil pointer dereference"
  | some v =>
    match v.Set w.labels w.value with
    | .error p => .error p
    | .ok v2 => .ok (upsert mtrcs w.name v2)

/-- Execution of gauge writes in program order. -/
def applyWrites (mtrcs : GaugeMap) : List Write → Except Panic GaugeMap
  | [] => .ok mtrcs
  | w :: ws =>
    match setGauge mtrcs w with
    | .error p => .error p
    | .ok m => applyWrites m ws

/-- The loop `for _, metric := range mtrcs` that registers every collection of the map and
resets it; the map is walked in the order of its list. -/
def registerAll (registry : Registerer) (base : Registry) :
    GaugeMap → Except Panic (Registry × GaugeMap)
  | [] => .ok (base, [])
  | (name, metric) :: rest =>
    match registry.MustRegister base (.gaugeVec metric) with
    | .error p => .error p
    | .ok base1 =>
      match registerAll registry base1 rest with
      | .error p => .error p
      | .ok (base2, m) => .ok (base2, (name, metric.Reset) :: m)

/-- A registered collector with the entries its collection has in `mtrcs`, if it is one of
the collections of `mtrcs`. -/
def publishOne (mtrcs : GaugeMap) (x : Registered) : Registered :=
  match x.collector with
  | .gauge _ => x
  | .gaugeVec v =>
    match find mtrcs v.opts.Name with
    | none => x
    | some v2 => { x with collector := .gaugeVec v2 }

/-- The registry holds pointers to the collections of the map: this gives every registered
collection the entries it has in `mtrcs` when the stage returns. -/
def Registry.publish (r : Registry) (mtrcs : GaugeMap) : Registry :=
  ⟨r.collectors.map (publishOne mtrcs)⟩

/-- The collection of a registered collector, when it is a collection of the given name. -/
def vecNamed (name : String) (x : Registered) : Option GaugeVec :=
  match x.collector with
  | .gauge _ => none
  | .gaugeVec v => if v.opts.Name = name then some v else none

/-- The collection registered under a name. -/
def Registry.vec? (r : Registry) (name : String) : Option GaugeVec :=
  r.collectors.findSome? (vecNamed name)

/-- The value a registry holds for a metric name and a tuple of label values. -/
def Registry.value? (r : Registry) (name : String) (lvs : List String) : Option Float64 :=
  match r.vec? name with
  | none => none
  | some v => find v.entries lvs

/-! ## The stage `system` -/

/-- The gauge writes of `system` after a successful decode (system.go lines 100-109). -/
def systemWrites (info : models.SystemResponse) : List Write :=
  [⟨CPUUtilisationPercent, [], info.CPU.Usage⟩,
   ⟨MemoryAvailableBytes, [], (info.Memory.Available : Float64)⟩,
   ⟨MemoryTotalBytes, [], (info.Memory.Total : Float64)⟩] ++
  info.RemoteManagement.Bonding.Paths.flatMap (fun path =>
    let ni := simplifyNetworkInterface path.NetworkInterface
    [⟨BondingPathRTTSeconds, [ni], path.RTT⟩,
     ⟨BondingPathRxBitrate, [ni], (path.RxBitrate : Float64)⟩,
     ⟨BondingPathTxBitrate, [ni], (path.TxBitrate : Float64)⟩,
     ⟨BondingPathHealth, [ni], (metrics.StringBoolToInt path.Health : Float64)⟩])

/-- The write of the gauge `system_info` (system.go lines 114-118). -/
def systemInfoWrite (info : models.SystemResponse) (success : Float64) : Write :=
  ⟨SystemInfo,
    [info.Firmware.Running.Version, info.Firmware.Recovery.Version,
      info.Firmware.Default.Version],
    success⟩

/-- The function `system`. -/
def system (lib : Stdlib) : metricGatherer :=
  fun ctx registry doReq id reg =>
    match NewRequestWithContext lib ctx "GET" (url ++ unitEndpoint ++ id ++ "/system/status") with
    | .error err => .ok { registry := reg, requests := [], err := some err }
    | .ok request =>
      match registerAll registry reg (metrics.NewGaugeMap sysMetrics) with
      | .error p => .error p
      | .ok (reg1, mtrcs) =>
        let fetched : models.SystemResponse × Option GoError × Float64 × List Write :=
          match doReq request with
          | (_, some err) => ({}, some err, 0, [])
          | (res, none) =>
            match lib.unmarshalSystemResponse (res.getD "") with
            | (info, some e) => (info, some (.external e), 0, [])
            | (info, none) => (info, none, 1, systemWrites info)
        match applyWrites mtrcs
            (fetched.2.2.2 ++ [systemInfoWrite fetched.1 fetched.2.2.1]) with
        | .error p => .error p
        | .ok mtrcs2 =>
          .ok { registry := reg1.publish mtrcs2, requests := [request], err := fetched.2.1 }

/-! ## The stage `interfaces` -/

/-- The gauge writes of `interfaces` for one interface (interfaces.go lines 83-90). -/
def interfaceWrites (nwint : models.InterfaceStatus) : List Write :=
  let mac := nwint.Ethernet.Address
  let ip := nwint.IP.Address
  let isPri := nwint.PrimaryInterface
  [⟨InterfaceRxBitrate, [mac, ip, metrics.BoolToString isPri], nwint.RxBitrate⟩,
   ⟨InterfaceTxBitrate, [mac, ip, metrics.BoolToString isPri], nwint.TxBitrate⟩,
   ⟨InterfaceLinkSpeed, [mac, ip, metrics.BoolToString isPri], nwint.Ethernet.Link⟩,
   ⟨InterfaceInternetAccess, [mac, ip, metrics.BoolToString isPri],
     metrics.BoolToFloat64 nwint.InternetAccess⟩,
   ⟨InterfaceTestingInternetAccess, [mac, ip, metrics.BoolToString isPri],
     metrics.BoolToFloat64 nwint.TestingInternetAccess⟩]

/-- The function `interfaces`. -/
def interfaces (lib : Stdlib) : metricGatherer :=
  fun ctx registry doReq id reg =>
    match NewRequestWithContext lib ctx "GET"
        (url ++ unitEndpoint ++ id ++ "/network_interfaces/status") with
    | .error err => .ok { registry := reg, requests := [], err := some err }
    | .ok request =>
      match registerAll registry reg (metrics.NewGaugeMap interfaceMetrics) with
      | .error p => .error p
      | .ok (reg1, mtrcs) =>
        match doReq request with
        | (_, some err) =>
          .ok { registry := reg1.publish mtrcs, requests := [request], err := some err }
        | (res, none) =>
          match lib.unmarshalStatusResponse (res.getD "") with
          | (_, some e) =>
            .ok { registry := reg1.publish mtrcs, requests := [request],
                  err := some (.external e) }
          | (interfaces, none) =>
            match applyWrites mtrcs (interfaces.Status.flatMap interfaceWrites) with
            | .error p => .error p
            | .ok mtrcs2 =>
              .ok { registry := reg1.publish mtrcs2, requests := [request], err := none }

/-! ## The per-item loop of `decoders`, `outputs` and `encoders` -/

/-- The variables the per-item loops change: the collections, the requests handed to `doReq`
so far, and the variable `err` of the function, which the final `return err` returns (the
`err` of `res, err := doReq(...)` and of the decode is a new variable of the loop body). -/
structure ItemLoop where
  mtrcs : GaugeMap
  requests : List Request
  err : Option GoError
  deriving DecidableEq, Repr

/-- The loop over the listed items: build the status request (on failure assign `err` and
continue), fetch it (on failure continue), decode it (on failure continue), and run the gauge
writes of the item. -/
def statusLoop {Item Status : Type} (newRequest : Item → Except GoError Request)
    (doReq : Request → Option String × Option GoError)
    (unmarshal : String → Status × Option String) (writes : Item → Status → List Write) :
    List Item → ItemLoop → Except Panic ItemLoop
  | [], st => .ok st
  | item :: rest, st =>
    match newRequest item with
    | .error err =>
      statusLoop newRequest doReq unmarshal writes rest { st with err := some err }
    | .ok request =>
      let st1 : ItemLoop := { st with requests := st.requests ++ [request], err := none }
      match doReq request with
      | (_, some _) => statusLoop newRequest doReq unmarshal writes rest st1
      | (res, none) =>
        match unmarshal (res.getD "") with
        | (_, some _) => statusLoop newRequest doReq unmarshal writes rest st1
        | (e, none) =>
          match applyWrites st1.mtrcs (writes item e) with
          | .error p => .error p
          | .ok mtrcs2 =>
            statusLoop newRequest doReq unmarshal writes rest { st1 with mtrcs := mtrcs2 }

/-! ## The stage `decoders` -/

/-- The gauge writes of `decoders` for one audio track of a program (lines 233-243). -/
def decoderAudioWrite (decoderIdx : String) (e : models.NetworkInputStatus)
    (progIdxStr : String) (audioIdx : Nat) (audio : models.Audio) : Write :=
  ⟨NetworkInputAudioStatus,
    [decoderIdx, e.Description, audio.Codec.Name, Itoa audio.Format.Channels,
      Itoa audio.Format.SampleRate, Itoa audio.Format.BitDepth, progIdxStr,
      Itoa (Int.ofNat audioIdx)],
    metrics.BoolToFloat64 e.Active⟩

/-- The gauge writes of `decoders` for one program of a network input (lines 201-252). -/
def decoderProgramWrites (decoderIdx : String) (e : models.NetworkInputStatus)
    (progIndex : Nat) (prog : models.Program) : List Write :=
  let progIdxStr := Itoa (Int.ofNat progIndex)
  let video := prog.Video
  [⟨NetworkInputVideoStatus,
     [decoderIdx, e.Description, video.Codec.Name, video.Codec.Profile, video.Codec.Level,
       video.Format.ChromaSubsampling, formatFloat 2 video.Format.Framerate,
       Itoa video.Format.Width, Itoa video.Format.Height, Itoa video.Format.BitDepth,
       metrics.BoolToString video.Format.Interlaced,
       metrics.BoolToString video.Format.TopFieldFirst, video.Format.DisplayAspect,
       video.Format.PixelAspect, metrics.BoolToString video.Format.ForcedAspect, progIdxStr],
     metrics.BoolToFloat64 e.Active⟩,
   ⟨NetworkInputVideoBitrate, [decoderIdx, e.Description, progIdxStr],
     (video.Codec.Bitrate : Float64)⟩] ++
  prog.Audio.enum.map (fun a => decoderAudioWrite decoderIdx e progIdxStr a.1 a.2) ++
  [⟨NetworkInputBuffersReception, [decoderIdx, e.Description, progIdxStr],
     prog.Buffers.Reception⟩,
   ⟨NetworkInputBuffersDecoder, [decoderIdx, e.Description, progIdxStr], prog.Buffers.Decoder⟩,
   ⟨NetworkInputBuffersTarget, [decoderIdx, e.Description, progIdxStr], prog.Buffers.Target⟩,
   ⟨NetworkInputEndToEndDelay,
     [decoderIdx, e.Description, progIdxStr, formatFloat 4 prog.EndToEndDelay.Target],
     prog.EndToEndDelay.Delay⟩]

/-- The gauge writes of `decoders` for one network input (decoders.go lines 166-253). -/
def decoderWrites (decoder : models.NetworkInput) (e : models.NetworkInputStatus) :
    List Write :=
  let decoderIdx := Itoa decoder.Index
  [⟨NetworkInputActive,
     [decoderIdx, e.Description, e.NetworkSource.SourceType, e.NetworkSource.Address,
       e.NetworkSource.Sender.Serial, metrics.BoolToString e.NetworkSource.Sender.Verified],
     metrics.BoolToFloat64 e.Active⟩,
   ⟨NetworkInputBitrate,
     [decoderIdx, e.Description, e.NetworkSource.SourceType, e.NetworkSource.Sender.Serial],
     (e.NetworkSource.Bitrate : Float64)⟩,
   ⟨NetworkInputPacketLoss, [decoderIdx, e.Description], e.NetworkSource.PacketLoss⟩,
   ⟨NetworkInputFecBuffer, [decoderIdx, e.Description, "0"], e.NetworkSource.FEC.Buffer⟩,
   ⟨NetworkInputFecPacketLoss, [decoderIdx, e.Description, "0"],
     e.NetworkSource.FEC.PacketLoss⟩] ++
  (if e.NetworkSource.Bonding.Protocol ≠ "" then
    [⟨NetworkInputBondingBuffer, [decoderIdx, e.Description, e.NetworkSource.Bonding.Protocol],
      e.NetworkSource.Bonding.Buffer⟩]
   else []) ++
  e.NetworkSource.Programs.enum.flatMap (fun p => decoderProgramWrites decoderIdx e p.1 p.2)

/-- The function `decoders`. -/
def decoders (lib : Stdlib) : metricGatherer :=
  fun ctx registry doReq id reg =>
    match NewRequestWithContext lib ctx "GET" (url ++ unitEndpoint ++ id ++ "/network_inputs") with
    | .error err => .ok { registry := reg, requests := [], err := some err }
    | .ok request =>
      match doReq request with
      | (_, some err) => .ok { registry := reg, requests := [request], err := some err }
      | (res, none) =>
        match lib.unmarshalNetworkInputsResponse (res.getD "") with
        | (_, some e) =>
          .ok { registry := reg, requests := [request], err := some (.external e) }
        | (decoders, none) =>
          match registerAll registry reg (metrics.NewGaugeMap networkInputMetrics) with
          | .error p => .error p
          | .ok (reg1, mtrcs) =>
            match statusLoop
                (fun decoder : models.NetworkInput =>
                  NewRequestWithContext lib ctx "GET"
                    (url ++ unitEndpoint ++ id ++ "/network_inputs/" ++ Itoa decoder.Index ++
                      "/status"))
                doReq lib.unmarshalNetworkInputStatus decoderWrites decoders.NetworkInputs
                { mtrcs := mtrcs, requests := [request], err := none } with
            | .error p => .error p
            | .ok st =>
              .ok { registry := reg1.publish st.mtrcs, requests := st.requests, err := st.err }

/-! ## The stage `outputs` -/

/-- The gauge writes of `outputs` for one video output (outputs.go lines 144-197). -/
def outputWrites (output : models.VideoOutput) (e : models.VideoOutputStatus) : List Write :=
  [⟨OutputVideoActive,
     [Itoa output.Index, output.Description, Itoa e.VideoOut.Video.Format.Width,
       Itoa e.VideoOut.Video.Format.Height, formatFloat 2 e.VideoOut.Video.Format.Framerate,
       Itoa e.VideoOut.Video.Format.BitDepth,
       metrics.BoolToString e.VideoOut.Video.Format.Interlaced,
       e.VideoOut.Video.Format.ChromaSubsampling, e.VideoOut.Video.Format.PixelAspect,
       e.VideoOut.Video.Format.DisplayAspect,
       metrics.BoolToString e.VideoOut.Video.Format.TopFieldFirst],
     metrics.BoolToFloat64 e.Active⟩] ++
  e.VideoOut.Audio.enum.map (fun a =>
    ⟨OutputAudioActive,
      [Itoa output.Index, output.Description, Itoa (Int.ofNat a.1), Itoa a.2.Format.Channels,
        Itoa a.2.Format.SampleRate, Itoa a.2.Format.BitDepth],
      metrics.BoolToFloat64 e.Active⟩) ++
  [⟨OutputVideoSourceAvailable,
     [Itoa output.Index, output.Description, e.VideoSource.Video.Codec.Name,
       Itoa e.VideoSource.Video.Codec.Bitrate, e.VideoSource.Video.Codec.Profile,
       e.VideoSource.Video.Codec.Level, Itoa e.VideoSource.Video.Format.Width,
       Itoa e.VideoSource.Video.Format.Height,
       formatFloat 2 e.VideoSource.Video.Format.Framerate,
       Itoa e.VideoSource.Video.Format.BitDepth,
       metrics.BoolToString e.VideoSource.Video.Format.Interlaced,
       e.VideoSource.Video.Format.ChromaSubsampling, e.VideoSource.Video.Format.PixelAspect,
       e.VideoSource.Video.Format.DisplayAspect,
       metrics.BoolToString e.VideoSource.Video.Format.TopFieldFirst],
     metrics.BoolToFloat64 e.VideoSource.Available⟩] ++
  e.VideoOut.Audio.enum.map (fun a =>
    ⟨OutputAudioSourceAvailable,
      [Itoa output.Index, output.Description, Itoa (Int.ofNat a.1), a.2.Codec.Name,
        Itoa a.2.Format.Channels, Itoa a.2.Format.SampleRate, Itoa a.2.Format.BitDepth],
      metrics.BoolToFloat64 e.VideoSource.Available⟩)

/-- The function `outputs`. -/
def outputs (lib : Stdlib) : metricGatherer :=
  fun ctx registry doReq id reg =>
    match NewRequestWithContext lib ctx "GET" (url ++ unitEndpoint ++ id ++ "/video_outputs") with
    | .error err => .ok { registry := reg, requests := [], err := some err }
    | .ok request =>
      match doReq request with
      | (_, some err) => .ok { registry := reg, requests := [request], err := some err }
      | (res, none) =>
        match lib.unmarshalVideoOutputsResponse (res.getD "") with
        | (_, some e) =>
          .ok { registry := reg, requests := [request], err := some (.external e) }
        | (outputs, none) =>
          match registerAll registry reg (metrics.NewGaugeMap videoMetrics) with
          | .error p => .error p
          | .ok (reg1, mtrcs) =>
            match statusLoop
                (fun output : models.VideoOutput =>
                  NewRequestWithContext lib ctx "GET"
                    (url ++ unitEndpoint ++ id ++ "/video_outputs/" ++ Itoa output.Index ++
                      "/status"))
                doReq lib.unmarshalVideoOutputStatus outputWrites outputs.VideoOutputs
                { mtrcs := mtrcs, requests := [request], err := none } with
            | .error p => .error p
            | .ok st =>
              .ok { registry := reg1.publish st.mtrcs, requests := st.requests, err := st.err }

/-! ## The stage `encoders` -/

/-- The gauge writes of `encoders` for one bonding path of a destination (lines 460-530). -/
def encoderPathWrites (encoderIdx : String) (e : models.EncoderStatus)
    (basic : models.BasicOutput) (destinationIdx : String) (path : models.EncoderBondingPath) :
    List Write :=
  let labels : List String :=
    [encoderIdx, e.Description, basic.Bonding.Destination, path.Destination, destinationIdx,
      simplifyNetworkInterface path.NetworkInterface]
  [⟨MetricEncoderBasicDestinationPathLatency, labels, path.Latency⟩,
   ⟨MetricEncoderBasicDestinationPathLatencyHistorical, labels, path.LatencyHistory⟩,
   ⟨MetricEncoderBasicDestinationPathViable, labels, metrics.BoolToFloat64 path.Viable⟩,
   ⟨MetricEncoderBasicDestinationPathBitrate, labels, path.Bitrate⟩,
   ⟨MetricEncoderBasicDestinationPathPacketLoss, labels, path.PacketLoss⟩,
   ⟨MetricEncoderBasicDestinationPathPacketLossHistorical, labels, path.PacketLossHistory⟩,
   ⟨MetricEncoderBasicDestinationPathCapacity, labels, path.EstimatedCapacity⟩,
   ⟨MetricEncoderBasicDestinationPathRedundancy, labels, path.RedundancyBitrate⟩]

/-- The gauge writes of `encoders` for one basic destination (lines 416-531). -/
def encoderDestinationWrites (encoderIdx : String) (e : models.EncoderStatus) (i : Nat)
    (basic : models.BasicOutput) : List Write :=
  let destinationIdx := Itoa (Int.ofNat i)
  let labels : List String :=
    [encoderIdx, e.Description, basic.Bonding.Destination, destinationIdx]
  [⟨MetricEncoderDestinationBitrate, labels, basic.Bitrate⟩,
   ⟨MetricEncoderBasicDestinationPacketLoss, labels, basic.PacketLoss⟩,
   ⟨MetricEncoderBasicDestinationFECPacketLoss, labels, basic.FEC.PacketLoss⟩,
   ⟨MetricEncoderBasicDestinationFECOverhead, labels, basic.FEC.BitrateOverhead⟩,
   ⟨MetricEncoderBasicDestinationUDPSmoothingBuffer, labels, basic.UDPSmoothingBuffer⟩,
   ⟨MetricEncoderBasicDestinationFailoverActive, labels,
     metrics.BoolToFloat64 basic.Bonding.FailoverActive⟩] ++
  basic.Bonding.Paths.flatMap (encoderPathWrites encoderIdx e basic destinationIdx)

/-- The gauge writes of `encoders` for one encoder (encoders.go lines 346-532). -/
def encoderWrites (encoder : models.Encoder) (e : models.EncoderStatus) : List Write :=
  let encoderIdx := Itoa encoder.Index
  [⟨MetricEncoderVideoInputStatus,
     [encoderIdx, e.Description, formatFloat 2 e.VideoSource.Video.Format.Framerate,
       Itoa e.VideoSource.Video.Format.Width, Itoa e.VideoSource.Video.Format.Height,
       Itoa e.VideoSource.Video.Format.BitDepth,
       metrics.BoolToString e.VideoSource.Video.Format.Interlaced,
       metrics.BoolToString e.VideoSource.Video.Format.TopFieldFirst,
       e.VideoSource.Video.Format.ChromaSubsampling, e.VideoSource.Video.Format.DisplayAspect,
       e.VideoSource.Video.Format.PixelAspect,
       metrics.BoolToString e.VideoSource.Video.Format.ForcedAspect],
     metrics.BoolToFloat64 e.VideoSource.Available⟩,
   ⟨MetricEncoderVideoStatus,
     [encoderIdx, e.Description, e.Encoding.Video.Codec.Name, e.Encoding.Video.Codec.Profile,
       e.Encoding.Video.Codec.Level, Itoa e.Encoding.Video.Codec.Bitrate,
       formatFloat 2 e.Encoding.Video.Format.Framerate, Itoa e.Encoding.Video.Format.Width,
       Itoa e.Encoding.Video.Format.Height, Itoa e.Encoding.Video.Format.BitDepth,
       metrics.BoolToString e.Encoding.Video.Format.Interlaced,
       metrics.BoolToString e.Encoding.Video.Format.TopFieldFirst,
       e.Encoding.Video.Format.ChromaSubsampling, e.Encoding.Video.Format.DisplayAspect,
       e.Encoding.Video.Format.PixelAspect,
       metrics.BoolToString e.Encoding.Video.Format.ForcedAspect],
     metrics.BoolToFloat64 e.Active⟩] ++
  e.Encoding.Audio.enum.map (fun a =>
    ⟨MetricEncoderAudioStatus,
      [encoderIdx, e.Description, Itoa (Int.ofNat a.1), a.2.Codec.Name, Itoa a.2.Codec.Bitrate,
        Itoa a.2.Format.SampleRate, Itoa a.2.Format.Channels],
      metrics.BoolToFloat64 e.Active⟩) ++
  [⟨MetricEncoderTotalBitrate, [encoderIdx, e.Description], e.Encoding.TotalBitrate⟩] ++
  e.Destinations.Basic.enum.flatMap (fun b => encoderDestinationWrites encoderIdx e b.1 b.2)

/-- The function `encoders`. The status request of an encoder is built with
`http.NewRequest`, without the context of the stage. -/
def encoders (lib : Stdlib) : metricGatherer :=
  fun ctx registry doReq id reg =>
    match NewRequestWithContext lib ctx "GET" (url ++ unitEndpoint ++ id ++ "/encoders") with
    | .error err => .ok { registry := reg, requests := [], err := some err }
    | .ok request =>
      match doReq request with
      | (_, some err) => .ok { registry := reg, requests := [request], err := some err }
      | (res, none) =>
        match lib.unmarshalEncodersResponse (res.getD "") with
        | (_, some e) =>
          .ok { registry := reg, requests := [request], err := some (.external e) }
        | (encoders, none) =>
          match registerAll registry reg (metrics.NewGaugeMap encoderMetrics) with
          | .error p => .error p
          | .ok (reg1, mtrcs) =>
            match statusLoop
                (fun encoder : models.Encoder =>
                  NewRequest lib "GET"
                    (url ++ unitEndpoint ++ id ++ "/encoders/" ++ Itoa encoder.Index ++
                      "/status"))
                doReq lib.unmarshalEncoderStatus encoderWrites encoders.Encoders
                { mtrcs := mtrcs, requests := [request], err := none } with
            | .error p => .error p
            | .ok st =>
              .ok { registry := reg1.publish st.mtrcs, requests := st.requests, err := st.err }

/-! ## The handler with its stage list -/

/-- The stage list that `Handle` passes to `gatherMetrics` (direkt.go line 50). -/
def stages (lib : Stdlib) : List metricGatherer :=
  [system lib, interfaces lib, decoders lib, outputs lib, encoders lib]

/-- The method `Handle`. -/
def Direkt.Handle (d : Direkt) (lib : Stdlib) (r : ProbeRequest) (duration : Float64) :
    Except Panic HandleResult :=
  d.HandleWith (stages lib) r duration

/-! ## Auxiliary notions for the stage proofs -/

/-- The value the map of collections holds for a metric name and a tuple of label values. -/
def mapValue? (m : GaugeMap) (name : String) (lvs : List String) : Option Float64 :=
  match find m name with
  | none => none
  | some v => find v.entries lvs

/-- The value of the last write of a list to a metric name and a tuple of label values. -/
def lastWrite? : List Write → String → List String → Option Float64
  | [], _, _ => none
  | w :: ws, name, lvs =>
    match lastWrite? ws name lvs with
    | some x => some x
    | none => if w.name = name ∧ w.labels = lvs then some w.value else none

/-- Every collection of the map sits under its own metric name. -/
def KeyedByName (m : GaugeMap) : Prop := ∀ kv ∈ m, kv.2.opts.Name = kv.1

/-- The label value a write gives to a label name, by the definition table of its metric. -/
def Write.label (table : List metrics.Gauge) (w : Write) (label : String) : Option String :=
  match table.find? (fun g => decide (g.Name = w.name)) with
  | none => none
  | some g => find (g.Labels.zip w.labels) label

/-- The number a list of decimal digit characters spells, continuing from `a`. -/
def digitsValue (a : Nat) (l : List Char) : Nat :=
  l.foldl (fun acc c => 10 * acc + (c.toNat - 48)) a

/-- The common shape of the stages `decoders`, `outputs` and `encoders`: fetch and decode
the listing at `path`, register the collections of `table`, then run the per-item loop. -/
def listingStage {Listing Item Status : Type} (lib : Stdlib) (path : String)
    (unmarshalListing : String → Listing × Option String) (items : Listing → List Item)
    (table : List metrics.Gauge)
    (newRequest : Context → String → Item → Except GoError Request)
    (unmarshalStatus : String → Status × Option String)
    (writes : Item → Status → List Write) : metricGatherer :=
  fun ctx registry doReq id reg =>
    match NewRequestWithContext lib ctx "GET" (url ++ unitEndpoint ++ id ++ path) with
    | .error err => .ok { registry := reg, requests := [], err := some err }
    | .ok request =>
      match doReq request with
      | (_, some err) => .ok { registry := reg, requests := [request], err := some err }
      | (res, none) =>
        match unmarshalListing (res.getD "") with
        | (_, some e) =>
          .ok { registry := reg, requests := [request], err := some (.external e) }
        | (listing, none) =>
          match registerAll registry reg (metrics.NewGaugeMap table) with
          | .error p => .error p
          | .ok (reg1, mtrcs) =>
            match statusLoop (newRequest ctx id) doReq unmarshalStatus writes (items listing)
                { mtrcs := mtrcs, requests := [request], err := none } with
            | .error p => .error p
            | .ok st =>
              .ok { registry := reg1.publish st.mtrcs, requests := st.requests, err := st.err }

/-- The status request of a network input, as `decoders` builds it. -/
def decoderRequest (lib : Stdlib) (ctx : Context) (id : String) (decoder : models.NetworkInput) :
    Except GoError Request :=
  NewRequestWithContext lib ctx "GET"
    (url ++ unitEndpoint ++ id ++ "/network_inputs/" ++ Itoa decoder.Index ++ "/status")

/-- The status request of a video output, as `outputs` builds it. -/
def outputRequest (lib : Stdlib) (ctx : Context) (id : String) (output : models.VideoOutput) :
    Except GoError Request :=
  NewRequestWithContext lib ctx "GET"
    (url ++ unitEndpoint ++ id ++ "/video_outputs/" ++ Itoa output.Index ++ "/status")

/-- The status request of an encoder, as `encoders` builds it: without the context. -/
def encoderRequest (lib : Stdlib) (_ctx : Context) (id : String) (encoder : models.Encoder) :
    Except GoError Request :=
  NewRequest lib "GET" (url ++ unitEndpoint ++ id ++ "/encoders/" ++ Itoa encoder.Index ++ "/status")

/-- The number of label names of the collection the map holds under a metric name. -/
def arity? (m : GaugeMap) (name : String) : Option Nat :=
  (find m name).map (fun v => v.labelNames.length)

/-- A write fits a table of gauge definitions when the table defines its metric name with as
many label names as the write has label values. -/
def Write.fits (table : List metrics.Gauge) (w : Write) : Bool :=
  match table.find? (fun g => decide (g.Name = w.name)) with
  | none => false
  | some g => g.Labels.length == w.labels.length

/-! ## Example units for the stages -/

/-- The body of the system status with the CPU usage alone (the object with the one member
`cpu`, itself an object with the one member `usage` of value 42.5). -/
def cpuBody : String := "\x7b\"cpu\":\x7b\"usage\":42.5\x7d\x7d"

/-- The system status decoded from `cpuBody`: every field but the CPU usage has its zero
value. -/
def cpuInfo : models.SystemResponse := { CPU := { Usage := 42.5 } }

/-- A standard library that parses every URL and decodes `cpuBody` as `cpuInfo`; every other
body is rejected by every decoder. -/
def cpuLib : Stdlib :=
  { urlParse := fun _ => none
    unmarshalSystemResponse := fun body =>
      if body = cpuBody then (cpuInfo, none) else ({}, some "unexpected end of JSON input")
    unmarshalStatusResponse := fun _ => ({}, some "unexpected end of JSON input")
    unmarshalNetworkInputsResponse := fun _ => ({}, some "unexpected end of JSON input")
    unmarshalNetworkInputStatus := fun _ => ({}, some "unexpected end of JSON input")
    unmarshalVideoOutputsResponse := fun _ => ({}, some "unexpected end of JSON input")
    unmarshalVideoOutputStatus := fun _ => ({}, some "unexpected end of JSON input")
    unmarshalEncodersResponse := fun _ => ({}, some "unexpected end of JSON input")
    unmarshalEncoderStatus := fun _ => ({}, some "unexpected end of JSON input") }

/-- The registerer of a probe of unit D01. -/
def serialRegisterer : Registerer := WrapRegistererWith [("serial", "D01")]

/-- What a run of a stage returned, for a run that returned. -/
def ran (x : Except Panic StageReturn) : StageReturn :=
  match x with
  | .ok r => r
  | .error _ => ⟨⟨[]⟩, [], none⟩

/-- The body of a listing of two network inputs, of index 1 and 2. -/
def inputsBody : String :=
  "\x7b\"network_inputs\":[\x7b\"index\":1\x7d,\x7b\"index\":2\x7d]\x7d"

/-- The listing decoded from `inputsBody`. -/
def twoInputs : models.NetworkInputsResponse :=
  { NetworkInputs := [{ Index := 1 }, { Index := 2 }] }

/-- The body of the status of an active network input "studio" with one program, of number 7
and id "p7", that has one audio track. -/
def studioBody : String :=
  "\x7b\"description\":\"studio\",\"active\":true,\"network_source\":\x7b\"programs\":" ++
    "[\x7b\"number\":7,\"id\":\"p7\",\"audio\":[\x7b\x7d]\x7d]\x7d\x7d"

/-- The one program of the input "studio". -/
def studioProgram : models.Program := { Number := 7, ID := "p7", Audio := [{}] }

/-- The status decoded from `studioBody`. -/
def studioStatus : models.NetworkInputStatus :=
  { Description := "studio", Active := true, NetworkSource := { Programs := [studioProgram] } }

/-- A standard library that parses every URL, decodes `inputsBody` as `twoInputs` and
`studioBody` as `studioStatus`; every other body is rejected by every decoder. -/
def studioLib : Stdlib :=
  { urlParse := fun _ => none
    unmarshalSystemResponse := fun _ => ({}, some "unexpected end of JSON input")
    unmarshalStatusResponse := fun _ => ({}, some "unexpected end of JSON input")
    unmarshalNetworkInputsResponse := fun body =>
      if body = inputsBody then (twoInputs, none) else ({}, some "unexpected end of JSON input")
    unmarshalNetworkInputStatus := fun body =>
      if body = studioBody then (studioStatus, none)
      else ({}, some "unexpected end of JSON input")
    unmarshalVideoOutputsResponse := fun _ => ({}, some "unexpected end of JSON input")
    unmarshalVideoOutputStatus := fun _ => ({}, some "unexpected end of JSON input")
    unmarshalEncodersResponse := fun _ => ({}, some "unexpected end of JSON input")
    unmarshalEncoderStatus := fun _ => ({}, some "unexpected end of JSON input") }

/-- A unit D01 that answers the listing of its network inputs and the status of input 2, and
fails every other request, the status of input 1 among them. -/
def flakyUnit (req : Request) : Option String × Option GoError :=
  if req.url = url ++ unitEndpoint ++ "D01" ++ "/network_inputs" then (some inputsBody, none)
  else if req.url = url ++ unitEndpoint ++ "D01" ++ "/network_inputs/2/status" then
    (some studioBody, none)
  else (none, some (.errorsNew "request failed"))

/-! ## Auxiliary notions for the pipeline proofs -/

/-- What identifies a registered collector in the exposition: its constant labels and its
metric name. -/
def Registered.key (x : Registered) : List (String × String) × String :=
  (x.constLabels, x.collector.Name)

/-- The keys of the registered collectors, in registration order. -/
def Registry.keys (r : Registry) : List (List (String × String) × String) :=
  r.collectors.map Registered.key

/-- The keys under which a registerer registers the collections of a table. -/
def tableKeys (registry : Registerer) (table : List metrics.Gauge) :
    List (List (String × String) × String) :=
  table.map (fun g => (registry.labels, g.Name))

/-- A stage keeps to its table: run on a registry that holds none of the metric names of the
table, it returns, and the registry it leaves has the collectors it found, followed or not
by the collections of the table, registered through the registerer it was given. -/
def Footprint (table : List metrics.Gauge) (m : metricGatherer) : Prop :=
  ∀ (ctx : Context) (registry : Registerer)
    (doReq : Request → Option String × Option GoError) (id : String) (reg : Registry),
    (∀ x ∈ reg.collectors, x.collector.Name ∉ table.map (fun g => g.Name)) →
    ∃ r, m ctx registry doReq id reg = .ok r ∧
      (r.registry.keys = reg.keys ∨ r.registry.keys = reg.keys ++ tableKeys registry table)

/-- The five tables of gauge definitions, in the order of the stages. -/
def stageTables : List (List metrics.Gauge) :=
  [sysMetrics, interfaceMetrics, networkInputMetrics, videoMetrics, encoderMetrics]

/-- A stage leaves in place what it finds: every collector of the registry it is run on is,
unchanged, in the registry it returns. The interface `prometheus.Registerer` gives a stage no
way to reach the collectors of another stage. -/
def Keeps (m : metricGatherer) : Prop :=
  ∀ (ctx : Context) (registry : Registerer)
    (doReq : Request → Option String × Option GoError) (id : String) (reg : Registry)
    (r : StageReturn), m ctx registry doReq id reg = .ok r →
    ∀ x ∈ reg.collectors, x ∈ r.registry.collectors

/-- The samples of a response that is one exposition. -/
def exposed (h : HandleResult) : List Sample :=
  match h.w.body with
  | [.exposition samples] => samples
  | _ => []

/-- The body of a listing of one encoder, of index 0. -/
def encodersBody : String := "\x7b\"encoders\":[\x7b\"index\":0\x7d]\x7d"

/-- The listing decoded from `encodersBody`. -/
def oneEncoder : models.EncodersResponse := { Encoders := [{ Index := 0 }] }

/-- The body of a listing of one video output "sdi", of index 0. -/
def outputsBody : String :=
  "\x7b\"video_outputs\":[\x7b\"description\":\"sdi\",\"index\":0\x7d]\x7d"

/-- The listing decoded from `outputsBody`. -/
def oneOutput : models.VideoOutputsResponse :=
  { VideoOutputs := [{ Description := "sdi", Index := 0 }] }

/-- The body of the status of a video output whose source is available and has one audio
stream (aac, two channels, 48 kHz, 16 bit), and whose output side has no audio stream. -/
def sourceAudioBody : String :=
  "\x7b\"active\":true,\"video_source\":\x7b\"available\":true,\"audio\":[\x7b\"format\":" ++
    "\x7b\"sample_rate\":48000,\"channels\":2,\"bit_depth\":16\x7d,\"codec\":" ++
    "\x7b\"name\":\"aac\"\x7d\x7d]\x7d,\"video_out\":\x7b\"audio\":[]\x7d\x7d"

/-- The status decoded from `sourceAudioBody`. -/
def sourceAudioStatus : models.VideoOutputStatus :=
  { Active := true
    VideoSource :=
      { Available := true
        Audio := [{ Format := { SampleRate := 48000, Channels := 2, BitDepth := 16 },
                    Codec := { Name := "aac" } }] }
    VideoOut := { Audio := [] } }

/-- A standard library that parses every URL and decodes `outputsBody`, `sourceAudioBody`
and `encodersBody` as the values above; every other body is rejected by every decoder. -/
def mediaLib : Stdlib :=
  { urlParse := fun _ => none
    unmarshalSystemResponse := fun _ => ({}, some "unexpected end of JSON input")
    unmarshalStatusResponse := fun _ => ({}, some "unexpected end of JSON input")
    unmarshalNetworkInputsResponse := fun _ => ({}, some "unexpected end of JSON input")
    unmarshalNetworkInputStatus := fun _ => ({}, some "unexpected end of JSON input")
    unmarshalVideoOutputsResponse := fun body =>
      if body = outputsBody then (oneOutput, none)
      else ({}, some "unexpected end of JSON input")
    unmarshalVideoOutputStatus := fun body =>
      if body = sourceAudioBody then (sourceAudioStatus, none)
      else ({}, some "unexpected end of JSON input")
    unmarshalEncodersResponse := fun body =>
      if body = encodersBody then (oneEncoder, none)
      else ({}, some "unexpected end of JSON input")
    unmarshalEncoderStatus := fun _ => ({}, some "unexpected end of JSON input") }

/-- The network of a unit D01 that answers the listing of its video outputs, the status of
output 0 and the listing of its encoders with status 200 and the bodies above, and every
other request with status 404. -/
def mediaNetwork (req : Request) : Option Response × Option String :=
  if req.url = url ++ unitEndpoint ++ "D01" ++ "/video_outputs" then
    (some ⟨200, .ok outputsBody⟩, none)
  else if req.url = url ++ unitEndpoint ++ "D01" ++ "/video_outputs/0/status" then
    (some ⟨200, .ok sourceAudioBody⟩, none)
  else if req.url = url ++ unitEndpoint ++ "D01" ++ "/encoders" then
    (some ⟨200, .ok encodersBody⟩, none)
  else (some ⟨404, .ok ""⟩, none)

/-- A client without credentials on `mediaNetwork`. -/
def mediaUnit : Direkt := New "" "" mediaNetwork

/-- A client without credentials on the network of a unit D01 that answers the listing of
its network inputs with `inputsBody` and every other request with status 503. -/
def offlineItems : Direkt :=
  New "" "" (fun req =>
    if req.url = url ++ unitEndpoint ++ "D01" ++ "/network_inputs" then
      (some ⟨200, .ok inputsBody⟩, none)
    else (some ⟨503, .ok ""⟩, none))

/-- The body of a status of the network interfaces that lists no interface. -/
def interfacesBody : String := "\x7b\"status\":[]\x7d"

/-- A standard library that parses every URL, decodes `cpuBody` as `cpuInfo` and
`interfacesBody` as the empty list of interfaces; every other body is rejected by every
decoder. -/
def healthyLib : Stdlib :=
  { urlParse := fun _ => none
    unmarshalSystemResponse := fun body =>
      if body = cpuBody then (cpuInfo, none) else ({}, some "unexpected end of JSON input")
    unmarshalStatusResponse := fun body =>
      if body = interfacesBody then ({}, none) else ({}, some "unexpected end of JSON input")
    unmarshalNetworkInputsResponse := fun _ => ({}, some "unexpected end of JSON input")
    unmarshalNetworkInputStatus := fun _ => ({}, some "unexpected end of JSON input")
    unmarshalVideoOutputsResponse := fun _ => ({}, some "unexpected end of JSON input")
    unmarshalVideoOutputStatus := fun _ => ({}, some "unexpected end of JSON input")
    unmarshalEncodersResponse := fun _ => ({}, some "unexpected end of JSON input")
    unmarshalEncoderStatus := fun _ => ({}, some "unexpected end of JSON input") }

/-- A client without credentials on the network of a unit D01 that answers its system status
with `cpuBody`, the status of its network interfaces with `interfacesBody`, and every other
request with status 503. -/
def offlineAtDecoders : Direkt :=
  New "" "" (fun req =>
    if req.url = url ++ unitEndpoint ++ "D01" ++ "/system/status" then
      (some ⟨200, .ok cpuBody⟩, none)
    else if req.url = url ++ unitEndpoint ++ "D01" ++ "/network_interfaces/status" then
      (some ⟨200, .ok interfacesBody⟩, none)
    else (some ⟨503, .ok ""⟩, none))

/-- The probe of unit D01 through `offlineAtDecoders`: `system` and `interfaces` succeed,
the listing of `decoders` is answered with 503. -/
def offlineRun : Except Panic HandleResult :=
  offlineAtDecoders.Handle healthyLib (probeRequest ["D01"]) 0

/-! ## The loop of the orchestrator -/

section Loop

variable (ctx : Context) (registry : Registerer)
  (doReq : Request → Option String × Option GoError) (id : String)

theorem gatherLoop_cons (m : metricGatherer) (rest : List metricGatherer) (i : Nat)
    (st : LoopState) :
    gatherLoop ctx registry doReq id (m :: rest) i st =
      match m ctx registry doReq id st.registry with
      | .error p => .error p
      | .ok r =>
        if r.aborts then .ok (st.next i r)
        else gatherLoop ctx registry doReq id rest (i + 1) (st.next i r) := by
  rw [gatherLoop]
  cases hm : m ctx registry doReq id st.registry with
  | error p => rfl
  | ok r =>
    simp only []
    cases he : r.err with
    | none => simp [StageReturn.aborts, LoopState.next, he]
    | some e =>
      by_cases ho : errorsIsUnitOffline e = true
      · simp [StageReturn.aborts, LoopState.next, he, ho]
      · simp [StageReturn.aborts, LoopState.next, he, ho]


theorem gatherLoop_nil (i : Nat) (st : LoopState) :
    gatherLoop ctx registry doReq id [] i st = .ok st := by
  rw [gatherLoop]

/-- The calls recorded by the loop extend those recorded before it. -/
theorem gatherLoop_calls {ms : List metricGatherer} {i : Nat} {st st' : LoopState}
    (h : gatherLoop ctx registry doReq id ms i st = .ok st') :
    ∃ news, st'.calls = st.calls ++ news := by
  induction ms generalizing i st with
  | nil =>
    rw [gatherLoop_nil] at h
    cases h
    exact ⟨[], by simp⟩
  | cons m rest ih =>
    rw [gatherLoop_cons] at h
    cases hm : m ctx registry doReq id st.registry with
    | error p => simp [hm] at h
    | ok r =>
      simp only [hm] at h
      by_cases hb : r.aborts = true
      · simp only [hb, if_true] at h
        cases h
        exact ⟨_, rfl⟩
      · simp only [hb, Bool.false_eq_true, if_false] at h
        obtain ⟨news, hn⟩ := ih h
        exact ⟨⟨i, st.registry, r.registry, r.err⟩ :: news, by simp [hn, LoopState.next]⟩

/-- Inversion of one iteration of the loop, with the calls it adds. -/
theorem gatherLoop_cons_inv {m : metricGatherer} {rest : List metricGatherer} {i : Nat}
    {st st' : LoopState} {news : List Call}
    (h : gatherLoop ctx registry doReq id (m :: rest) i st = .ok st')
    (hc : st'.calls = st.calls ++ news) :
    ∃ r, m ctx registry doReq id st.registry = .ok r ∧
      ((r.aborts = true ∧ st' = st.next i r ∧ news = [⟨i, st.registry, r.registry, r.err⟩]) ∨
       (r.aborts = false ∧
        gatherLoop ctx registry doReq id rest (i + 1) (st.next i r) = .ok st' ∧
        ∃ news1, news = ⟨i, st.registry, r.registry, r.err⟩ :: news1 ∧
          st'.calls = (st.next i r).calls ++ news1)) := by
  rw [gatherLoop_cons] at h
  cases hm : m ctx registry doReq id st.registry with
  | error p => simp [hm] at h
  | ok r =>
    simp only [hm] at h
    refine ⟨r, rfl, ?_⟩
    by_cases hb : r.aborts = true
    · simp only [hb, if_true] at h
      cases h
      left
      refine ⟨hb, rfl, ?_⟩
      have : st.calls ++ [⟨i, st.registry, r.registry, r.err⟩] = st.calls ++ news := hc
      exact (List.append_cancel_left this).symm
    · simp only [hb, Bool.false_eq_true, if_false] at h
      right
      obtain ⟨news1, hn⟩ := gatherLoop_calls ctx registry doReq id h
      refine ⟨by simpa using hb, h, news1, ?_, hn⟩
      have : st.calls ++ news = st.calls ++ (⟨i, st.registry, r.registry, r.err⟩ :: news1) := by
        rw [← hc, hn]
        simp [LoopState.next]
      exact List.append_cancel_left this

/-- No more calls are recorded than there are stages. -/
theorem gatherLoop_length {ms : List metricGatherer} {i : Nat} {st st' : LoopState}
    {news : List Call}
    (h : gatherLoop ctx registry doReq id ms i st = .ok st')
    (hc : st'.calls = st.calls ++ news) : news.length ≤ ms.length := by
  induction ms generalizing i st news with
  | nil =>
    rw [gatherLoop_nil] at h
    cases h
    have : news = [] := by simpa using hc
    simp [this]
  | cons m rest ih =>
    obtain ⟨r, -, h1 | h2⟩ := gatherLoop_cons_inv ctx registry doReq id h hc
    · obtain ⟨-, -, hn⟩ := h1
      simp [hn]
    · obtain ⟨-, hl, news1, hn, hc1⟩ := h2
      have := ih hl hc1
      simp [hn]
      omega

/-- The call recorded at position `j` of the loop is that of stage `i + j`. -/
theorem gatherLoop_index {ms : List metricGatherer} {i : Nat} {st st' : LoopState}
    {news : List Call}
    (h : gatherLoop ctx registry doReq id ms i st = .ok st')
    (hc : st'.calls = st.calls ++ news) :
    ∀ j c, news[j]? = some c → c.index = i + j := by
  induction ms generalizing i st news with
  | nil =>
    rw [gatherLoop_nil] at h
    cases h
    have : news = [] := by simpa using hc
    simp [this]
  | cons m rest ih =>
    obtain ⟨r, -, h1 | h2⟩ := gatherLoop_cons_inv ctx registry doReq id h hc
    · obtain ⟨-, -, hn⟩ := h1
      intro j c hj
      subst hn
      cases j with
      | zero => simp at hj; subst hj; rfl
      | succ j => simp at hj
    · obtain ⟨-, hl, news1, hn, hc1⟩ := h2
      intro j c hj
      subst hn
      cases j with
      | zero => simp at hj; subst hj; rfl
      | succ j =>
        simp at hj
        have := ih hl hc1 j c hj
        omega

/-- Each stage runs on the registry the stage before it left. -/
theorem gatherLoop_threaded {ms : List metricGatherer} {i : Nat} {st st' : LoopState}
    {news : List Call}
    (h : gatherLoop ctx registry doReq id ms i st = .ok st')
    (hc : st'.calls = st.calls ++ news) : Threaded st.registry news st'.registry := by
  induction ms generalizing i st news with
  | nil =>
    rw [gatherLoop_nil] at h
    cases h
    have : news = [] := by simpa using hc
    simp [this, Threaded]
  | cons m rest ih =>
    obtain ⟨r, -, h1 | h2⟩ := gatherLoop_cons_inv ctx registry doReq id h hc
    · obtain ⟨-, hs, hn⟩ := h1
      subst hn hs
      simp [Threaded, LoopState.next]
    · obtain ⟨-, hl, news1, hn, hc1⟩ := h2
      subst hn
      exact ⟨rfl, ih hl hc1⟩

/-- A call that returned the offline sentinel is the last one, and the stages after it have
no influence on the outcome of the loop. -/
theorem gatherLoop_offline {ms : List metricGatherer} {i : Nat} {st st' : LoopState}
    {news : List Call}
    (h : gatherLoop ctx registry doReq id ms i st = .ok st')
    (hc : st'.calls = st.calls ++ news) :
    ∀ j c, news[j]? = some c → c.offline = true →
      news.length = j + 1 ∧ st'.registry = c.output ∧
      ∀ later, gatherLoop ctx registry doReq id (ms.take (j + 1) ++ later) i st = .ok st' := by
  induction ms generalizing i st news with
  | nil =>
    rw [gatherLoop_nil] at h
    cases h
    have : news = [] := by simpa using hc
    simp [this]
  | cons m rest ih =>
    obtain ⟨r, hm, h1 | h2⟩ := gatherLoop_cons_inv ctx registry doReq id h hc
    · obtain ⟨hb, hs, hn⟩ := h1
      intro j c hj ho
      subst hn
      cases j with
      | zero =>
        simp at hj
        subst hj
        refine ⟨rfl, by rw [hs]; rfl, ?_⟩
        intro later
        simp only [List.take_succ_cons, List.take_zero, List.cons_append, List.nil_append]
        rw [gatherLoop_cons, hm]
        simp [hb, hs]
      | succ j => simp at hj
    · obtain ⟨hb, hl, news1, hn, hc1⟩ := h2
      intro j c hj ho
      subst hn
      cases j with
      | zero =>
        simp at hj
        subst hj
        have : r.aborts = true := ho
        rw [hb] at this
        cases this
      | succ j =>
        simp at hj
        obtain ⟨h1, h2, h3⟩ := ih hl hc1 j c hj ho
        refine ⟨by simp [h1], h2, ?_⟩
        intro later
        simp only [List.take_succ_cons, List.cons_append]
        rw [gatherLoop_cons, hm]
        simp only [hb]
        exact h3 later

/-- When fewer calls are recorded than there are stages, the last one returned the offline
sentinel. -/
theorem gatherLoop_short {ms : List metricGatherer} {i : Nat} {st st' : LoopState}
    {news : List Call}
    (h : gatherLoop ctx registry doReq id ms i st = .ok st')
    (hc : st'.calls = st.calls ++ news) (hlt : news.length < ms.length) :
    ∃ c, news.getLast? = some c ∧ c.offline = true := by
  induction ms generalizing i st news with
  | nil => simp at hlt
  | cons m rest ih =>
    obtain ⟨r, hm, h1 | h2⟩ := gatherLoop_cons_inv ctx registry doReq id h hc
    · obtain ⟨hb, hs, hn⟩ := h1
      subst hn
      exact ⟨_, rfl, hb⟩
    · obtain ⟨hb, hl, news1, hn, hc1⟩ := h2
      subst hn
      have hlt1 : news1.length < rest.length := by simpa using hlt
      obtain ⟨c, hlast, ho⟩ := ih hl hc1 hlt1
      refine ⟨c, ?_, ho⟩
      cases news1 with
      | nil => simp at hlast
      | cons a l => simpa using hlast

/-- The retained error is the last error returned that is not the offline sentinel. -/
theorem gatherLoop_retErr {ms : List metricGatherer} {i : Nat} {st st' : LoopState}
    {news : List Call}
    (h : gatherLoop ctx registry doReq id ms i st = .ok st')
    (hc : st'.calls = st.calls ++ news) :
    st'.retErr =
      match (news.filterMap Call.softErr).getLast? with
      | some e => some e
      | none => st.retErr := by
  induction ms generalizing i st news with
  | nil =>
    rw [gatherLoop_nil] at h
    cases h
    have : news = [] := by simpa using hc
    simp [this]
  | cons m rest ih =>
    obtain ⟨r, hm, h1 | h2⟩ := gatherLoop_cons_inv ctx registry doReq id h hc
    · obtain ⟨hb, hs, hn⟩ := h1
      subst hn hs
      cases he : r.err with
      | none => simp [StageReturn.aborts, he] at hb
      | some e =>
        have ho : errorsIsUnitOffline e = true := by simpa [StageReturn.aborts, he] using hb
        simp [Call.softErr, LoopState.next, he, ho]
    · obtain ⟨hb, hl, news1, hn, hc1⟩ := h2
      subst hn
      rw [ih hl hc1]
      cases he : r.err with
      | none =>
        simp [Call.softErr, LoopState.next, he]
      | some e =>
        have ho : errorsIsUnitOffline e = false := by simpa [StageReturn.aborts, he] using hb
        simp only [Call.softErr, LoopState.next, he, ho, List.filterMap_cons]
        cases hl2 : (List.filterMap Call.softErr news1).getLast? with
        | none =>
          have : List.filterMap Call.softErr news1 = [] := by simpa using hl2
          simp [this, Call.softErr]
        | some e2 =>
          cases hf : List.filterMap Call.softErr news1 with
          | nil => simp [hf] at hl2
          | cons a l =>
            have : (a :: l).getLast? = some e2 := by rw [← hf]; exact hl2
            simp [Call.softErr] at hf ⊢
            simp [hf, List.getLast?_cons_cons, this]


/-- In a threaded list of calls, each call runs on the output of the one before it. -/
theorem Threaded.input_eq {r0 r : Registry} {l : List Call} (h : Threaded r0 l r) :
    ∀ j p c, l[j]? = some p → l[j + 1]? = some c → c.input = p.output := by
  induction l generalizing r0 with
  | nil => intro j p c hp; simp at hp
  | cons a l ih =>
    intro j p c hp hc
    obtain ⟨-, ht⟩ := h
    cases j with
    | zero =>
      simp at hp
      subst hp
      cases l with
      | nil => simp at hc
      | cons b l =>
        simp at hc
        subst hc
        exact ht.1
    | succ j =>
      simp at hp hc
      exact ih ht j p c hp (by simpa using hc)

/-- If no stage panics, whatever registry it is run on, the loop runs to its end. -/
theorem gatherLoop_total (ms : List metricGatherer)
    (hms : ∀ m ∈ ms, ∀ reg, ∃ r, m ctx registry doReq id reg = .ok r) (i : Nat)
    (st : LoopState) : ∃ st', gatherLoop ctx registry doReq id ms i st = .ok st' := by
  induction ms generalizing i st with
  | nil => exact ⟨st, gatherLoop_nil ctx registry doReq id i st⟩
  | cons m rest ih =>
    obtain ⟨r, hr⟩ := hms m (List.mem_cons_self _ _) st.registry
    rw [gatherLoop_cons, hr]
    by_cases hb : r.aborts = true
    · exact ⟨st.next i r, by simp [hb]⟩
    · simp only [hb, Bool.false_eq_true, if_false]
      exact ih (fun m hm => hms m (List.mem_cons_of_mem _ hm)) _ _

end Loop

/-! ## The orchestrator -/

/-- The method `gatherMetrics` is its loop run from the initial state, then `finish`. -/
theorem gatherMetrics_eq (d : Direkt) (ctx : Context) (metrics : List metricGatherer)
    (id : String) (duration : Float64) :
    d.gatherMetrics ctx metrics id duration =
      match gatherLoop ctx (WrapRegistererWith [("serial", id)]) d.doRequest id metrics 0
          (initialState id) with
      | .error p => .error p
      | .ok st => .ok (finish duration st) := by
  have h1 : (WrapRegistererWith [("serial", id)]).MustRegister NewRegistry
      (.gauge successGaugeOpts) = .ok ⟨[⟨[("serial", id)], .gauge successGaugeOpts⟩]⟩ := rfl
  have h2 : (WrapRegistererWith [("serial", id)]).MustRegister
      ⟨[⟨[("serial", id)], .gauge successGaugeOpts⟩]⟩ (.gauge durationGaugeOpts) =
      .ok (initialState id).registry := by
    simp [Registerer.MustRegister, Registerer.Register, WrapRegistererWith, Collector.Name,
      successGaugeOpts, durationGaugeOpts, initialState]
  unfold Direkt.gatherMetrics
  simp only [h1, h2]
  rfl

/-- A run of `gatherMetrics` that returns comes from a run of the loop that does. -/
theorem gatherMetrics_inv {d : Direkt} {ctx : Context} {metrics : List metricGatherer}
    {id : String} {duration : Float64} {g : GatherResult}
    (h : d.gatherMetrics ctx metrics id duration = .ok g) :
    ∃ st, gatherLoop ctx (WrapRegistererWith [("serial", id)]) d.doRequest id metrics 0
        (initialState id) = .ok st ∧ g = finish duration st ∧
      st.calls = (initialState id).calls ++ g.calls := by
  rw [gatherMetrics_eq] at h
  cases hl : gatherLoop ctx (WrapRegistererWith [("serial", id)]) d.doRequest id metrics 0
      (initialState id) with
  | error p => simp [hl] at h
  | ok st =>
    simp only [hl] at h
    cases h
    exact ⟨st, rfl, rfl, by simp [initialState, finish]⟩

/-- If no stage panics, whatever registry it is run on, `gatherMetrics` returns. -/
theorem gatherMetrics_total (d : Direkt) (ctx : Context) (metrics : List metricGatherer)
    (id : String) (duration : Float64)
    (hms : ∀ m ∈ metrics, ∀ reg,
      ∃ r, m ctx (WrapRegistererWith [("serial", id)]) d.doRequest id reg = .ok r) :
    ∃ g, d.gatherMetrics ctx metrics id duration = .ok g := by
  obtain ⟨st, hst⟩ := gatherLoop_total ctx (WrapRegistererWith [("serial", id)]) d.doRequest id
    metrics hms 0 (initialState id)
  exact ⟨finish duration st, by rw [gatherMetrics_eq, hst]⟩

/-- C1. In `gatherMetrics`, when the stage called at position `k` returns an error matching
the `errUnitOffline` sentinel, it is stage `k`, it is the last stage invoked (every recorded
call has index at most `k`), the returned registry is the registry as stage `k` left it, and
the outcome is the same whatever stages follow position `k` in the list: nothing of the later
stages is registered. -/
theorem gatherMetrics_stops_at_offline (d : Direkt) (ctx : Context)
    (metrics : List metricGatherer) (id : String) (duration : Float64) (g : GatherResult)
    (k : Nat) (c : Call) (e : GoError)
    (hrun : d.gatherMetrics ctx metrics id duration = .ok g)
    (hk : g.calls[k]? = some c) (he : c.err = some e)
    (hoff : errorsIsUnitOffline e = true) :
    c.index = k ∧ g.calls.length = k + 1 ∧ (∀ c2 ∈ g.calls, c2.index ≤ k) ∧
      g.baseRegistry = c.output ∧
      ∀ later, d.gatherMetrics ctx (metrics.take (k + 1) ++ later) id duration = .ok g := by
  obtain ⟨st, hl, hg, hc⟩ := gatherMetrics_inv hrun
  have hidx := gatherLoop_index ctx _ d.doRequest id hl hc
  have hco : c.offline = true := by simp [Call.offline, he, hoff]
  obtain ⟨hlen, hreg, hlater⟩ := gatherLoop_offline ctx _ d.doRequest id hl hc k c hk hco
  refine ⟨by simpa using hidx k c hk, hlen, ?_, ?_, ?_⟩
  · intro c2 hc2
    obtain ⟨j, hj, hget⟩ := List.getElem_of_mem hc2
    have h1 : g.calls[j]? = some c2 := by rw [List.getElem?_eq_getElem hj, hget]
    have h2 := hidx j c2 h1
    omega
  · rw [hg]
    exact hreg
  · intro later
    rw [gatherMetrics_eq, hlater later, hg]

/-- C1, at a concrete run: a stage that sets `a`, a stage that returns the sentinel, a stage
that would set `c`. -/
theorem gatherMetrics_stops_at_offline_witness :
    (probe.gatherMetrics Background offlineSecond "D01" 0 =
        .ok (returned (probe.gatherMetrics Background offlineSecond "D01" 0)) ∧
      (returned (probe.gatherMetrics Background offlineSecond "D01" 0)).calls[1]? =
        some (callAt (returned (probe.gatherMetrics Background offlineSecond "D01" 0)).calls 1) ∧
      (callAt (returned (probe.gatherMetrics Background offlineSecond "D01" 0)).calls 1).err =
        some .errUnitOffline ∧
      errorsIsUnitOffline .errUnitOffline = true) ∧
    ((callAt (returned (probe.gatherMetrics Background offlineSecond "D01" 0)).calls 1).index
        = 1 ∧
      (returned (probe.gatherMetrics Background offlineSecond "D01" 0)).calls.length = 1 + 1 ∧
      (∀ c2 ∈ (returned (probe.gatherMetrics Background offlineSecond "D01" 0)).calls,
        c2.index ≤ 1) ∧
      (returned (probe.gatherMetrics Background offlineSecond "D01" 0)).baseRegistry =
        (callAt (returned (probe.gatherMetrics Background offlineSecond "D01" 0)).calls 1).output
        ∧
      ∀ later, probe.gatherMetrics Background (offlineSecond.take (1 + 1) ++ later) "D01" 0 =
        .ok (returned (probe.gatherMetrics Background offlineSecond "D01" 0))) :=
  ⟨⟨rfl, rfl, rfl, rfl⟩,
    gatherMetrics_stops_at_offline probe Background offlineSecond "D01" 0
      (returned (probe.gatherMetrics Background offlineSecond "D01" 0)) 1
      (callAt (returned (probe.gatherMetrics Background offlineSecond "D01" 0)).calls 1)
      .errUnitOffline rfl rfl rfl rfl⟩

/-- C2, the code at the failing input: a single stage returns the offline sentinel, and
`gatherMetrics` leaves `request_success` at 1 and returns a nil error although a stage
returned an error; so it is when the sentinel comes from a unit that answers 503. -/
theorem gatherMetrics_offline_reports_success :
    (probe.gatherMetrics Background [stageReturning (some .errUnitOffline)] "D01" 0).map
        (fun g => (g.successGauge, g.retErr, g.calls.map Call.err)) =
      .ok (1, none, [some .errUnitOffline]) ∧
    ((answering 503).gatherMetrics Background [stageFetching "/system/status"] "D01" 0).map
        (fun g => (g.successGauge, g.retErr, g.calls.map Call.err)) =
      .ok (1, none, [some .errUnitOffline]) :=
  ⟨rfl, rfl⟩

/-- C3, refuted as stated: two stages return the errors `first` and `second`, neither the
sentinel, and `gatherMetrics` returns `second`, not the first of them. -/
theorem gatherMetrics_first_error_counterexample :
    probe.gatherMetrics Background twoFailing "D01" 0 =
        .ok (returned (probe.gatherMetrics Background twoFailing "D01" 0)) ∧
      ((returned (probe.gatherMetrics Background twoFailing "D01" 0)).calls.filterMap
        Call.softErr).head? = some (.errorsNew "first") ∧
      (returned (probe.gatherMetrics Background twoFailing "D01" 0)).retErr =
        some (.errorsNew "second") ∧
      (returned (probe.gatherMetrics Background twoFailing "D01" 0)).retErr ≠
        ((returned (probe.gatherMetrics Background twoFailing "D01" 0)).calls.filterMap
          Call.softErr).head? :=
  ⟨rfl, rfl, rfl, by decide⟩

/-- C3, amended. A run of `gatherMetrics` that returns gives back, with the registry, the
last error returned by a stage that does not match the sentinel (nil when there is none). -/
theorem gatherMetrics_returns_last_error (d : Direkt) (ctx : Context)
    (metrics : List metricGatherer) (id : String) (duration : Float64) (g : GatherResult)
    (hrun : d.gatherMetrics ctx metrics id duration = .ok g) :
    g.retErr = (g.calls.filterMap Call.softErr).getLast? := by
  obtain ⟨st, hl, hg, hc⟩ := gatherMetrics_inv hrun
  have h := gatherLoop_retErr ctx _ d.doRequest id hl hc
  have hr : g.retErr = st.retErr := by rw [hg]; rfl
  rw [hr, h]
  cases (g.calls.filterMap Call.softErr).getLast? <;> rfl

/-- C3, amended, at a concrete run with two failing stages. -/
theorem gatherMetrics_returns_last_error_witness :
    probe.gatherMetrics Background twoFailing "D01" 0 =
        .ok (returned (probe.gatherMetrics Background twoFailing "D01" 0)) ∧
      (returned (probe.gatherMetrics Background twoFailing "D01" 0)).retErr =
        ((returned (probe.gatherMetrics Background twoFailing "D01" 0)).calls.filterMap
          Call.softErr).getLast? :=
  ⟨rfl, gatherMetrics_returns_last_error probe Background twoFailing "D01" 0
    (returned (probe.gatherMetrics Background twoFailing "D01" 0)) rfl⟩

/-- C5. In `gatherMetrics`, when the stage at position `i` returns an error that does not
match the sentinel, every later stage `j` of the list is still invoked, as long as no stage
between them returned the sentinel, and it runs on the registry that the stage before it
left. -/
theorem gatherMetrics_continues_after_error (d : Direkt) (ctx : Context)
    (metrics : List metricGatherer) (id : String) (duration : Float64) (g : GatherResult)
    (i : Nat) (ci : Call) (e : GoError)
    (hrun : d.gatherMetrics ctx metrics id duration = .ok g)
    (hi : g.calls[i]? = some ci) (he : ci.err = some e)
    (hne : errorsIsUnitOffline e = false) :
    ∀ j, i < j → j < metrics.length →
      (∀ m c, i < m → m < j → g.calls[m]? = some c → c.offline = false) →
      ∃ p c, g.calls[j - 1]? = some p ∧ g.calls[j]? = some c ∧ c.index = j ∧
        c.input = p.output := by
  intro j hij hj hbetween
  obtain ⟨st, hl, hg, hc⟩ := gatherMetrics_inv hrun
  have hilen : i < g.calls.length := by
    by_contra hcon
    rw [List.getElem?_eq_none (by omega)] at hi
    cases hi
  have hjlen : j < g.calls.length := by
    by_contra hcon
    have hshort : g.calls.length < metrics.length := by omega
    obtain ⟨cl, hlast, hoff⟩ := gatherLoop_short ctx _ d.doRequest id hl hc hshort
    rw [List.getLast?_eq_getElem?] at hlast
    by_cases hcase : g.calls.length - 1 = i
    · rw [hcase, hi] at hlast
      cases hlast
      simp [Call.offline, he, hne] at hoff
    · have := hbetween (g.calls.length - 1) cl (by omega) (by omega) hlast
      rw [this] at hoff
      cases hoff
  have hplen : j - 1 < g.calls.length := by omega
  obtain ⟨p, hp⟩ : ∃ p, g.calls[j - 1]? = some p :=
    ⟨g.calls[j - 1], List.getElem?_eq_getElem hplen⟩
  obtain ⟨c, hcj⟩ : ∃ c, g.calls[j]? = some c := ⟨g.calls[j], List.getElem?_eq_getElem hjlen⟩
  refine ⟨p, c, hp, hcj, ?_, ?_⟩
  · simpa using gatherLoop_index ctx _ d.doRequest id hl hc j c hcj
  · have ht := gatherLoop_threaded ctx _ d.doRequest id hl hc
    have hcj2 : g.calls[j - 1 + 1]? = some c := by
      have : j - 1 + 1 = j := by omega
      rw [this]
      exact hcj
    exact ht.input_eq (j - 1) p c hp hcj2

/-- C5, at a concrete run: the first stage fails, the two after it still run. -/
theorem gatherMetrics_continues_after_error_witness :
    (probe.gatherMetrics Background failingFirst "D01" 0 =
        .ok (returned (probe.gatherMetrics Background failingFirst "D01" 0)) ∧
      (returned (probe.gatherMetrics Background failingFirst "D01" 0)).calls[0]? =
        some (callAt (returned (probe.gatherMetrics Background failingFirst "D01" 0)).calls 0) ∧
      (callAt (returned (probe.gatherMetrics Background failingFirst "D01" 0)).calls 0).err =
        some (.errorsNew "boom") ∧
      errorsIsUnitOffline (.errorsNew "boom") = false) ∧
    ∀ j, 0 < j → j < failingFirst.length →
      (∀ m c, 0 < m → m < j →
        (returned (probe.gatherMetrics Background failingFirst "D01" 0)).calls[m]? = some c →
        c.offline = false) →
      ∃ p c,
        (returned (probe.gatherMetrics Background failingFirst "D01" 0)).calls[j - 1]? = some p ∧
        (returned (probe.gatherMetrics Background failingFirst "D01" 0)).calls[j]? = some c ∧
        c.index = j ∧ c.input = p.output :=
  ⟨⟨rfl, rfl, rfl, rfl⟩,
    gatherMetrics_continues_after_error probe Background failingFirst "D01" 0
      (returned (probe.gatherMetrics Background failingFirst "D01" 0)) 0
      (callAt (returned (probe.gatherMetrics Background failingFirst "D01" 0)).calls 0)
      (.errorsNew "boom") rfl rfl rfl rfl⟩

/-! ## The remote client -/

/-- C9. The method `doRequest` returns no body and the `errUnitOffline` sentinel exactly when
the transport call returns a response without error and the status code is 503; an error it
returns matches the sentinel under `errors.Is` in that case only, and its generic error for
other statuses does not match it. -/
theorem doRequest_offline_iff (d : Direkt) (req : Request) :
    (d.doRequest req = (none, some .errUnitOffline) ↔
        ∃ res, d.client.Do (d.authenticate req) = (some res, none) ∧ res.StatusCode = 503) ∧
      ((d.doRequest req).2 = some .errUnitOffline ↔
        ∃ res, d.client.Do (d.authenticate req) = (some res, none) ∧ res.StatusCode = 503) ∧
      ((∃ e, (d.doRequest req).2 = some e ∧ errorsIsUnitOffline e = true) ↔
        ∃ res, d.client.Do (d.authenticate req) = (some res, none) ∧ res.StatusCode = 503) ∧
      errorsIsUnitOffline (.errorsNew "non-okay request returned") = false := by
  unfold Direkt.doRequest
  rcases hdo : d.client.Do (d.authenticate req) with ⟨ores, oerr⟩
  cases oerr with
  | some t => simp [errorsIsUnitOffline]
  | none =>
    cases ores with
    | none => simp [errorsIsUnitOffline]
    | some res =>
      by_cases h503 : res.StatusCode = 503
      · simp [h503, errorsIsUnitOffline]
      · by_cases h200 : res.StatusCode = 200
        · cases hb : res.Body <;> simp [h503, h200, errorsIsUnitOffline, hb]
        · simp [h503, h200, errorsIsUnitOffline]

/-- C10, refuted as stated: the statuses 404 and 500 yield the same error, with the same
text, so the error does not tell them apart. -/
theorem doRequest_status_counterexample :
    (answering 404).doRequest statusRequest = (answering 500).doRequest statusRequest ∧
      ((answering 404).doRequest statusRequest).2.map GoError.Error =
        some "non-okay request returned" ∧
      ((answering 500).doRequest statusRequest).2.map GoError.Error =
        some "non-okay request returned" :=
  ⟨rfl, rfl, rfl⟩

/-- C10, amended. For every response status other than 200 and 503, `doRequest` returns no
body and the generic error of fixed text "non-okay request returned", which does not match
the sentinel and is the same whatever the status code. -/
theorem doRequest_other_status (d : Direkt) (req : Request) (res : Response)
    (hdo : d.client.Do (d.authenticate req) = (some res, none))
    (h200 : res.StatusCode ≠ 200) (h503 : res.StatusCode ≠ 503) :
    d.doRequest req = (none, some (.errorsNew "non-okay request returned")) ∧
      errorsIsUnitOffline (.errorsNew "non-okay request returned") = false := by
  unfold Direkt.doRequest
  rw [hdo]
  simp [h200, h503, errorsIsUnitOffline]

/-- C10, amended, at status 404. -/
theorem doRequest_other_status_witness :
    ((answering 404).client.Do ((answering 404).authenticate statusRequest) =
        (some ⟨404, .ok ""⟩, none) ∧ (404 : Int) ≠ 200 ∧ (404 : Int) ≠ 503) ∧
      ((answering 404).doRequest statusRequest =
          (none, some (.errorsNew "non-okay request returned")) ∧
        errorsIsUnitOffline (.errorsNew "non-okay request returned") = false) :=
  ⟨⟨rfl, by decide, by decide⟩,
    doRequest_other_status (answering 404) statusRequest ⟨404, .ok ""⟩ rfl (by decide)
      (by decide)⟩

/-! ## Request validation -/

/-- The Go test `strings.HasPrefix(s, p)` holds exactly when `s` is `p` followed by
something. -/
theorem HasPrefix_iff (s p : String) : HasPrefix s p = true ↔ ∃ t, s = p ++ t := by
  unfold HasPrefix
  constructor
  · intro h
    simp only [Bool.and_eq_true, decide_eq_true_eq, beq_iff_eq] at h
    refine ⟨⟨s.data.drop p.data.length⟩, ?_⟩
    apply String.ext
    have h2 : (p ++ (⟨s.data.drop p.data.length⟩ : String)).data =
        p.data ++ s.data.drop p.data.length := String.data_append _ _
    rw [h2]
    have h3 := List.take_append_drop p.data.length s.data
    rw [h.2] at h3
    exact h3.symm
  · rintro ⟨t, rfl⟩
    simp [String.data_append]

/-- C7. The function `validateRequest` returns the serial query value unchanged with a nil
error exactly when that value is non-empty and begins with "D0"; it returns the error
"no serial provided" exactly when the value is missing or empty, and the error
"invalid serial provided" exactly when it is non-empty without the prefix. -/
theorem validateRequest_spec (r : ProbeRequest) :
    (validateRequest r = (Values.Get r.query "serial", none) ↔
        Values.Get r.query "serial" ≠ "" ∧ ∃ t, Values.Get r.query "serial" = "D0" ++ t) ∧
      ((validateRequest r).2 = none ↔
        Values.Get r.query "serial" ≠ "" ∧ ∃ t, Values.Get r.query "serial" = "D0" ++ t) ∧
      (validateRequest r = ("", some (.errorsNew "no serial provided")) ↔
        Values.Get r.query "serial" = "") ∧
      (Values.Get r.query "serial" = "" ↔
        r.query.lookup "serial" = none ∨ r.query.lookup "serial" = some [] ∨
          ∃ rest, r.query.lookup "serial" = some ("" :: rest)) ∧
      (validateRequest r = ("", some (.errorsNew "invalid serial provided")) ↔
        Values.Get r.query "serial" ≠ "" ∧ ¬ ∃ t, Values.Get r.query "serial" = "D0" ++ t) := by
  have hget : Values.Get r.query "serial" = "" ↔
      r.query.lookup "serial" = none ∨ r.query.lookup "serial" = some [] ∨
        ∃ rest, r.query.lookup "serial" = some ("" :: rest) := by
    unfold Values.Get
    cases hl : List.lookup "serial" r.query with
    | none => simp
    | some vs =>
      cases vs with
      | nil => simp
      | cons x rest => simp
  refine ⟨?_, ?_, ?_, hget, ?_⟩
  all_goals
    unfold validateRequest
    simp only []
    by_cases h0 : Values.Get r.query "serial" = ""
    · simp [h0]
    · by_cases hp : HasPrefix (Values.Get r.query "serial") "D0" = true
      · have hex := (HasPrefix_iff _ _).1 hp
        simp [h0, hp, hex]
      · have hex : ¬ ∃ t, Values.Get r.query "serial" = "D0" ++ t :=
          fun hcon => hp ((HasPrefix_iff _ _).2 hcon)
        simp [h0, hp, hex]

/-! ## The request handler -/

/-- The handler on a request that passes validation, by what `gatherMetrics` returns. -/
theorem HandleWith_valid (d : Direkt) (stages : List metricGatherer) (r : ProbeRequest)
    (duration : Float64) (id : String) (hv : validateRequest r = (id, none)) :
    d.HandleWith stages r duration =
      match d.gatherMetrics (WithTimeout Background (10 * Second)) stages id duration with
      | .error p => .error p
      | .ok g =>
        match g.retErr with
        | some err => .ok ⟨⟨none, [.text err.Error]⟩, g.calls, g.requests⟩
        | none =>
          .ok ⟨⟨none, [.exposition (g.baseRegistry.Gather g.gauges)]⟩, g.calls, g.requests⟩ := by
  unfold Direkt.HandleWith
  rw [hv]

/-- The handler on a request that fails validation. -/
theorem HandleWith_invalid (d : Direkt) (stages : List metricGatherer) (r : ProbeRequest)
    (duration : Float64) (s : String) (e : GoError) (hv : validateRequest r = (s, some e)) :
    d.HandleWith stages r duration = .ok ⟨⟨none, [.text e.Error]⟩, [], []⟩ := by
  unfold Direkt.HandleWith
  rw [hv]

/-- A handler run that recorded a call passed validation and got a result from
`gatherMetrics` with the same calls. -/
theorem HandleWith_inv {d : Direkt} {stages : List metricGatherer} {r : ProbeRequest}
    {duration : Float64} {h : HandleResult} {k : Nat} {c : Call}
    (hrun : d.HandleWith stages r duration = .ok h) (hk : h.calls[k]? = some c) :
    ∃ id g, validateRequest r = (id, none) ∧
      d.gatherMetrics (WithTimeout Background (10 * Second)) stages id duration = .ok g ∧
      g.calls = h.calls ∧
      h.w.body = (match g.retErr with
        | some err => [.text err.Error]
        | none => [.exposition (g.baseRegistry.Gather g.gauges)]) := by
  rcases hv : validateRequest r with ⟨id, oe⟩
  cases oe with
  | some e =>
    rw [HandleWith_invalid d stages r duration id e hv] at hrun
    cases hrun
    simp at hk
  | none =>
    rw [HandleWith_valid d stages r duration id hv] at hrun
    cases hg : d.gatherMetrics (WithTimeout Background (10 * Second)) stages id duration with
    | error p => simp [hg] at hrun
    | ok g =>
      simp only [hg] at hrun
      refine ⟨id, g, rfl, hg, ?_⟩
      cases he : g.retErr with
      | some err =>
        simp only [he] at hrun
        cases hrun
        exact ⟨rfl, rfl⟩
      | none =>
        simp only [he] at hrun
        cases hrun
        exact ⟨rfl, rfl⟩

/-- C4, refuted as stated: a stage sets the metric `a` and fails with `boom`; the registry
returned by `gatherMetrics` holds the sample of `a`, yet the response body of the handler is
the error text alone. -/
theorem Handle_error_counterexample :
    (returned (probe.gatherMetrics (WithTimeout Background (10 * Second))
        [stageSetting "a" 1 (some (.errorsNew "boom"))] "D01" 0)).retErr =
        some (.errorsNew "boom") ∧
      (returned (probe.gatherMetrics (WithTimeout Background (10 * Second))
          [stageSetting "a" 1 (some (.errorsNew "boom"))] "D01" 0)).baseRegistry.Gather
          (returned (probe.gatherMetrics (WithTimeout Background (10 * Second))
            [stageSetting "a" 1 (some (.errorsNew "boom"))] "D01" 0)).gauges =
        [⟨"request_success", [("serial", "D01")], 0⟩,
          ⟨"request_duration_seconds", [("serial", "D01")], 0⟩,
          ⟨"a", [("serial", "D01")], 1⟩] ∧
      (probe.HandleWith [stageSetting "a" 1 (some (.errorsNew "boom"))]
          (probeRequest ["D01"]) 0).map (fun h => h.w) =
        .ok ⟨none, [.text "boom"]⟩ :=
  ⟨rfl, rfl, rfl⟩

/-- C4, amended. When `gatherMetrics` returns a non-nil error, the handler writes the error
text and nothing else to the response, none of the gathered metrics, and it sets no
status. -/
theorem Handle_error_text_only (d : Direkt) (stages : List metricGatherer) (r : ProbeRequest)
    (duration : Float64) (id : String) (g : GatherResult) (e : GoError)
    (hv : validateRequest r = (id, none))
    (hg : d.gatherMetrics (WithTimeout Background (10 * Second)) stages id duration = .ok g)
    (he : g.retErr = some e) :
    d.HandleWith stages r duration =
      .ok ⟨⟨none, [.text e.Error]⟩, g.calls, g.requests⟩ := by
  rw [HandleWith_valid d stages r duration id hv, hg]
  simp only [he]

/-- C4, amended, at a concrete run: the first of three stages fails with `boom`. -/
theorem Handle_error_text_only_witness :
    (validateRequest (probeRequest ["D01"]) = ("D01", none) ∧
      probe.gatherMetrics (WithTimeout Background (10 * Second)) failingFirst "D01" 0 =
        .ok (returned (probe.gatherMetrics (WithTimeout Background (10 * Second))
          failingFirst "D01" 0)) ∧
      (returned (probe.gatherMetrics (WithTimeout Background (10 * Second))
          failingFirst "D01" 0)).retErr = some (.errorsNew "boom")) ∧
    probe.HandleWith failingFirst (probeRequest ["D01"]) 0 =
      .ok ⟨⟨none, [.text (GoError.errorsNew "boom").Error]⟩,
        (returned (probe.gatherMetrics (WithTimeout Background (10 * Second))
          failingFirst "D01" 0)).calls,
        (returned (probe.gatherMetrics (WithTimeout Background (10 * Second))
          failingFirst "D01" 0)).requests⟩ :=
  ⟨⟨rfl, rfl, rfl⟩,
    Handle_error_text_only probe failingFirst (probeRequest ["D01"]) 0 "D01"
      (returned (probe.gatherMetrics (WithTimeout Background (10 * Second))
        failingFirst "D01" 0)) (.errorsNew "boom") rfl rfl rfl⟩

/-- C6, refuted as stated: the first stage sets the metric `a` and fails with `boom`, the
second returns the offline sentinel; the response body is the text `boom` alone, without the
metric written by the stage before the abort. -/
theorem Handle_offline_counterexample :
    probe.HandleWith failingThenOffline (probeRequest ["D01"]) 0 =
        .ok (answered (probe.HandleWith failingThenOffline (probeRequest ["D01"]) 0)) ∧
      (callAt (answered (probe.HandleWith failingThenOffline (probeRequest ["D01"]) 0)).calls
        1).err = some .errUnitOffline ∧
      (callAt (answered (probe.HandleWith failingThenOffline (probeRequest ["D01"]) 0)).calls
        1).input.Gather (fun _ => 0) =
        [⟨"request_success", [("serial", "D01")], 0⟩,
          ⟨"request_duration_seconds", [("serial", "D01")], 0⟩,
          ⟨"a", [("serial", "D01")], 1⟩] ∧
      (answered (probe.HandleWith failingThenOffline (probeRequest ["D01"]) 0)).w.body =
        [.text "boom"] :=
  ⟨rfl, rfl, rfl, rfl⟩

/-- The empty string does not begin with "D0", and neither does a missing value. -/
theorem not_prefixed_of_empty (q : Values)
    (h : q.lookup "serial" = none ∨ Values.Get q "serial" = "") :
    ¬ ∃ t, Values.Get q "serial" = "D0" ++ t := by
  have h0 : Values.Get q "serial" = "" := by
    rcases h with h | h
    · simp [Values.Get, h]
    · exact h
  rintro ⟨t, ht⟩
  rw [h0] at ht
  have hd := congrArg String.data ht
  rw [String.data_append] at hd
  simp at hd

/-- C8. For a request whose serial query value is missing, empty or not prefixed "D0", the
handler invokes no stage, no outbound request is issued, and the response body is exactly
the text of the validation error. -/
theorem Handle_rejects_invalid_serial (d : Direkt) (stages : List metricGatherer)
    (r : ProbeRequest) (duration : Float64)
    (hbad : r.query.lookup "serial" = none ∨ Values.Get r.query "serial" = "" ∨
      ¬ ∃ t, Values.Get r.query "serial" = "D0" ++ t) :
    ∃ e, (validateRequest r).2 = some e ∧
      (e.Error = "no serial provided" ∨ e.Error = "invalid serial provided") ∧
      d.HandleWith stages r duration = .ok ⟨⟨none, [.text e.Error]⟩, [], []⟩ := by
  have hno : ¬ ∃ t, Values.Get r.query "serial" = "D0" ++ t := by
    rcases hbad with h | h | h
    · exact not_prefixed_of_empty r.query (Or.inl h)
    · exact not_prefixed_of_empty r.query (Or.inr h)
    · exact h
  by_cases h0 : Values.Get r.query "serial" = ""
  · have hv : validateRequest r = ("", some (.errorsNew "no serial provided")) := by
      unfold validateRequest
      simp [h0]
    exact ⟨.errorsNew "no serial provided", by rw [hv], Or.inl rfl,
      HandleWith_invalid d stages r duration _ _ hv⟩
  · have hp : HasPrefix (Values.Get r.query "serial") "D0" = false := by
      cases hh : HasPrefix (Values.Get r.query "serial") "D0" with
      | false => rfl
      | true => exact absurd ((HasPrefix_iff _ _).1 hh) hno
    have hv : validateRequest r = ("", some (.errorsNew "invalid serial provided")) := by
      unfold validateRequest
      simp [h0, hp]
    exact ⟨.errorsNew "invalid serial provided", by rw [hv], Or.inr rfl,
      HandleWith_invalid d stages r duration _ _ hv⟩

/-- C8, at a concrete request: no serial parameter at all. -/
theorem Handle_rejects_invalid_serial_witness :
    ((⟨[]⟩ : ProbeRequest).query.lookup "serial" = none ∨
        Values.Get (⟨[]⟩ : ProbeRequest).query "serial" = "" ∨
        ¬ ∃ t, Values.Get (⟨[]⟩ : ProbeRequest).query "serial" = "D0" ++ t) ∧
      ∃ e, (validateRequest ⟨[]⟩).2 = some e ∧
        (e.Error = "no serial provided" ∨ e.Error = "invalid serial provided") ∧
        probe.HandleWith offlineSecond ⟨[]⟩ 0 = .ok ⟨⟨none, [.text e.Error]⟩, [], []⟩ :=
  ⟨Or.inl rfl, Handle_rejects_invalid_serial probe offlineSecond ⟨[]⟩ 0 (Or.inl rfl)⟩


/-! ## The label encoders and the registry builder -/

/-- C11. The request that `doRequest` hands to the client carries the basic authentication
pair (username, password) exactly when both are non-empty, and carries no credentials
otherwise; nothing else of the request changes, and the result of `doRequest` depends on
the client only through its answer to that request. -/
theorem doRequest_basic_auth (d d2 : Direkt) (req : Request)
    (hnone : req.basicAuth = none)
    (huser : d2.username = d.username) (hpass : d2.password = d.password)
    (hdo : d2.client.Do (d.authenticate req) = d.client.Do (d.authenticate req)) :
    ((d.authenticate req).basicAuth = some (d.username, d.password) ↔
        d.username ≠ "" ∧ d.password ≠ "") ∧
      ((d.authenticate req).basicAuth = none ↔ ¬ (d.username ≠ "" ∧ d.password ≠ "")) ∧
      (d.authenticate req).ctx = req.ctx ∧ (d.authenticate req).method = req.method ∧
      (d.authenticate req).url = req.url ∧
      d2.doRequest req = d.doRequest req := by
  have hauth : d2.authenticate req = d.authenticate req := by
    unfold Direkt.authenticate
    rw [huser, hpass]
  refine ⟨?_, ?_, ?_, ?_, ?_, ?_⟩
  · unfold Direkt.authenticate
    by_cases h : d.username ≠ "" ∧ d.password ≠ ""
    · simp [h]
    · simp [h, hnone]
  · unfold Direkt.authenticate
    by_cases h : d.username ≠ "" ∧ d.password ≠ ""
    · simp [h]
    · simp [h, hnone]
  · unfold Direkt.authenticate
    split <;> rfl
  · unfold Direkt.authenticate
    split <;> rfl
  · unfold Direkt.authenticate
    split <;> rfl
  · unfold Direkt.doRequest
    rw [hauth, hdo]

/-- C11, at a concrete client with both credentials set. -/
theorem doRequest_basic_auth_witness :
    (statusRequest.basicAuth = none ∧
      (New "user" "secret" (fun _ => (none, none))).username =
        (New "user" "secret" (fun _ => (none, none))).username) ∧
    (((New "user" "secret" (fun _ => (none, none))).authenticate statusRequest).basicAuth =
        some ("user", "secret") ∧
      ((New "user" "" (fun _ => (none, none))).authenticate statusRequest).basicAuth = none ∧
      (((New "user" "secret" (fun _ => (none, none))).authenticate statusRequest).basicAuth =
          some ((New "user" "secret" (fun _ => (none, none))).username,
            (New "user" "secret" (fun _ => (none, none))).password) ↔
        (New "user" "secret" (fun _ => (none, none))).username ≠ "" ∧
          (New "user" "secret" (fun _ => (none, none))).password ≠ "")) :=
  ⟨⟨rfl, rfl⟩, rfl, rfl,
    (doRequest_basic_auth (New "user" "secret" (fun _ => (none, none)))
      (New "user" "secret" (fun _ => (none, none))) statusRequest rfl rfl rfl rfl).1⟩

/-- A split has at least one piece. -/
theorem splitChars_ne_nil (sep : Char) (l : List Char) : splitChars sep l ≠ [] := by
  cases l with
  | nil => simp [splitChars]
  | cons c cs =>
    unfold splitChars
    by_cases hc : c = sep
    · simp [hc]
    · simp only [hc, if_false]
      cases splitChars sep cs <;> simp

/-- Joining the pieces of a split with the separator gives the text back. -/
theorem intercalate_splitChars (sep : Char) (l : List Char) :
    List.intercalate [sep] (splitChars sep l) = l := by
  induction l with
  | nil => rfl
  | cons c cs ih =>
    unfold splitChars
    by_cases hc : c = sep
    · simp only [hc, if_true]
      cases hs : splitChars sep cs with
      | nil => exact absurd hs (splitChars_ne_nil sep cs)
      | cons p ps =>
        rw [hs] at ih
        simp only [List.intercalate, List.intersperse, List.flatten] at ih ⊢
        simpa using ih
    · simp only [hc, if_false]
      cases hs : splitChars sep cs with
      | nil => exact absurd hs (splitChars_ne_nil sep cs)
      | cons p ps =>
        rw [hs] at ih
        cases ps with
        | nil => simp [List.intercalate] at ih ⊢; exact ih
        | cons q qs =>
          simp only [List.intercalate, List.intersperse, List.flatten] at ih ⊢
          simpa using ih

/-- No piece of a split holds the separator. -/
theorem not_mem_of_mem_splitChars (sep : Char) (l : List Char) :
    ∀ p ∈ splitChars sep l, sep ∉ p := by
  induction l with
  | nil => intro p hp; simp [splitChars] at hp; simp [hp]
  | cons c cs ih =>
    intro p hp
    unfold splitChars at hp
    by_cases hc : c = sep
    · simp only [hc, if_true, List.mem_cons] at hp
      rcases hp with hp | hp
      · simp [hp]
      · exact ih p hp
    · simp only [hc, if_false] at hp
      cases hs : splitChars sep cs with
      | nil => exact absurd hs (splitChars_ne_nil sep cs)
      | cons q qs =>
        rw [hs] at hp ih
        simp only [List.mem_cons] at hp
        rcases hp with hp | hp
        · rw [hp]
          simp only [List.mem_cons, not_or]
          exact ⟨fun h => hc h.symm, ih q (List.mem_cons_self _ _)⟩
        · exact ih p (List.mem_cons_of_mem _ hp)

/-- C12. The pieces `Split p '/'` are the text between the slashes of `p` (joined with "/"
they give `p` back, and none holds a slash); `simplifyNetworkInterface p` is the piece at
index 6 when there are at least 7 pieces and `p` itself when there are fewer; the path
"/api/v1/units/D02018/network_interfaces/0" gives "0". -/
theorem simplifyNetworkInterface_spec (p : String) :
    List.intercalate ['/'] ((Split p '/').map String.data) = p.data ∧
      (∀ x ∈ Split p '/', '/' ∉ x.data) ∧
      (7 ≤ (Split p '/').length → (Split p '/')[6]? = some (simplifyNetworkInterface p)) ∧
      ((Split p '/').length < 7 → simplifyNetworkInterface p = p) ∧
      simplifyNetworkInterface "/api/v1/units/D02018/network_interfaces/0" = "0" := by
  refine ⟨?_, ?_, ?_, ?_, by decide⟩
  · have h : (Split p '/').map String.data = splitChars '/' p.data := by
      unfold Split
      rw [List.map_map]
      have hid : (String.data ∘ String.mk) = id := rfl
      rw [hid, List.map_id]
    rw [h]
    exact intercalate_splitChars '/' p.data
  · intro x hx
    unfold Split at hx
    obtain ⟨q, hq, rfl⟩ := List.mem_map.1 hx
    exact not_mem_of_mem_splitChars '/' p.data q hq
  · intro h7
    unfold simplifyNetworkInterface
    have hn : ¬ (Split p '/').length < 7 := by omega
    simp only [hn, if_false]
    rw [List.getD_eq_getElem?_getD]
    have h6 : 6 < (Split p '/').length := by omega
    rw [List.getElem?_eq_getElem h6]
    rfl
  · intro hlt
    unfold simplifyNetworkInterface
    simp only [hlt, if_true]

/-- C13. The function `StringBoolToInt` gives 1 exactly for "ok" and for the six strings
that `strconv.ParseBool` reads as true, and 0 for every other string. -/
theorem StringBoolToInt_spec (s : String) :
    (metrics.StringBoolToInt s = 1 ↔
        s = "ok" ∨ s = "1" ∨ s = "t" ∨ s = "T" ∨ s = "TRUE" ∨ s = "true" ∨ s = "True") ∧
      (metrics.StringBoolToInt s = 0 ↔
        ¬ (s = "ok" ∨ s = "1" ∨ s = "t" ∨ s = "T" ∨ s = "TRUE" ∨ s = "true" ∨ s = "True")) ∧
      metrics.StringBoolToInt "ok" = 1 ∧ metrics.StringBoolToInt "degraded" = 0 := by
  have key : metrics.StringBoolToInt s =
      if s = "ok" ∨ s = "1" ∨ s = "t" ∨ s = "T" ∨ s = "TRUE" ∨ s = "true" ∨ s = "True"
      then 1 else 0 := by
    unfold metrics.StringBoolToInt metrics.ParseBool
    by_cases hok : s = "ok"
    · subst hok
      decide
    · simp only [hok, if_false, false_or]
      by_cases h1 : s = "1" ∨ s = "t" ∨ s = "T" ∨ s = "true" ∨ s = "TRUE" ∨ s = "True"
      · have h2 : s = "1" ∨ s = "t" ∨ s = "T" ∨ s = "TRUE" ∨ s = "true" ∨ s = "True" := by
          tauto
        simp [h1, h2]
      · have h2 : ¬ (s = "1" ∨ s = "t" ∨ s = "T" ∨ s = "TRUE" ∨ s = "true" ∨ s = "True") := by
          tauto
        simp only [h1, h2, if_false]
        split <;> simp
  refine ⟨?_, ?_, by decide, by decide⟩
  · rw [key]
    split <;> simp_all
  · rw [key]
    split <;> simp_all

/-- C14. The function `BoolToString` gives "true" and "false", and `BoolToFloat64` gives 1
and 0. -/
theorem BoolToString_BoolToFloat64_spec :
    metrics.BoolToString true = "true" ∧ metrics.BoolToString false = "false" ∧
      metrics.BoolToFloat64 true = 1 ∧ metrics.BoolToFloat64 false = 0 :=
  ⟨rfl, rfl, rfl, rfl⟩

/-- Storing under a key that is not in the map adds the key at the end. -/
theorem upsert_of_not_mem {α β : Type} [DecidableEq α] (l : List (α × β)) (k : α) (v : β)
    (h : k ∉ l.map Prod.fst) : upsert l k v = l ++ [(k, v)] := by
  induction l with
  | nil => rfl
  | cons a l ih =>
    obtain ⟨k0, v0⟩ := a
    simp only [List.map_cons, List.mem_cons, not_or] at h
    unfold upsert
    have hne : ¬ k0 = k := fun hh => h.1 hh.symm
    simp only [hne, if_false, List.cons_append]
    rw [ih h.2]

theorem NewGaugeMap_foldl (ms : List metrics.Gauge) (acc : GaugeMap)
    (hnodup : (acc.map Prod.fst ++ ms.map (fun g => g.Name)).Nodup) :
    ms.foldl
        (fun ret metric =>
          upsert ret metric.Name
            (NewGaugeVec { Name := metric.Name, Help := metric.Desc } metric.Labels))
        acc =
      acc ++ ms.map (fun g => (g.Name, gaugeVecOf g)) := by
  induction ms generalizing acc with
  | nil => simp
  | cons g ms ih =>
    simp only [List.foldl_cons, List.map_cons]
    have hnot : g.Name ∉ acc.map Prod.fst := by
      intro hmem
      rw [List.nodup_append] at hnodup
      exact hnodup.2.2 hmem (List.mem_cons_self _ _)
    rw [upsert_of_not_mem acc g.Name _ hnot, ih]
    · simp [gaugeVecOf, NewGaugeVec]
    · simp only [List.map_append, List.map_cons, List.map_nil, List.append_assoc,
        List.singleton_append]
      simpa using hnodup

/-- The value found in a list of pairs built from the elements of a list. -/
theorem find_map_pairs {γ : Type} (l : List γ) (key : γ → String) (val : γ → GaugeVec)
    (name : String) :
    find (l.map (fun g => (key g, val g))) name =
      (l.find? (fun g => decide (key g = name))).map val := by
  induction l with
  | nil => rfl
  | cons g l ih =>
    simp only [List.map_cons, find, List.find?_cons]
    by_cases h : key g = name
    · simp [h]
    · simp [h, ih]

/-- C19. For gauge definitions with pairwise distinct names, `NewGaugeMap` returns the map
whose keys are the definition names, in order, each with the empty collection built from its
definition (same name, help text and label names); looking a name up gives the collection of
the definition of that name, if there is one. -/
theorem NewGaugeMap_spec (ms : List metrics.Gauge)
    (hnodup : (ms.map (fun g => g.Name)).Nodup) :
    metrics.NewGaugeMap ms = ms.map (fun g => (g.Name, gaugeVecOf g)) ∧
      (metrics.NewGaugeMap ms).map Prod.fst = ms.map (fun g => g.Name) ∧
      (∀ name, find (metrics.NewGaugeMap ms) name =
        (ms.find? (fun g => decide (g.Name = name))).map gaugeVecOf) ∧
      ∀ g, (gaugeVecOf g).opts.Name = g.Name ∧ (gaugeVecOf g).opts.Help = g.Desc ∧
        (gaugeVecOf g).labelNames = g.Labels ∧ (gaugeVecOf g).entries = [] := by
  have h : metrics.NewGaugeMap ms = ms.map (fun g => (g.Name, gaugeVecOf g)) := by
    unfold metrics.NewGaugeMap
    rw [NewGaugeMap_foldl ms [] (by simpa using hnodup)]
    simp
  refine ⟨h, ?_, ?_, ?_⟩
  · rw [h, List.map_map]
    rfl
  · intro name
    rw [h]
    exact find_map_pairs ms (fun g => g.Name) gaugeVecOf name
  · intro g
    exact ⟨rfl, rfl, rfl, rfl⟩

/-- C19, at a table of two definitions. -/
theorem NewGaugeMap_spec_witness :
    (([⟨"a", "first", ["x", "y"]⟩, ⟨"b", "second", []⟩] : List metrics.Gauge).map
        (fun g => g.Name)).Nodup ∧
      find (metrics.NewGaugeMap [⟨"a", "first", ["x", "y"]⟩, ⟨"b", "second", []⟩]) "a" =
        some ⟨⟨"a", "first"⟩, ["x", "y"], []⟩ :=
  ⟨by decide,
    ((NewGaugeMap_spec [⟨"a", "first", ["x", "y"]⟩, ⟨"b", "second", []⟩] (by decide)).2.2.1
      "a").trans rfl⟩

/-! ## Maps of collections -/

theorem find_upsert_self {α β : Type} [DecidableEq α] (l : List (α × β)) (k : α) (v : β) :
    find (upsert l k v) k = some v := by
  induction l with
  | nil => simp [upsert, find]
  | cons a l ih =>
    obtain ⟨k0, v0⟩ := a
    unfold upsert
    by_cases h : k0 = k
    · simp [h, find]
    · simp [h, find, ih]

theorem find_upsert_ne {α β : Type} [DecidableEq α] (l : List (α × β)) (k k2 : α) (v : β)
    (hne : k2 ≠ k) : find (upsert l k v) k2 = find l k2 := by
  induction l with
  | nil =>
    have : ¬ k = k2 := fun h => hne h.symm
    simp [upsert, find, this]
  | cons a l ih =>
    obtain ⟨k0, v0⟩ := a
    unfold upsert
    by_cases h : k0 = k
    · have : ¬ k0 = k2 := fun h2 => hne (h2.symm.trans h)
      simp [h, find]
      subst h
      simp [this]
    · by_cases h2 : k0 = k2
      · subst h2
        simp [h, find]
      · simp [h, find, h2, ih]

theorem keys_upsert {α β : Type} [DecidableEq α] (l : List (α × β)) (k : α) (v v0 : β)
    (hfind : find l k = some v0) : (upsert l k v).map Prod.fst = l.map Prod.fst := by
  induction l with
  | nil => simp [find] at hfind
  | cons a l ih =>
    obtain ⟨k1, v1⟩ := a
    unfold upsert
    by_cases h : k1 = k
    · simp [h]
    · simp only [find, h, if_false] at hfind
      simp [h, ih hfind]

theorem mem_upsert {α β : Type} [DecidableEq α] (l : List (α × β)) (k : α) (v : β)
    (x : α × β) (hx : x ∈ upsert l k v) : x ∈ l ∨ x = (k, v) := by
  induction l with
  | nil => simp [upsert] at hx; exact Or.inr hx
  | cons a l ih =>
    obtain ⟨k1, v1⟩ := a
    unfold upsert at hx
    by_cases h : k1 = k
    · simp only [h, if_true, List.mem_cons] at hx
      rcases hx with hx | hx
      · exact Or.inr hx
      · exact Or.inl (List.mem_cons_of_mem _ hx)
    · simp only [h, if_false, List.mem_cons] at hx
      rcases hx with hx | hx
      · exact Or.inl (hx ▸ List.mem_cons_self _ _)
      · rcases ih hx with h1 | h1
        · exact Or.inl (List.mem_cons_of_mem _ h1)
        · exact Or.inr h1

theorem find_isSome_iff_mem_keys {α β : Type} [DecidableEq α] (l : List (α × β)) (k : α) :
    (∃ v, find l k = some v) ↔ k ∈ l.map Prod.fst := by
  induction l with
  | nil => simp [find]
  | cons a l ih =>
    obtain ⟨k1, v1⟩ := a
    by_cases h : k1 = k
    · simp [find, h]
    · have h2 : ¬ k = k1 := fun hh => h hh.symm
      simp [find, h, h2, ih]

/-- What a successful gauge write did. -/
theorem setGauge_inv {m m2 : GaugeMap} {w : Write} (h : setGauge m w = .ok m2) :
    ∃ v, find m w.name = some v ∧ w.labels.length = v.labelNames.length ∧
      m2 = upsert m w.name { v with entries := upsert v.entries w.labels w.value } := by
  unfold setGauge at h
  cases hf : find m w.name with
  | none => simp [hf] at h
  | some v =>
    simp only [hf] at h
    unfold GaugeVec.Set at h
    by_cases hl : w.labels.length = v.labelNames.length
    · simp only [hl, if_true] at h
      cases h
      exact ⟨v, rfl, hl, rfl⟩
    · simp [hl] at h

theorem setGauge_value {m m2 : GaugeMap} {w : Write} (h : setGauge m w = .ok m2)
    (name : String) (lvs : List String) :
    mapValue? m2 name lvs =
      if w.name = name ∧ w.labels = lvs then some w.value else mapValue? m name lvs := by
  obtain ⟨v, hf, -, rfl⟩ := setGauge_inv h
  unfold mapValue?
  by_cases hn : w.name = name
  · subst hn
    rw [find_upsert_self, hf]
    by_cases hl : w.labels = lvs
    · subst hl
      simp [find_upsert_self]
    · have hl2 : lvs ≠ w.labels := fun hh => hl hh.symm
      simp [hl, find_upsert_ne _ _ _ _ hl2]
  · have hn2 : name ≠ w.name := fun hh => hn hh.symm
    rw [find_upsert_ne _ _ _ _ hn2]
    simp [hn]

theorem setGauge_keys {m m2 : GaugeMap} {w : Write} (h : setGauge m w = .ok m2) :
    m2.map Prod.fst = m.map Prod.fst ∧ w.name ∈ m.map Prod.fst := by
  obtain ⟨v, hf, -, rfl⟩ := setGauge_inv h
  exact ⟨keys_upsert m w.name _ v hf, (find_isSome_iff_mem_keys m w.name).1 ⟨v, hf⟩⟩

theorem find_mem {α β : Type} [DecidableEq α] (l : List (α × β)) (k : α) (v : β)
    (h : find l k = some v) : (k, v) ∈ l := by
  induction l with
  | nil => simp [find] at h
  | cons a l ih =>
    obtain ⟨k1, v1⟩ := a
    by_cases hk : k1 = k
    · simp only [find, hk, if_true, Option.some.injEq] at h
      simp [hk, h]
    · simp only [find, hk, if_false] at h
      exact List.mem_cons_of_mem _ (ih h)

theorem setGauge_keyed {m m2 : GaugeMap} {w : Write} (h : setGauge m w = .ok m2)
    (hk : KeyedByName m) : KeyedByName m2 := by
  obtain ⟨v, hf, -, rfl⟩ := setGauge_inv h
  intro kv hkv
  rcases mem_upsert _ _ _ _ hkv with h1 | h1
  · exact hk kv h1
  · rw [h1]
    exact hk (w.name, v) (find_mem m w.name v hf)

theorem applyWrites_value {ws : List Write} {m m2 : GaugeMap}
    (h : applyWrites m ws = .ok m2) (name : String) (lvs : List String) :
    mapValue? m2 name lvs =
      match lastWrite? ws name lvs with
      | some x => some x
      | none => mapValue? m name lvs := by
  induction ws generalizing m with
  | nil =>
    simp only [applyWrites] at h
    cases h
    rfl
  | cons w ws ih =>
    unfold applyWrites at h
    cases hs : setGauge m w with
    | error p => simp [hs] at h
    | ok m1 =>
      simp only [hs] at h
      rw [ih h, setGauge_value hs]
      have hcons : lastWrite? (w :: ws) name lvs =
          match lastWrite? ws name lvs with
          | some x => some x
          | none => if w.name = name ∧ w.labels = lvs then some w.value else none := rfl
      rw [hcons]
      cases lastWrite? ws name lvs with
      | some x => rfl
      | none =>
        simp only []
        split <;> rfl

theorem applyWrites_keys {ws : List Write} {m m2 : GaugeMap}
    (h : applyWrites m ws = .ok m2) :
    m2.map Prod.fst = m.map Prod.fst ∧ ∀ w ∈ ws, w.name ∈ m.map Prod.fst := by
  induction ws generalizing m with
  | nil =>
    simp only [applyWrites] at h
    cases h
    simp
  | cons w ws ih =>
    unfold applyWrites at h
    cases hs : setGauge m w with
    | error p => simp [hs] at h
    | ok m1 =>
      simp only [hs] at h
      obtain ⟨hk1, hmem⟩ := setGauge_keys hs
      obtain ⟨hk2, hall⟩ := ih h
      refine ⟨hk2.trans hk1, ?_⟩
      intro w2 hw2
      rcases List.mem_cons.1 hw2 with h1 | h1
      · rw [h1]; exact hmem
      · rw [← hk1]; exact hall w2 h1

theorem applyWrites_keyed {ws : List Write} {m m2 : GaugeMap}
    (h : applyWrites m ws = .ok m2) (hk : KeyedByName m) : KeyedByName m2 := by
  induction ws generalizing m with
  | nil =>
    simp only [applyWrites] at h
    cases h
    exact hk
  | cons w ws ih =>
    unfold applyWrites at h
    cases hs : setGauge m w with
    | error p => simp [hs] at h
    | ok m1 =>
      simp only [hs] at h
      exact ih h (setGauge_keyed hs hk)

theorem applyWrites_append {ws1 ws2 : List Write} {m m2 : GaugeMap}
    (h : applyWrites m (ws1 ++ ws2) = .ok m2) :
    ∃ m1, applyWrites m ws1 = .ok m1 ∧ applyWrites m1 ws2 = .ok m2 := by
  induction ws1 generalizing m with
  | nil => exact ⟨m, rfl, h⟩
  | cons w ws ih =>
    simp only [List.cons_append] at h
    rw [applyWrites] at h
    cases hs : setGauge m w with
    | error p => simp [hs] at h
    | ok m1 =>
      simp only [hs] at h
      obtain ⟨m3, h1, h2⟩ := ih h
      refine ⟨m3, ?_, h2⟩
      rw [applyWrites, hs]
      exact h1

theorem lastWrite?_mem {ws : List Write} {name : String} {lvs : List String} {x : Float64}
    (h : lastWrite? ws name lvs = some x) : (⟨name, lvs, x⟩ : Write) ∈ ws := by
  induction ws with
  | nil => simp [lastWrite?] at h
  | cons w ws ih =>
    unfold lastWrite? at h
    cases hl : lastWrite? ws name lvs with
    | some y =>
      simp only [hl, Option.some.injEq] at h
      subst h
      exact List.mem_cons_of_mem _ (ih hl)
    | none =>
      simp only [hl] at h
      by_cases hm : w.name = name ∧ w.labels = lvs
      · simp only [hm, and_self, if_true, Option.some.injEq] at h
        obtain ⟨h1, h2⟩ := hm
        subst h1 h2 h
        exact List.mem_cons_self _ _
      · simp [hm] at h

theorem lastWrite?_isSome {ws : List Write} {w : Write} (h : w ∈ ws) :
    ∃ x, lastWrite? ws w.name w.labels = some x := by
  induction ws with
  | nil => simp at h
  | cons w0 ws ih =>
    unfold lastWrite?
    cases hl : lastWrite? ws w.name w.labels with
    | some y => exact ⟨y, rfl⟩
    | none =>
      rcases List.mem_cons.1 h with h1 | h1
      · subst h1
        exact ⟨w.value, by simp⟩
      · obtain ⟨x, hx⟩ := ih h1
        rw [hl] at hx
        cases hx

theorem lastWrite?_none {ws : List Write} {name : String} {lvs : List String}
    (h : ∀ w ∈ ws, ¬ (w.name = name ∧ w.labels = lvs)) : lastWrite? ws name lvs = none := by
  induction ws with
  | nil => rfl
  | cons w ws ih =>
    unfold lastWrite?
    rw [ih (fun w2 hw2 => h w2 (List.mem_cons_of_mem _ hw2))]
    have := h w (List.mem_cons_self _ _)
    simp [this]


/-! ## Registration of the collections of a stage -/

theorem MustRegister_ok_iff (registry : Registerer) (base r : Registry) (c : Collector) :
    registry.MustRegister base c = .ok r ↔
      (∀ x ∈ base.collectors, x.collector.Name ≠ c.Name) ∧
        r = ⟨base.collectors ++ [⟨registry.labels, c⟩]⟩ := by
  unfold Registerer.MustRegister Registerer.Register
  by_cases h : base.collectors.any (fun x => x.collector.Name == c.Name) = true
  · simp only [h, if_true]
    constructor
    · intro hh; cases hh
    · rintro ⟨hne, -⟩
      rw [List.any_eq_true] at h
      obtain ⟨x, hx, hxe⟩ := h
      exact absurd (by simpa using hxe) (hne x hx)
  · simp only [h]
    have hall : ∀ x ∈ base.collectors, x.collector.Name ≠ c.Name := by
      intro x hx hxe
      apply h
      rw [List.any_eq_true]
      exact ⟨x, hx, by simpa using hxe⟩
    constructor
    · intro hh
      simp only [Bool.false_eq_true, if_false, Except.ok.injEq] at hh
      exact ⟨hall, hh.symm⟩
    · rintro ⟨-, hr⟩
      simp [hr]

theorem MustRegister_duplicate (registry : Registerer) (base : Registry) (c : Collector)
    (h : ∃ x ∈ base.collectors, x.collector.Name = c.Name) :
    registry.MustRegister base c = .error "duplicate metrics collector registration attempted" := by
  unfold Registerer.MustRegister Registerer.Register
  have hany : base.collectors.any (fun x => x.collector.Name == c.Name) = true := by
    rw [List.any_eq_true]
    obtain ⟨x, hx, hxe⟩ := h
    exact ⟨x, hx, by simpa using hxe⟩
  simp [hany]

/-- What a registration loop that ran through did: the collections were added to the
registry in order, none had a name the registry already held, and their names are pairwise
distinct. -/
theorem registerAll_inv {registry : Registerer} {base b : Registry} {m m1 : GaugeMap}
    (h : registerAll registry base m = .ok (b, m1)) :
    b.collectors =
        base.collectors ++ m.map (fun kv => (⟨registry.labels, .gaugeVec kv.2⟩ : Registered)) ∧
      m1 = m.map (fun kv => (kv.1, kv.2.Reset)) ∧
      (∀ kv ∈ m, ∀ x ∈ base.collectors, x.collector.Name ≠ kv.2.opts.Name) ∧
      (m.map (fun kv => kv.2.opts.Name)).Nodup := by
  induction m generalizing base b m1 with
  | nil =>
    simp only [registerAll, Except.ok.injEq, Prod.mk.injEq] at h
    obtain ⟨h1, h2⟩ := h
    subst h1 h2
    simp
  | cons kv rest ih =>
    obtain ⟨name, metric⟩ := kv
    rw [registerAll] at h
    cases hr : registry.MustRegister base (.gaugeVec metric) with
    | error p => simp [hr] at h
    | ok base1 =>
      simp only [hr] at h
      cases hrest : registerAll registry base1 rest with
      | error p => simp [hrest] at h
      | ok res =>
        obtain ⟨base2, m2⟩ := res
        simp only [hrest, Except.ok.injEq, Prod.mk.injEq] at h
        obtain ⟨h1, h2⟩ := h
        subst h1 h2
        obtain ⟨hfresh, hb1⟩ := (MustRegister_ok_iff registry base base1 _).1 hr
        obtain ⟨hc, hm, hf, hnd⟩ := ih hrest
        subst hb1
        refine ⟨?_, ?_, ?_, ?_⟩
        · rw [hc]
          simp
        · rw [hm]
          rfl
        · intro kv hkv x hx
          rcases List.mem_cons.1 hkv with h1 | h1
          · subst h1
            exact hfresh x hx
          · exact hf kv h1 x (List.mem_append_left _ hx)
        · simp only [List.map_cons, List.nodup_cons]
          refine ⟨?_, hnd⟩
          intro hmem
          obtain ⟨kv, hkv, hname⟩ := List.mem_map.1 hmem
          exact hf kv hkv ⟨registry.labels, .gaugeVec metric⟩
            (List.mem_append_right _ (List.mem_singleton_self _)) hname.symm

/-- The registration loop runs through when no collection has a name that the registry
holds and the names are pairwise distinct. -/
theorem registerAll_ok (registry : Registerer) (base : Registry) (m : GaugeMap)
    (hfresh : ∀ kv ∈ m, ∀ x ∈ base.collectors, x.collector.Name ≠ kv.2.opts.Name)
    (hnd : (m.map (fun kv => kv.2.opts.Name)).Nodup) :
    ∃ b m1, registerAll registry base m = .ok (b, m1) := by
  induction m generalizing base with
  | nil => exact ⟨base, [], rfl⟩
  | cons kv rest ih =>
    obtain ⟨name, metric⟩ := kv
    have h1 : registry.MustRegister base (.gaugeVec metric) =
        .ok ⟨base.collectors ++ [⟨registry.labels, .gaugeVec metric⟩]⟩ :=
      (MustRegister_ok_iff registry base _ _).2
        ⟨fun x hx => hfresh (name, metric) (List.mem_cons_self _ _) x hx, rfl⟩
    simp only [List.map_cons, List.nodup_cons] at hnd
    obtain ⟨b, m1, hb⟩ := ih ⟨base.collectors ++ [⟨registry.labels, .gaugeVec metric⟩]⟩
      (by
        intro kv hkv x hx
        rcases List.mem_append.1 hx with h2 | h2
        · exact hfresh kv (List.mem_cons_of_mem _ hkv) x h2
        · rw [List.mem_singleton] at h2
          subst h2
          intro heq
          exact hnd.1 (List.mem_map.2 ⟨kv, hkv, heq.symm⟩))
      hnd.2
    refine ⟨b, (name, metric.Reset) :: m1, ?_⟩
    rw [registerAll, h1]
    simp only [hb]

/-- The registration loop panics when the registry already holds the name of one of the
collections. -/
theorem registerAll_duplicate (registry : Registerer) (base : Registry) (m : GaugeMap)
    (h : ∃ kv ∈ m, ∃ x ∈ base.collectors, x.collector.Name = kv.2.opts.Name) :
    registerAll registry base m =
      .error "duplicate metrics collector registration attempted" := by
  induction m generalizing base with
  | nil => obtain ⟨kv, hkv, -⟩ := h; simp at hkv
  | cons kv0 rest ih =>
    obtain ⟨name, metric⟩ := kv0
    rw [registerAll]
    cases hr : registry.MustRegister base (.gaugeVec metric) with
    | error p =>
      have hp : p = "duplicate metrics collector registration attempted" := by
        unfold Registerer.MustRegister Registerer.Register at hr
        by_cases hany : base.collectors.any
            (fun x => x.collector.Name == (Collector.gaugeVec metric).Name) = true
        · simp only [hany, if_true, Except.error.injEq] at hr
          exact hr.symm
        · simp [hany] at hr
      rw [hp]
    | ok base1 =>
      simp only []
      obtain ⟨hfresh, hb1⟩ := (MustRegister_ok_iff registry base base1 _).1 hr
      obtain ⟨kv, hkv, x, hx, hname⟩ := h
      rcases List.mem_cons.1 hkv with h1 | h1
      · subst h1
        exact absurd hname (hfresh x hx)
      · rw [ih base1 ⟨kv, h1, x, by rw [hb1]; exact List.mem_append_left _ hx, hname⟩]


theorem findSome?_none_of_forall {α β : Type} (f : α → Option β) (l : List α)
    (h : ∀ x ∈ l, f x = none) : l.findSome? f = none := by
  induction l with
  | nil => rfl
  | cons a l ih =>
    rw [List.findSome?_cons, h a (List.mem_cons_self _ _)]
    exact ih (fun x hx => h x (List.mem_cons_of_mem _ hx))

/-- Publishing the collections of a stage does not change the name of any collector. -/
theorem publishOne_name (m2 : GaugeMap) (hk2 : KeyedByName m2) (x : Registered) :
    (publishOne m2 x).collector.Name = x.collector.Name := by
  unfold publishOne
  cases hc : x.collector with
  | gauge o => simp [hc]
  | gaugeVec v =>
    simp only []
    cases hf : find m2 v.opts.Name with
    | none => simp [hc]
    | some v2 =>
      simp only [Collector.Name]
      exact hk2 _ (find_mem m2 _ _ hf)

theorem publish_names (r : Registry) (m2 : GaugeMap) (hk2 : KeyedByName m2) :
    (r.publish m2).collectors.map (fun x => x.collector.Name) =
      r.collectors.map (fun x => x.collector.Name) := by
  unfold Registry.publish
  rw [List.map_map]
  apply List.map_congr_left
  intro x _
  exact publishOne_name m2 hk2 x

theorem findSome?_published (m2 : GaugeMap) (hk2 : KeyedByName m2) (labels : List (String × String))
    (name : String) (l : GaugeMap)
    (hl : ∀ kv ∈ l, kv.1 ∈ m2.map Prod.fst ∧ kv.2.opts.Name = kv.1)
    (hname : name ∈ l.map Prod.fst) :
    ((l.map (fun kv => (⟨labels, .gaugeVec kv.2⟩ : Registered))).map
        (publishOne m2)).findSome? (vecNamed name) = find m2 name := by
  induction l with
  | nil => simp at hname
  | cons kv rest ih =>
    obtain ⟨k, v⟩ := kv
    obtain ⟨hkmem, hkv⟩ := hl (k, v) (List.mem_cons_self _ _)
    simp only at hkmem hkv
    obtain ⟨v2, hv2⟩ := (find_isSome_iff_mem_keys m2 k).2 hkmem
    have hv2name : v2.opts.Name = k := hk2 _ (find_mem m2 _ _ hv2)
    simp only [List.map_cons, List.findSome?_cons]
    have hone : vecNamed name (publishOne m2 ⟨labels, .gaugeVec v⟩) =
        if k = name then some v2 else none := by
      unfold publishOne vecNamed
      simp only [hkv, hv2, hv2name]
    rw [hone]
    by_cases hkn : k = name
    · simp only [hkn, if_true]
      rw [← hkn, hv2]
    · simp only [hkn, if_false]
      apply ih (fun kv hkv2 => hl kv (List.mem_cons_of_mem _ hkv2))
      simp only [List.map_cons, List.mem_cons] at hname
      rcases hname with h1 | h1
      · exact absurd h1.symm hkn
      · exact h1

/-- After the registration loop, the registry with the collections published holds, for
every metric name of the stage, the values the map of collections holds. -/
theorem publish_value {registry : Registerer} {base b : Registry} {m m2 : GaugeMap}
    (hb : b.collectors =
      base.collectors ++ m.map (fun kv => (⟨registry.labels, .gaugeVec kv.2⟩ : Registered)))
    (hfresh : ∀ kv ∈ m, ∀ x ∈ base.collectors, x.collector.Name ≠ kv.2.opts.Name)
    (hkm : KeyedByName m) (hkeys : m2.map Prod.fst = m.map Prod.fst) (hk2 : KeyedByName m2)
    (name : String) (hname : name ∈ m.map Prod.fst) (lvs : List String) :
    (b.publish m2).value? name lvs = mapValue? m2 name lvs := by
  have hvec : (b.publish m2).vec? name = find m2 name := by
    unfold Registry.vec? Registry.publish
    simp only [hb, List.map_append, List.findSome?_append]
    have hbase : (base.collectors.map (publishOne m2)).findSome? (vecNamed name) = none := by
      apply findSome?_none_of_forall
      intro y hy
      obtain ⟨x, hx, rfl⟩ := List.mem_map.1 hy
      obtain ⟨kv, hkv, hkn⟩ := List.mem_map.1 hname
      have hxne : x.collector.Name ≠ name := by
        have := hfresh kv hkv x hx
        rw [hkm kv hkv, hkn] at this
        exact this
      have hpn := publishOne_name m2 hk2 x
      unfold vecNamed
      cases hc : (publishOne m2 x).collector with
      | gauge o => rfl
      | gaugeVec v =>
        simp only []
        rw [hc] at hpn
        have hv : v.opts.Name = x.collector.Name := hpn
        rw [hv]
        simp [hxne]
    rw [hbase]
    simp only [Option.none_or]
    apply findSome?_published m2 hk2 registry.labels name m _ hname
    intro kv hkv
    refine ⟨?_, hkm kv hkv⟩
    rw [hkeys]
    exact List.mem_map.2 ⟨kv, hkv, rfl⟩
  unfold Registry.value? mapValue?
  rw [hvec]

/-- The map `NewGaugeMap` builds from a table with distinct names, reset: its keys, and the
fact that every collection sits under its own name and is empty. -/
theorem newGaugeMap_facts (table : List metrics.Gauge)
    (hnd : (table.map (fun g => g.Name)).Nodup) :
    KeyedByName (metrics.NewGaugeMap table) ∧
      (metrics.NewGaugeMap table).map Prod.fst = table.map (fun g => g.Name) ∧
      ((metrics.NewGaugeMap table).map (fun kv => kv.2.opts.Name)) =
        table.map (fun g => g.Name) ∧
      (metrics.NewGaugeMap table).map (fun kv => (kv.1, kv.2.Reset)) =
        metrics.NewGaugeMap table := by
  have h : metrics.NewGaugeMap table = table.map (fun g => (g.Name, gaugeVecOf g)) := by
    unfold metrics.NewGaugeMap
    rw [NewGaugeMap_foldl table [] (by simpa using hnd)]
    simp
  rw [h]
  refine ⟨?_, ?_, ?_, ?_⟩
  · intro kv hkv
    obtain ⟨g, -, rfl⟩ := List.mem_map.1 hkv
    rfl
  · rw [List.map_map]; rfl
  · rw [List.map_map]; rfl
  · rw [List.map_map]; rfl


/-! ## The stages -/

theorem sysMetrics_nodup : (sysMetrics.map (fun g => g.Name)).Nodup := by decide

theorem interfaceMetrics_nodup : (interfaceMetrics.map (fun g => g.Name)).Nodup := by decide

theorem networkInputMetrics_nodup : (networkInputMetrics.map (fun g => g.Name)).Nodup := by
  decide

theorem videoMetrics_nodup : (videoMetrics.map (fun g => g.Name)).Nodup := by decide

theorem encoderMetrics_nodup : (encoderMetrics.map (fun g => g.Name)).Nodup := by decide

/-- A fresh map of collections holds no value. -/
theorem newGaugeMap_value (table : List metrics.Gauge)
    (hnd : (table.map (fun g => g.Name)).Nodup) (name : String) (lvs : List String) :
    mapValue? (metrics.NewGaugeMap table) name lvs = none := by
  have h : metrics.NewGaugeMap table = table.map (fun g => (g.Name, gaugeVecOf g)) := by
    unfold metrics.NewGaugeMap
    rw [NewGaugeMap_foldl table [] (by simpa using hnd)]
    simp
  unfold mapValue?
  rw [h, find_map_pairs table (fun g => g.Name) gaugeVecOf name]
  cases table.find? (fun g => decide (g.Name = name)) with
  | none => rfl
  | some g => rfl

/-- The registration loop of a stage runs through on a registry that holds none of the
metric names of its table, and leaves the fresh map of collections. -/
theorem registerAll_table_ok (registry : Registerer) (reg : Registry)
    (table : List metrics.Gauge) (hnd : (table.map (fun g => g.Name)).Nodup)
    (hfresh : ∀ x ∈ reg.collectors, x.collector.Name ∉ table.map (fun g => g.Name)) :
    ∃ reg1, registerAll registry reg (metrics.NewGaugeMap table) =
      .ok (reg1, metrics.NewGaugeMap table) := by
  obtain ⟨hk, -, hnames, hreset⟩ := newGaugeMap_facts table hnd
  obtain ⟨b, m1, hb⟩ := registerAll_ok registry reg (metrics.NewGaugeMap table)
    (by
      intro kv hkv x hx heq
      apply hfresh x hx
      rw [heq, ← hnames]
      exact List.mem_map.2 ⟨kv, hkv, rfl⟩)
    (by rw [hnames]; exact hnd)
  obtain ⟨-, hm1, -, -⟩ := registerAll_inv hb
  rw [hreset] at hm1
  subst hm1
  exact ⟨b, hb⟩

/-- A registration loop of a stage that ran through left the fresh map of collections. -/
theorem registerAll_table_inv {registry : Registerer} {reg reg1 : Registry}
    {table : List metrics.Gauge} {mtrcs : GaugeMap}
    (hnd : (table.map (fun g => g.Name)).Nodup)
    (h : registerAll registry reg (metrics.NewGaugeMap table) = .ok (reg1, mtrcs)) :
    mtrcs = metrics.NewGaugeMap table := by
  obtain ⟨-, hm1, -, -⟩ := registerAll_inv h
  rw [(newGaugeMap_facts table hnd).2.2.2] at hm1
  exact hm1

/-- After the registration loop of a stage and its gauge writes, the registry returned holds,
for every metric name of the table, the values of the map of collections. -/
theorem stage_value {registry : Registerer} {reg reg1 : Registry} {table : List metrics.Gauge}
    {m2 : GaugeMap} (hnd : (table.map (fun g => g.Name)).Nodup)
    (hreg : registerAll registry reg (metrics.NewGaugeMap table) =
      .ok (reg1, metrics.NewGaugeMap table))
    (hkeys : m2.map Prod.fst = (metrics.NewGaugeMap table).map Prod.fst)
    (hk2 : KeyedByName m2) (name : String) (hname : name ∈ table.map (fun g => g.Name))
    (lvs : List String) :
    (reg1.publish m2).value? name lvs = mapValue? m2 name lvs := by
  obtain ⟨hk, hkeys0, -, -⟩ := newGaugeMap_facts table hnd
  obtain ⟨hb, -, hf, -⟩ := registerAll_inv hreg
  exact publish_value hb hf hk hkeys hk2 name (by rw [hkeys0]; exact hname) lvs

/-- After the registration loop of a stage and the gauge writes `ws`, the registry returned
holds, for every metric name of the table, the value of the last write to it, if any. -/
theorem stage_writes_value {registry : Registerer} {reg reg1 : Registry}
    {table : List metrics.Gauge} {ws : List Write} {m2 : GaugeMap}
    (hnd : (table.map (fun g => g.Name)).Nodup)
    (hreg : registerAll registry reg (metrics.NewGaugeMap table) =
      .ok (reg1, metrics.NewGaugeMap table))
    (happly : applyWrites (metrics.NewGaugeMap table) ws = .ok m2)
    (name : String) (hname : name ∈ table.map (fun g => g.Name)) (lvs : List String) :
    (reg1.publish m2).value? name lvs = lastWrite? ws name lvs := by
  obtain ⟨hk, -, -, -⟩ := newGaugeMap_facts table hnd
  rw [stage_value hnd hreg (applyWrites_keys happly).1 (applyWrites_keyed happly hk) name hname,
    applyWrites_value happly, newGaugeMap_value table hnd]
  cases lastWrite? ws name lvs <;> rfl

/-- What a run of `system` that built its request and returned did. -/
theorem system_inv {lib : Stdlib} {ctx : Context} {registry : Registerer}
    {doReq : Request → Option String × Option GoError} {id : String} {reg : Registry}
    {r : StageReturn}
    (hurl : lib.urlParse (url ++ unitEndpoint ++ id ++ "/system/status") = none)
    (hrun : system lib ctx registry doReq id reg = .ok r) :
    ∃ reg1 m2 ws,
      registerAll registry reg (metrics.NewGaugeMap sysMetrics) =
        .ok (reg1, metrics.NewGaugeMap sysMetrics) ∧
      applyWrites (metrics.NewGaugeMap sysMetrics) ws = .ok m2 ∧
      r.registry = reg1.publish m2 ∧
      r.requests = [⟨ctx, "GET", url ++ unitEndpoint ++ id ++ "/system/status", none⟩] ∧
      ((∃ x err, doReq ⟨ctx, "GET", url ++ unitEndpoint ++ id ++ "/system/status", none⟩ =
            (x, some err) ∧ r.err = some err ∧
          ws = [systemInfoWrite {} 0]) ∨
        (∃ res info e,
          doReq ⟨ctx, "GET", url ++ unitEndpoint ++ id ++ "/system/status", none⟩ =
            (res, none) ∧
          lib.unmarshalSystemResponse (res.getD "") = (info, some e) ∧
          r.err = some (.external e) ∧ ws = [systemInfoWrite info 0]) ∨
        (∃ res info,
          doReq ⟨ctx, "GET", url ++ unitEndpoint ++ id ++ "/system/status", none⟩ =
            (res, none) ∧
          lib.unmarshalSystemResponse (res.getD "") = (info, none) ∧
          r.err = none ∧ ws = systemWrites info ++ [systemInfoWrite info 1])) := by
  unfold system NewRequestWithContext at hrun
  simp only [hurl] at hrun
  cases hreg : registerAll registry reg (metrics.NewGaugeMap sysMetrics) with
  | error p => simp [hreg] at hrun
  | ok res0 =>
    obtain ⟨reg1, mtrcs⟩ := res0
    have hm := registerAll_table_inv sysMetrics_nodup hreg
    subst hm
    simp only [hreg] at hrun
    rcases hdo : doReq ⟨ctx, "GET", url ++ unitEndpoint ++ id ++ "/system/status", none⟩
      with ⟨res, oerr⟩
    rw [hdo] at hrun
    cases oerr with
    | some err =>
      simp only [List.nil_append] at hrun
      cases happly : applyWrites (metrics.NewGaugeMap sysMetrics) [systemInfoWrite {} 0] with
      | error p => simp [happly] at hrun
      | ok m2 =>
        simp only [happly, Except.ok.injEq] at hrun
        subst hrun
        exact ⟨reg1, m2, _, rfl, happly, rfl, rfl, Or.inl ⟨res, err, rfl, rfl, rfl⟩⟩
    | none =>
      rcases hdec : lib.unmarshalSystemResponse (res.getD "") with ⟨info, oe⟩
      simp only [hdec] at hrun
      cases oe with
      | some e =>
        simp only [List.nil_append] at hrun
        cases happly : applyWrites (metrics.NewGaugeMap sysMetrics)
            [systemInfoWrite info 0] with
        | error p => simp [happly] at hrun
        | ok m2 =>
          simp only [happly, Except.ok.injEq] at hrun
          subst hrun
          exact ⟨reg1, m2, _, rfl, happly, rfl, rfl,
            Or.inr (Or.inl ⟨res, info, e, rfl, hdec, rfl, rfl⟩)⟩
      | none =>
        simp only [] at hrun
        cases happly : applyWrites (metrics.NewGaugeMap sysMetrics)
            (systemWrites info ++ [systemInfoWrite info 1]) with
        | error p => simp [happly] at hrun
        | ok m2 =>
          simp only [happly, Except.ok.injEq] at hrun
          subst hrun
          exact ⟨reg1, m2, _, rfl, happly, rfl, rfl,
            Or.inr (Or.inr ⟨res, info, rfl, hdec, rfl, rfl⟩)⟩


/-- The run of `system` once its request is built and its collections are registered. -/
theorem system_eq {lib : Stdlib} {ctx : Context} {registry : Registerer}
    {doReq : Request → Option String × Option GoError} {id : String} {reg reg1 : Registry}
    (hurl : lib.urlParse (url ++ unitEndpoint ++ id ++ "/system/status") = none)
    (hreg : registerAll registry reg (metrics.NewGaugeMap sysMetrics) =
      .ok (reg1, metrics.NewGaugeMap sysMetrics)) :
    (∀ x err, doReq ⟨ctx, "GET", url ++ unitEndpoint ++ id ++ "/system/status", none⟩ =
        (x, some err) →
      system lib ctx registry doReq id reg =
        match applyWrites (metrics.NewGaugeMap sysMetrics) [systemInfoWrite {} 0] with
        | .error p => .error p
        | .ok m2 =>
          .ok ⟨reg1.publish m2,
            [⟨ctx, "GET", url ++ unitEndpoint ++ id ++ "/system/status", none⟩], some err⟩) ∧
    (∀ res info oe, doReq ⟨ctx, "GET", url ++ unitEndpoint ++ id ++ "/system/status", none⟩ =
        (res, none) →
      lib.unmarshalSystemResponse (res.getD "") = (info, oe) →
      system lib ctx registry doReq id reg =
        match applyWrites (metrics.NewGaugeMap sysMetrics)
            ((match oe with
              | some _ => []
              | none => systemWrites info) ++
              [systemInfoWrite info (match oe with
                | some _ => 0
                | none => 1)]) with
        | .error p => .error p
        | .ok m2 =>
          .ok ⟨reg1.publish m2,
            [⟨ctx, "GET", url ++ unitEndpoint ++ id ++ "/system/status", none⟩],
            oe.map GoError.external⟩) := by
  constructor
  · intro x err hdo
    unfold system NewRequestWithContext
    simp only [hurl, hreg, hdo, List.nil_append]
  · intro res info oe hdo hdec
    unfold system NewRequestWithContext
    simp only [hurl, hreg, hdo, hdec]
    cases oe <;> rfl

/-- C15, refuted as stated: the unit answers the system status with the CPU usage alone and
the body decodes; `system` leaves `system_info` at 1, not 0, under three empty firmware
labels. -/
theorem system_info_counterexample :
    (system cpuLib Background serialRegisterer (fun _ => (some cpuBody, none)) "D01"
        NewRegistry).map
      (fun r => (r.err, r.registry.value? SystemInfo ["", "", ""],
        r.registry.value? CPUUtilisationPercent [])) =
      .ok (none, some 1, some 42.5) := rfl

/-- C15, amended. When the fetch of `system` succeeds with the body that holds the CPU usage
42.5 alone, and the body decodes to the struct with that one field set, the stage returns a
nil error and sets `cpu_utilisation_percent` to 42.5, `memory_total_bytes` and
`memory_available_bytes` to 0, and `system_info` to 1 under three empty firmware labels: the
value tells that fetch and decode succeeded, the firmware fields are not looked at. -/
theorem system_cpu_only (lib : Stdlib) (ctx : Context) (registry : Registerer)
    (doReq : Request → Option String × Option GoError) (id : String) (reg : Registry)
    (hurl : lib.urlParse (url ++ unitEndpoint ++ id ++ "/system/status") = none)
    (hfresh : ∀ x ∈ reg.collectors, x.collector.Name ∉ sysMetrics.map (fun g => g.Name))
    (hfetch : doReq ⟨ctx, "GET", url ++ unitEndpoint ++ id ++ "/system/status", none⟩ =
      (some cpuBody, none))
    (hdec : lib.unmarshalSystemResponse cpuBody = (cpuInfo, none)) :
    ∃ r, system lib ctx registry doReq id reg = .ok r ∧ r.err = none ∧
      r.registry.value? CPUUtilisationPercent [] = some 42.5 ∧
      r.registry.value? MemoryTotalBytes [] = some 0 ∧
      r.registry.value? MemoryAvailableBytes [] = some 0 ∧
      r.registry.value? SystemInfo ["", "", ""] = some 1 := by
  obtain ⟨reg1, hreg⟩ := registerAll_table_ok registry reg sysMetrics sysMetrics_nodup hfresh
  have hrun := (@system_eq _ ctx _ doReq _ _ _ hurl hreg).2 (some cpuBody) cpuInfo
    none hfetch hdec
  obtain ⟨m2, happly⟩ : ∃ m2, applyWrites (metrics.NewGaugeMap sysMetrics)
      (systemWrites cpuInfo ++ [systemInfoWrite cpuInfo 1]) = .ok m2 := ⟨_, rfl⟩
  simp only [happly] at hrun
  refine ⟨_, hrun, rfl, ?_, ?_, ?_, ?_⟩
  · rw [stage_writes_value sysMetrics_nodup hreg happly _ (by decide)]
    rfl
  · rw [stage_writes_value sysMetrics_nodup hreg happly _ (by decide)]
    rfl
  · rw [stage_writes_value sysMetrics_nodup hreg happly _ (by decide)]
    rfl
  · rw [stage_writes_value sysMetrics_nodup hreg happly _ (by decide)]
    rfl

/-- C15, amended, at a concrete unit. -/
theorem system_cpu_only_witness :
    (cpuLib.urlParse (url ++ unitEndpoint ++ "D01" ++ "/system/status") = none ∧
      (∀ x ∈ NewRegistry.collectors, x.collector.Name ∉ sysMetrics.map (fun g => g.Name)) ∧
      cpuLib.unmarshalSystemResponse cpuBody = (cpuInfo, none)) ∧
    ∃ r, system cpuLib Background serialRegisterer (fun _ => (some cpuBody, none)) "D01"
        NewRegistry = .ok r ∧ r.err = none ∧
      r.registry.value? CPUUtilisationPercent [] = some 42.5 ∧
      r.registry.value? MemoryTotalBytes [] = some 0 ∧
      r.registry.value? MemoryAvailableBytes [] = some 0 ∧
      r.registry.value? SystemInfo ["", "", ""] = some 1 :=
  ⟨⟨rfl, fun _ hx => absurd hx (List.not_mem_nil _), rfl⟩,
    system_cpu_only cpuLib Background serialRegisterer (fun _ => (some cpuBody, none)) "D01"
      NewRegistry rfl (fun _ hx => absurd hx (List.not_mem_nil _)) rfl rfl⟩


/-- C17. For each of the five stages, once its top-level request is built (the URL of its
own top-level resource parses): if the fetch
returns an error, the stage returns that error, and if the body fails to decode, the stage
returns the decode error; in both cases no gauge value of a listed item is set. The stages
`decoders`, `outputs` and `encoders` return the registry untouched; `interfaces` and `system`,
run on a registry that holds none of their metric names, have registered their collections
and leave them without a value, but for `system_info`, which `system` sets to 0. -/
theorem stage_top_level_failure (lib : Stdlib) (ctx : Context) (registry : Registerer)
    (doReq : Request → Option String × Option GoError) (id : String) (reg : Registry) :
    (lib.urlParse (url ++ unitEndpoint ++ id ++ "/system/status") = none →
      (∀ x ∈ reg.collectors, x.collector.Name ∉ sysMetrics.map (fun g => g.Name)) →
      ∀ res oerr info oe,
        doReq ⟨ctx, "GET", url ++ unitEndpoint ++ id ++ "/system/status", none⟩ = (res, oerr) →
        lib.unmarshalSystemResponse (res.getD "") = (info, oe) →
        (oerr ≠ none ∨ oe ≠ none) →
        ∃ r, system lib ctx registry doReq id reg = .ok r ∧
          r.err = (match oerr with
            | some err => some err
            | none => oe.map GoError.external) ∧
          r.err ≠ none ∧
          (∀ lvs v, r.registry.value? SystemInfo lvs = some v → v = 0) ∧
          ∀ name ∈ sysMetrics.map (fun g => g.Name), name ≠ SystemInfo →
            ∀ lvs, r.registry.value? name lvs = none) ∧
    (lib.urlParse (url ++ unitEndpoint ++ id ++ "/network_interfaces/status") = none →
      (∀ x ∈ reg.collectors, x.collector.Name ∉ interfaceMetrics.map (fun g => g.Name)) →
      ∀ res oerr v oe,
        doReq ⟨ctx, "GET", url ++ unitEndpoint ++ id ++ "/network_interfaces/status", none⟩ =
          (res, oerr) →
        lib.unmarshalStatusResponse (res.getD "") = (v, oe) →
        (oerr ≠ none ∨ oe ≠ none) →
        ∃ r, interfaces lib ctx registry doReq id reg = .ok r ∧
          r.err = (match oerr with
            | some err => some err
            | none => oe.map GoError.external) ∧
          r.err ≠ none ∧
          ∀ name ∈ interfaceMetrics.map (fun g => g.Name),
            ∀ lvs, r.registry.value? name lvs = none) ∧
    (lib.urlParse (url ++ unitEndpoint ++ id ++ "/network_inputs") = none →
      ∀ res oerr v oe,
      doReq ⟨ctx, "GET", url ++ unitEndpoint ++ id ++ "/network_inputs", none⟩ = (res, oerr) →
      lib.unmarshalNetworkInputsResponse (res.getD "") = (v, oe) →
      (oerr ≠ none ∨ oe ≠ none) →
      ∃ r, decoders lib ctx registry doReq id reg = .ok r ∧
        r.err = (match oerr with
          | some err => some err
          | none => oe.map GoError.external) ∧
        r.err ≠ none ∧ r.registry = reg) ∧
    (lib.urlParse (url ++ unitEndpoint ++ id ++ "/video_outputs") = none →
      ∀ res oerr v oe,
      doReq ⟨ctx, "GET", url ++ unitEndpoint ++ id ++ "/video_outputs", none⟩ = (res, oerr) →
      lib.unmarshalVideoOutputsResponse (res.getD "") = (v, oe) →
      (oerr ≠ none ∨ oe ≠ none) →
      ∃ r, outputs lib ctx registry doReq id reg = .ok r ∧
        r.err = (match oerr with
          | some err => some err
          | none => oe.map GoError.external) ∧
        r.err ≠ none ∧ r.registry = reg) ∧
    (lib.urlParse (url ++ unitEndpoint ++ id ++ "/encoders") = none →
      ∀ res oerr v oe,
      doReq ⟨ctx, "GET", url ++ unitEndpoint ++ id ++ "/encoders", none⟩ = (res, oerr) →
      lib.unmarshalEncodersResponse (res.getD "") = (v, oe) →
      (oerr ≠ none ∨ oe ≠ none) →
      ∃ r, encoders lib ctx registry doReq id reg = .ok r ∧
        r.err = (match oerr with
          | some err => some err
          | none => oe.map GoError.external) ∧
        r.err ≠ none ∧ r.registry = reg) := by
  refine ⟨?_, ?_, ?_, ?_, ?_⟩
  · intro hurl hfresh res oerr info oe hdo hdec hfail
    obtain ⟨reg1, hreg⟩ := registerAll_table_ok registry reg sysMetrics sysMetrics_nodup hfresh
    obtain ⟨h1, h2⟩ := @system_eq _ ctx _ doReq _ _ _ hurl hreg
    have key : ∀ (info0 : models.SystemResponse) (e : Option GoError),
        e ≠ none →
        system lib ctx registry doReq id reg =
          (match applyWrites (metrics.NewGaugeMap sysMetrics) [systemInfoWrite info0 0] with
          | .error p => .error p
          | .ok m2 =>
            .ok ⟨reg1.publish m2,
              [⟨ctx, "GET", url ++ unitEndpoint ++ id ++ "/system/status", none⟩], e⟩) →
        ∃ r, system lib ctx registry doReq id reg = .ok r ∧ r.err = e ∧ r.err ≠ none ∧
          (∀ lvs v, r.registry.value? SystemInfo lvs = some v → v = 0) ∧
          ∀ name ∈ sysMetrics.map (fun g => g.Name), name ≠ SystemInfo →
            ∀ lvs, r.registry.value? name lvs = none := by
      intro info0 e he hrun
      obtain ⟨m2, happly⟩ : ∃ m2, applyWrites (metrics.NewGaugeMap sysMetrics)
          [systemInfoWrite info0 0] = .ok m2 := ⟨_, rfl⟩
      simp only [happly] at hrun
      refine ⟨_, hrun, rfl, he, ?_, ?_⟩
      · intro lvs v hv
        rw [stage_writes_value sysMetrics_nodup hreg happly _ (by decide)] at hv
        have hmem := lastWrite?_mem hv
        simp only [List.mem_singleton, systemInfoWrite, Write.mk.injEq] at hmem
        exact hmem.2.2
      · intro name hname hne lvs
        rw [stage_writes_value sysMetrics_nodup hreg happly _ hname]
        apply lastWrite?_none
        intro w hw hcon
        simp only [List.mem_singleton] at hw
        subst hw
        exact hne hcon.1.symm
    cases oerr with
    | some err =>
      exact key {} (some err) (by simp) (h1 res err hdo)
    | none =>
      cases oe with
      | none => simp at hfail
      | some e =>
        exact key info (some (.external e)) (by simp) (h2 res info (some e) hdo hdec)
  · intro hurl hfresh res oerr v oe hdo hdec hfail
    obtain ⟨reg1, hreg⟩ := registerAll_table_ok registry reg interfaceMetrics
      interfaceMetrics_nodup hfresh
    obtain ⟨hk, hkeys, -, -⟩ := newGaugeMap_facts interfaceMetrics interfaceMetrics_nodup
    have hval : ∀ name ∈ interfaceMetrics.map (fun g => g.Name), ∀ lvs,
        (reg1.publish (metrics.NewGaugeMap interfaceMetrics)).value? name lvs = none := by
      intro name hname lvs
      rw [stage_value interfaceMetrics_nodup hreg rfl hk name hname,
        newGaugeMap_value interfaceMetrics interfaceMetrics_nodup]
    cases oerr with
    | some err =>
      refine ⟨⟨reg1.publish (metrics.NewGaugeMap interfaceMetrics),
        [⟨ctx, "GET", url ++ unitEndpoint ++ id ++ "/network_interfaces/status", none⟩],
        some err⟩, ?_, rfl,
        by simp, hval⟩
      unfold interfaces NewRequestWithContext
      simp only [hurl, hreg, hdo]
    | none =>
      cases oe with
      | none => simp at hfail
      | some e =>
        refine ⟨⟨reg1.publish (metrics.NewGaugeMap interfaceMetrics),
          [⟨ctx, "GET", url ++ unitEndpoint ++ id ++ "/network_interfaces/status", none⟩],
          some (.external e)⟩, ?_, rfl, by simp, hval⟩
        unfold interfaces NewRequestWithContext
        simp only [hurl, hreg, hdo, hdec]
  · intro hurl res oerr v oe hdo hdec hfail
    cases oerr with
    | some err =>
      refine ⟨⟨reg, [⟨ctx, "GET", url ++ unitEndpoint ++ id ++ "/network_inputs", none⟩], some err⟩,
        ?_, rfl, by simp, rfl⟩
      unfold decoders NewRequestWithContext
      simp only [hurl, hdo]
    | none =>
      cases oe with
      | none => simp at hfail
      | some e =>
        refine ⟨⟨reg, [⟨ctx, "GET", url ++ unitEndpoint ++ id ++ "/network_inputs", none⟩],
          some (.external e)⟩, ?_, rfl, by simp, rfl⟩
        unfold decoders NewRequestWithContext
        simp only [hurl, hdo, hdec]
  · intro hurl res oerr v oe hdo hdec hfail
    cases oerr with
    | some err =>
      refine ⟨⟨reg, [⟨ctx, "GET", url ++ unitEndpoint ++ id ++ "/video_outputs", none⟩], some err⟩,
        ?_, rfl, by simp, rfl⟩
      unfold outputs NewRequestWithContext
      simp only [hurl, hdo]
    | none =>
      cases oe with
      | none => simp at hfail
      | some e =>
        refine ⟨⟨reg, [⟨ctx, "GET", url ++ unitEndpoint ++ id ++ "/video_outputs", none⟩],
          some (.external e)⟩, ?_, rfl, by simp, rfl⟩
        unfold outputs NewRequestWithContext
        simp only [hurl, hdo, hdec]
  · intro hurl res oerr v oe hdo hdec hfail
    cases oerr with
    | some err =>
      refine ⟨⟨reg, [⟨ctx, "GET", url ++ unitEndpoint ++ id ++ "/encoders", none⟩], some err⟩,
        ?_, rfl, by simp, rfl⟩
      unfold encoders NewRequestWithContext
      simp only [hurl, hdo]
    | none =>
      cases oe with
      | none => simp at hfail
      | some e =>
        refine ⟨⟨reg, [⟨ctx, "GET", url ++ unitEndpoint ++ id ++ "/encoders", none⟩],
          some (.external e)⟩, ?_, rfl, by simp, rfl⟩
        unfold encoders NewRequestWithContext
        simp only [hurl, hdo, hdec]

/-- C17, at a concrete unit whose listing of network inputs answers 503. -/
theorem stage_top_level_failure_witness :
    cpuLib.urlParse (url ++ unitEndpoint ++ "D01" ++ "/network_inputs") = none ∧
      ∃ r, decoders cpuLib Background serialRegisterer (answering 503).doRequest "D01"
          NewRegistry = .ok r ∧
        r.err = some .errUnitOffline ∧ r.err ≠ none ∧ r.registry = NewRegistry :=
  ⟨rfl,
    (stage_top_level_failure cpuLib Background serialRegisterer (answering 503).doRequest
      "D01" NewRegistry).2.2.1 rfl none (some .errUnitOffline) {}
      (some "unexpected end of JSON input") rfl rfl (Or.inl (by simp))⟩

/-- C20. Registering a collector whose name the registry already holds is refused with an
error, and `MustRegister` panics on it: no registry with the collector overwritten comes
back. A run of `system` that built its request and returned has registered every collection
of its table, and a second run of `system` on the registry it left panics, whatever the unit
answers then. -/
theorem duplicate_registration_panics (lib : Stdlib) (ctx : Context) (registry : Registerer)
    (doReq doReq2 : Request → Option String × Option GoError) (id : String) (reg : Registry)
    (r1 : StageReturn)
    (hurl : lib.urlParse (url ++ unitEndpoint ++ id ++ "/system/status") = none)
    (hrun : system lib ctx registry doReq id reg = .ok r1) :
    (∀ (base : Registry) (c : Collector), (∃ x ∈ base.collectors, x.collector.Name = c.Name) →
        registry.Register base c =
          .error "duplicate metrics collector registration attempted" ∧
        registry.MustRegister base c =
          .error "duplicate metrics collector registration attempted") ∧
      (∀ g ∈ sysMetrics, ∃ x ∈ r1.registry.collectors, x.collector.Name = g.Name) ∧
      system lib ctx registry doReq2 id r1.registry =
        .error "duplicate metrics collector registration attempted" := by
  have hnames : ∀ g ∈ sysMetrics, ∃ x ∈ r1.registry.collectors, x.collector.Name = g.Name := by
    obtain ⟨reg1, m2, ws, hreg, happly, hregistry, -, -⟩ := system_inv hurl hrun
    obtain ⟨hk, hkeys, hvn, -⟩ := newGaugeMap_facts sysMetrics sysMetrics_nodup
    obtain ⟨hb, -, -, -⟩ := registerAll_inv hreg
    have hk2 := applyWrites_keyed happly hk
    intro g hg
    have hmem : g.Name ∈ r1.registry.collectors.map (fun x => x.collector.Name) := by
      rw [hregistry, publish_names reg1 m2 hk2, hb, List.map_append, List.map_map]
      apply List.mem_append_right
      have : g.Name ∈ (metrics.NewGaugeMap sysMetrics).map (fun kv => kv.2.opts.Name) := by
        rw [hvn]
        exact List.mem_map.2 ⟨g, hg, rfl⟩
      exact this
    obtain ⟨x, hx, hxn⟩ := List.mem_map.1 hmem
    exact ⟨x, hx, hxn⟩
  refine ⟨?_, hnames, ?_⟩
  · intro base c hdup
    have hm := MustRegister_duplicate registry base c hdup
    refine ⟨?_, hm⟩
    unfold Registerer.MustRegister at hm
    cases hr : registry.Register base c with
    | error e =>
      rw [hr] at hm
      simp only [Except.error.injEq] at hm
      rw [hm]
    | ok r => rw [hr] at hm; cases hm
  · obtain ⟨x, hx, hxn⟩ := hnames ⟨SystemInfo, _, _⟩ (List.mem_cons_self _ _)
    have hdup : registerAll registry r1.registry (metrics.NewGaugeMap sysMetrics) =
        .error "duplicate metrics collector registration attempted" := by
      apply registerAll_duplicate
      obtain ⟨-, -, hvn, -⟩ := newGaugeMap_facts sysMetrics sysMetrics_nodup
      have : SystemInfo ∈ (metrics.NewGaugeMap sysMetrics).map (fun kv => kv.2.opts.Name) := by
        rw [hvn]
        decide
      obtain ⟨kv, hkv, hkn⟩ := List.mem_map.1 this
      exact ⟨kv, hkv, x, hx, by rw [hkn]; exact hxn⟩
    unfold system NewRequestWithContext
    simp only [hurl, hdup]

/-- C20, at a concrete unit: `system` run twice. -/
theorem duplicate_registration_panics_witness :
    (cpuLib.urlParse (url ++ unitEndpoint ++ "D01" ++ "/system/status") = none ∧
      system cpuLib Background serialRegisterer (fun _ => (some cpuBody, none)) "D01"
          NewRegistry =
        .ok (ran (system cpuLib Background serialRegisterer (fun _ => (some cpuBody, none))
          "D01" NewRegistry))) ∧
    system cpuLib Background serialRegisterer (fun _ => (none, some .errUnitOffline)) "D01"
        (ran (system cpuLib Background serialRegisterer (fun _ => (some cpuBody, none)) "D01"
          NewRegistry)).registry =
      .error "duplicate metrics collector registration attempted" :=
  ⟨⟨rfl, rfl⟩,
    (duplicate_registration_panics cpuLib Background serialRegisterer
      (fun _ => (some cpuBody, none)) (fun _ => (none, some .errUnitOffline)) "D01" NewRegistry
      (ran (system cpuLib Background serialRegisterer (fun _ => (some cpuBody, none)) "D01"
        NewRegistry)) rfl rfl).2.2⟩


/-! ## Decimal rendering of indices -/

theorem digitChar_value (k : Nat) (hk : k < 10) : (Nat.digitChar k).toNat - 48 = k := by
  interval_cases k <;> rfl

theorem digitChar_ne_minus (k : Nat) (hk : k < 10) : Nat.digitChar k ≠ '-' := by
  interval_cases k <;> decide

theorem toDigitsCore_value (fuel n : Nat) (ds : List Char) (hfuel : n < fuel) :
    digitsValue 0 (Nat.toDigitsCore 10 fuel n ds) = digitsValue n ds := by
  induction fuel generalizing n ds with
  | zero => omega
  | succ fuel ih =>
    rw [Nat.toDigitsCore]
    have hmod : n % 10 < 10 := Nat.mod_lt _ (by decide)
    by_cases h0 : n / 10 = 0
    · simp only [h0, if_true]
      have hn : n % 10 = n := by omega
      unfold digitsValue
      simp only [List.foldl_cons, Nat.mul_zero, Nat.zero_add]
      rw [digitChar_value _ hmod, hn]
    · simp only [h0, if_false]
      rw [ih (n / 10) _ (by omega)]
      unfold digitsValue
      simp only [List.foldl_cons]
      rw [digitChar_value _ hmod]
      congr 1
      omega

theorem toDigitsCore_no_minus (fuel n : Nat) (ds : List Char) (hds : '-' ∉ ds) :
    '-' ∉ Nat.toDigitsCore 10 fuel n ds := by
  induction fuel generalizing n ds with
  | zero => rw [Nat.toDigitsCore]; exact hds
  | succ fuel ih =>
    rw [Nat.toDigitsCore]
    have hmod : n % 10 < 10 := Nat.mod_lt _ (by decide)
    have hcons : '-' ∉ Nat.digitChar (n % 10) :: ds := by
      simp only [List.mem_cons, not_or]
      exact ⟨fun h => digitChar_ne_minus _ hmod h.symm, hds⟩
    by_cases h0 : n / 10 = 0
    · simp only [h0, if_true]
      exact hcons
    · simp only [h0, if_false]
      exact ih _ _ hcons

theorem Nat_repr_injective (a b : Nat) (h : Nat.repr a = Nat.repr b) : a = b := by
  have hd : Nat.toDigits 10 a = Nat.toDigits 10 b := by
    have := congrArg String.data h
    simpa [Nat.repr, List.asString] using this
  have ha := toDigitsCore_value (a + 1) a [] (by omega)
  have hb := toDigitsCore_value (b + 1) b [] (by omega)
  unfold Nat.toDigits at hd
  rw [hd, hb] at ha
  unfold digitsValue at ha
  simpa using ha.symm

/-- The rendering `Itoa` tells integers apart. -/
theorem Itoa_injective (i j : Int) (h : Itoa i = Itoa j) : i = j := by
  have hminus : ∀ (a b : Nat), Nat.repr a ≠ "-" ++ Nat.repr b := by
    intro a b hab
    have := congrArg String.data hab
    rw [String.data_append] at this
    have hno := toDigitsCore_no_minus (a + 1) a [] (by simp)
    apply hno
    have hrep : (Nat.repr a).data = Nat.toDigitsCore 10 (a + 1) a [] := rfl
    rw [← hrep, this]
    simp
  unfold Itoa at h
  cases i with
  | ofNat a =>
    cases j with
    | ofNat b =>
      have : Nat.repr a = Nat.repr b := h
      rw [Nat_repr_injective a b this]
    | negSucc b =>
      exact absurd (show Nat.repr a = "-" ++ Nat.repr (b + 1) from h) (hminus a (b + 1))
  | negSucc a =>
    cases j with
    | ofNat b =>
      exact absurd (show Nat.repr b = "-" ++ Nat.repr (a + 1) from h.symm) (hminus b (a + 1))
    | negSucc b =>
      have h2 : "-" ++ Nat.repr (a + 1) = "-" ++ Nat.repr (b + 1) := h
      have h3 := congrArg String.data h2
      rw [String.data_append, String.data_append] at h3
      have h4 : (Nat.repr (a + 1)).data = (Nat.repr (b + 1)).data := List.append_cancel_left h3
      have h5 : Nat.repr (a + 1) = Nat.repr (b + 1) := String.ext h4
      have := Nat_repr_injective _ _ h5
      have hab : a = b := by omega
      rw [hab]


/-! ## The per-item loop -/

theorem decoders_eq (lib : Stdlib) :
    decoders lib = listingStage lib "/network_inputs" lib.unmarshalNetworkInputsResponse
      (fun l => l.NetworkInputs) networkInputMetrics (decoderRequest lib)
      lib.unmarshalNetworkInputStatus decoderWrites := by
  funext ctx registry doReq id reg
  unfold decoders listingStage
  cases h1 : NewRequestWithContext lib ctx "GET" (url ++ unitEndpoint ++ id ++ "/network_inputs") with
  | error err => rfl
  | ok request =>
    simp only []
    rcases h2 : doReq request with ⟨res, oerr⟩
    cases oerr with
    | some err => rfl
    | none =>
      simp only []
      rcases h3 : lib.unmarshalNetworkInputsResponse (res.getD "") with ⟨l, oe⟩
      cases oe with
      | some e => rfl
      | none => rfl

theorem outputs_eq (lib : Stdlib) :
    outputs lib = listingStage lib "/video_outputs" lib.unmarshalVideoOutputsResponse
      (fun l => l.VideoOutputs) videoMetrics (outputRequest lib)
      lib.unmarshalVideoOutputStatus outputWrites := by
  funext ctx registry doReq id reg
  unfold outputs listingStage
  cases h1 : NewRequestWithContext lib ctx "GET" (url ++ unitEndpoint ++ id ++ "/video_outputs") with
  | error err => rfl
  | ok request =>
    simp only []
    rcases h2 : doReq request with ⟨res, oerr⟩
    cases oerr with
    | some err => rfl
    | none =>
      simp only []
      rcases h3 : lib.unmarshalVideoOutputsResponse (res.getD "") with ⟨l, oe⟩
      cases oe with
      | some e => rfl
      | none => rfl

theorem encoders_eq (lib : Stdlib) :
    encoders lib = listingStage lib "/encoders" lib.unmarshalEncodersResponse
      (fun l => l.Encoders) encoderMetrics (encoderRequest lib)
      lib.unmarshalEncoderStatus encoderWrites := by
  funext ctx registry doReq id reg
  unfold encoders listingStage
  cases h1 : NewRequestWithContext lib ctx "GET" (url ++ unitEndpoint ++ id ++ "/encoders") with
  | error err => rfl
  | ok request =>
    simp only []
    rcases h2 : doReq request with ⟨res, oerr⟩
    cases oerr with
    | some err => rfl
    | none =>
      simp only []
      rcases h3 : lib.unmarshalEncodersResponse (res.getD "") with ⟨l, oe⟩
      cases oe with
      | some e => rfl
      | none => rfl

section StatusLoop

variable {Item Status : Type} (newRequest : Item → Except GoError Request)
  (doReq : Request → Option String × Option GoError)
  (unmarshal : String → Status × Option String) (writes : Item → Status → List Write)

/-- One turn of the per-item loop: either the item is skipped and the collections stay as
they are, or its status was fetched and decoded and its writes were run. -/
theorem statusLoop_cons_inv {item : Item} {rest : List Item} {st st2 : ItemLoop}
    (h : statusLoop newRequest doReq unmarshal writes (item :: rest) st = .ok st2) :
    ∃ st1, statusLoop newRequest doReq unmarshal writes rest st1 = .ok st2 ∧
      ((st1.mtrcs = st.mtrcs ∧
          ¬ ∃ request res e, newRequest item = .ok request ∧ doReq request = (res, none) ∧
            unmarshal (res.getD "") = (e, none)) ∨
        ∃ request res e, newRequest item = .ok request ∧ doReq request = (res, none) ∧
          unmarshal (res.getD "") = (e, none) ∧
          applyWrites st.mtrcs (writes item e) = .ok st1.mtrcs) := by
  rw [statusLoop] at h
  cases hreq : newRequest item with
  | error err =>
    simp only [hreq] at h
    exact ⟨_, h, Or.inl ⟨rfl, by rintro ⟨request, res, e, h1, -⟩; cases h1⟩⟩
  | ok request =>
    simp only [hreq] at h
    rcases hdo : doReq request with ⟨res, oerr⟩
    rw [hdo] at h
    cases oerr with
    | some err =>
      simp only [] at h
      refine ⟨_, h, Or.inl ⟨rfl, ?_⟩⟩
      rintro ⟨request2, res2, e2, h1, h2, -⟩
      cases h1
      rw [hdo] at h2
      cases h2
    | none =>
      simp only [] at h
      rcases hdec : unmarshal (res.getD "") with ⟨e, oe⟩
      rw [hdec] at h
      cases oe with
      | some err =>
        simp only [] at h
        refine ⟨_, h, Or.inl ⟨rfl, ?_⟩⟩
        rintro ⟨request2, res2, e2, h1, h2, h3⟩
        cases h1
        rw [hdo] at h2
        cases h2
        rw [hdec] at h3
        cases h3
      | none =>
        simp only [] at h
        cases happly : applyWrites st.mtrcs (writes item e) with
        | error p => simp [happly] at h
        | ok m2 =>
          simp only [happly] at h
          exact ⟨_, h, Or.inr ⟨request, res, e, rfl, hdo, hdec, happly⟩⟩

/-- The loop keeps the metric names of the map and the fact that every collection sits under
its own name. -/
theorem statusLoop_keys {items : List Item} {st st2 : ItemLoop}
    (h : statusLoop newRequest doReq unmarshal writes items st = .ok st2) :
    st2.mtrcs.map Prod.fst = st.mtrcs.map Prod.fst ∧
      (KeyedByName st.mtrcs → KeyedByName st2.mtrcs) := by
  induction items generalizing st with
  | nil =>
    rw [statusLoop] at h
    cases h
    exact ⟨rfl, id⟩
  | cons item rest ih =>
    obtain ⟨st1, hrest, hcase⟩ := statusLoop_cons_inv newRequest doReq unmarshal writes h
    obtain ⟨hk, hkeyed⟩ := ih hrest
    rcases hcase with ⟨hm, -⟩ | ⟨request, res, e, -, -, -, happly⟩
    · rw [hm] at hk hkeyed
      exact ⟨hk, hkeyed⟩
    · exact ⟨hk.trans (applyWrites_keys happly).1,
        fun hst => hkeyed (applyWrites_keyed happly hst)⟩

/-- The loop leaves a value alone when no write of any of its items goes to that metric name
and tuple of label values. -/
theorem statusLoop_preserves {items : List Item} {st st2 : ItemLoop}
    (h : statusLoop newRequest doReq unmarshal writes items st = .ok st2)
    (name : String) (lvs : List String)
    (hno : ∀ item ∈ items, ∀ e, ∀ w ∈ writes item e, ¬ (w.name = name ∧ w.labels = lvs)) :
    mapValue? st2.mtrcs name lvs = mapValue? st.mtrcs name lvs := by
  induction items generalizing st with
  | nil =>
    rw [statusLoop] at h
    cases h
    rfl
  | cons item rest ih =>
    obtain ⟨st1, hrest, hcase⟩ := statusLoop_cons_inv newRequest doReq unmarshal writes h
    rw [ih hrest (fun i hi => hno i (List.mem_cons_of_mem _ hi))]
    rcases hcase with ⟨hm, -⟩ | ⟨request, res, e, -, -, -, happly⟩
    · rw [hm]
    · rw [applyWrites_value happly,
        lastWrite?_none (hno item (List.mem_cons_self _ _) e)]

/-- When the items have pairwise distinct indices and every write of an item carries the
index of the item as its first label value, every write of an item whose status was fetched
and decoded is in the collections after the loop, with a value the item wrote. -/
theorem statusLoop_entries (index : Item → Int)
    (hhead : ∀ item e, ∀ w ∈ writes item e, w.labels.head? = some (Itoa (index item)))
    {items : List Item} {st st2 : ItemLoop}
    (h : statusLoop newRequest doReq unmarshal writes items st = .ok st2)
    (hnd : (items.map index).Nodup)
    {item : Item} (hitem : item ∈ items) {request : Request} {res : Option String}
    {e : Status} (hreq : newRequest item = .ok request) (hdo : doReq request = (res, none))
    (hdec : unmarshal (res.getD "") = (e, none)) {w : Write} (hw : w ∈ writes item e) :
    ∃ v, mapValue? st2.mtrcs w.name w.labels = some v ∧
      (⟨w.name, w.labels, v⟩ : Write) ∈ writes item e := by
  induction items generalizing st with
  | nil => simp at hitem
  | cons item0 rest ih =>
    obtain ⟨st1, hrest, hcase⟩ := statusLoop_cons_inv newRequest doReq unmarshal writes h
    simp only [List.map_cons, List.nodup_cons] at hnd
    rcases List.mem_cons.1 hitem with hhd | htl
    · subst hhd
      rcases hcase with ⟨-, hskip⟩ | ⟨request2, res2, e2, h1, h2, h3, happly⟩
      · exact absurd ⟨request, res, e, hreq, hdo, hdec⟩ hskip
      · rw [hreq] at h1
        cases h1
        rw [hdo] at h2
        cases h2
        rw [hdec] at h3
        cases h3
        obtain ⟨v, hv⟩ := lastWrite?_isSome hw
        refine ⟨v, ?_, lastWrite?_mem hv⟩
        rw [statusLoop_preserves newRequest doReq unmarshal writes hrest, applyWrites_value happly,
          hv]
        intro item2 hitem2 e2 w2 hw2 hcon
        have hh1 := hhead item2 e2 w2 hw2
        have hh2 := hhead item e w hw
        rw [hcon.2, hh2] at hh1
        simp only [Option.some.injEq] at hh1
        have hidx := Itoa_injective _ _ hh1
        apply hnd.1
        rw [hidx]
        exact List.mem_map.2 ⟨item2, hitem2, rfl⟩
    · exact ih hrest hnd.2 htl

end StatusLoop

/-- What a run of a listing stage that fetched and decoded its listing and returned did. -/
theorem listingStage_inv {Listing Item Status : Type} {lib : Stdlib} {path : String}
    {unmarshalListing : String → Listing × Option String} {items : Listing → List Item}
    {table : List metrics.Gauge}
    {newRequest : Context → String → Item → Except GoError Request}
    {unmarshalStatus : String → Status × Option String}
    {writes : Item → Status → List Write} {ctx : Context} {registry : Registerer}
    {doReq : Request → Option String × Option GoError} {id : String} {reg : Registry}
    {r : StageReturn} {res0 : Option String} {listing : Listing}
    (hnd : (table.map (fun g => g.Name)).Nodup)
    (hrun : listingStage lib path unmarshalListing items table newRequest unmarshalStatus
      writes ctx registry doReq id reg = .ok r)
    (hurl : lib.urlParse (url ++ unitEndpoint ++ id ++ path) = none)
    (hdo : doReq ⟨ctx, "GET", url ++ unitEndpoint ++ id ++ path, none⟩ = (res0, none))
    (hdec : unmarshalListing (res0.getD "") = (listing, none)) :
    ∃ reg1 st,
      registerAll registry reg (metrics.NewGaugeMap table) =
        .ok (reg1, metrics.NewGaugeMap table) ∧
      statusLoop (newRequest ctx id) doReq unmarshalStatus writes (items listing)
        { mtrcs := metrics.NewGaugeMap table,
          requests := [⟨ctx, "GET", url ++ unitEndpoint ++ id ++ path, none⟩],
          err := none } = .ok st ∧
      r = ⟨reg1.publish st.mtrcs, st.requests, st.err⟩ := by
  unfold listingStage NewRequestWithContext at hrun
  simp only [hurl, hdo, hdec] at hrun
  cases hreg : registerAll registry reg (metrics.NewGaugeMap table) with
  | error p => simp [hreg] at hrun
  | ok res1 =>
    obtain ⟨reg1, mtrcs⟩ := res1
    have hm := registerAll_table_inv hnd hreg
    subst hm
    simp only [hreg] at hrun
    cases hloop : statusLoop (newRequest ctx id) doReq unmarshalStatus writes (items listing)
        { mtrcs := metrics.NewGaugeMap table,
          requests := [⟨ctx, "GET", url ++ unitEndpoint ++ id ++ path, none⟩],
          err := none } with
    | error p => simp [hloop] at hrun
    | ok st =>
      simp only [hloop, Except.ok.injEq] at hrun
      exact ⟨reg1, st, rfl, rfl, hrun.symm⟩

/-- In a run of a listing stage, with items of pairwise distinct indices, every write of an
item whose status was fetched and decoded is in the registry returned, with a value the item
wrote. -/
theorem listingStage_entries {Listing Item Status : Type} {lib : Stdlib} {path : String}
    {unmarshalListing : String → Listing × Option String} {items : Listing → List Item}
    {table : List metrics.Gauge}
    {newRequest : Context → String → Item → Except GoError Request}
    {unmarshalStatus : String → Status × Option String}
    {writes : Item → Status → List Write} {ctx : Context} {registry : Registerer}
    {doReq : Request → Option String × Option GoError} {id : String} {reg : Registry}
    {r : StageReturn} {res0 : Option String} {listing : Listing}
    (index : Item → Int)
    (hhead : ∀ item e, ∀ w ∈ writes item e, w.labels.head? = some (Itoa (index item)))
    (hnd : (table.map (fun g => g.Name)).Nodup)
    (hrun : listingStage lib path unmarshalListing items table newRequest unmarshalStatus
      writes ctx registry doReq id reg = .ok r)
    (hurl : lib.urlParse (url ++ unitEndpoint ++ id ++ path) = none)
    (hdo : doReq ⟨ctx, "GET", url ++ unitEndpoint ++ id ++ path, none⟩ = (res0, none))
    (hdec : unmarshalListing (res0.getD "") = (listing, none))
    (hdistinct : ((items listing).map index).Nodup)
    {item : Item} (hitem : item ∈ items listing) {request : Request} {res : Option String}
    {e : Status} (hreq : newRequest ctx id item = .ok request)
    (hdo1 : doReq request = (res, none)) (hdec1 : unmarshalStatus (res.getD "") = (e, none))
    {w : Write} (hw : w ∈ writes item e) :
    ∃ v, r.registry.value? w.name w.labels = some v ∧
      (⟨w.name, w.labels, v⟩ : Write) ∈ writes item e := by
  obtain ⟨reg1, st, hreg, hloop, hr⟩ := listingStage_inv hnd hrun hurl hdo hdec
  obtain ⟨v, hv, hmem⟩ := statusLoop_entries (newRequest ctx id) doReq unmarshalStatus writes
    index hhead hloop hdistinct hitem hreq hdo1 hdec1 hw
  obtain ⟨hkeys, hkeyed⟩ := statusLoop_keys (newRequest ctx id) doReq unmarshalStatus writes
    hloop
  obtain ⟨hk, hkeys0, -, -⟩ := newGaugeMap_facts table hnd
  have hname : w.name ∈ table.map (fun g => g.Name) := by
    rw [← hkeys0, ← hkeys]
    apply (find_isSome_iff_mem_keys st.mtrcs w.name).1
    unfold mapValue? at hv
    cases hf : find st.mtrcs w.name with
    | none => simp [hf] at hv
    | some vec => exact ⟨vec, rfl⟩
  refine ⟨v, ?_, hmem⟩
  rw [hr]
  simp only []
  rw [stage_value hnd hreg hkeys (hkeyed hk) w.name hname]
  exact hv


/-! ## The first label value of every write is the index of the item -/

theorem decoderProgramWrites_head (idx : String) (e : models.NetworkInputStatus) (k : Nat)
    (prog : models.Program) :
    ∀ w ∈ decoderProgramWrites idx e k prog, w.labels.head? = some idx := by
  intro w hw
  simp only [decoderProgramWrites, List.mem_append, List.mem_cons, List.mem_map,
    List.mem_singleton, List.not_mem_nil, or_false] at hw
  rcases hw with ((h | h) | ⟨a, -, h⟩) | h | h | h | h <;> subst h <;> rfl

theorem decoderWrites_head (decoder : models.NetworkInput) (e : models.NetworkInputStatus) :
    ∀ w ∈ decoderWrites decoder e, w.labels.head? = some (Itoa decoder.Index) := by
  intro w hw
  simp only [decoderWrites, List.mem_append, List.mem_cons, List.mem_flatMap,
    List.mem_singleton, List.not_mem_nil, or_false] at hw
  rcases hw with ((h | h | h | h | h) | h) | ⟨p, -, h⟩
  · subst h; rfl
  · subst h; rfl
  · subst h; rfl
  · subst h; rfl
  · subst h; rfl
  · split at h
    · simp only [List.mem_singleton] at h
      subst h; rfl
    · simp at h
  · exact decoderProgramWrites_head _ e p.1 p.2 w h

theorem outputWrites_head (output : models.VideoOutput) (e : models.VideoOutputStatus) :
    ∀ w ∈ outputWrites output e, w.labels.head? = some (Itoa output.Index) := by
  intro w hw
  simp only [outputWrites, List.mem_append, List.mem_cons, List.mem_map,
    List.mem_singleton, List.not_mem_nil, or_false] at hw
  rcases hw with ((h | ⟨a, -, h⟩) | h) | ⟨a, -, h⟩ <;> subst h <;> rfl

theorem encoderPathWrites_head (idx : String) (e : models.EncoderStatus)
    (basic : models.BasicOutput) (d : String) (path : models.EncoderBondingPath) :
    ∀ w ∈ encoderPathWrites idx e basic d path, w.labels.head? = some idx := by
  intro w hw
  simp only [encoderPathWrites, List.mem_cons, List.mem_singleton, List.not_mem_nil,
    or_false] at hw
  rcases hw with h | h | h | h | h | h | h | h <;> subst h <;> rfl

theorem encoderDestinationWrites_head (idx : String) (e : models.EncoderStatus) (i : Nat)
    (basic : models.BasicOutput) :
    ∀ w ∈ encoderDestinationWrites idx e i basic, w.labels.head? = some idx := by
  intro w hw
  simp only [encoderDestinationWrites, List.mem_append, List.mem_cons, List.mem_flatMap,
    List.mem_singleton, List.not_mem_nil, or_false] at hw
  rcases hw with (h | h | h | h | h | h) | ⟨p, -, h⟩
  · subst h; rfl
  · subst h; rfl
  · subst h; rfl
  · subst h; rfl
  · subst h; rfl
  · subst h; rfl
  · exact encoderPathWrites_head idx e basic _ p w h

theorem encoderWrites_head (encoder : models.Encoder) (e : models.EncoderStatus) :
    ∀ w ∈ encoderWrites encoder e, w.labels.head? = some (Itoa encoder.Index) := by
  intro w hw
  simp only [encoderWrites, List.mem_append, List.mem_cons, List.mem_flatMap, List.mem_map,
    List.mem_singleton, List.not_mem_nil, or_false] at hw
  rcases hw with (((h | h) | ⟨a, -, h⟩) | h) | ⟨b, -, h⟩
  · subst h; rfl
  · subst h; rfl
  · subst h; rfl
  · subst h; rfl
  · exact encoderDestinationWrites_head _ e b.1 b.2 w h


/-! ## The gauge writes of the stages never panic -/

theorem setGauge_ok {m : GaugeMap} {w : Write}
    (h : arity? m w.name = some w.labels.length) :
    ∃ m2, setGauge m w = .ok m2 ∧ ∀ name, arity? m2 name = arity? m name := by
  unfold arity? at h
  cases hf : find m w.name with
  | none => simp [hf] at h
  | some v =>
    simp only [hf, Option.map_some', Option.some.injEq] at h
    refine ⟨upsert m w.name { v with entries := upsert v.entries w.labels w.value }, ?_, ?_⟩
    · unfold setGauge GaugeVec.Set
      simp only [hf, h, if_true]
    · intro name
      unfold arity?
      by_cases hn : name = w.name
      · subst hn
        rw [find_upsert_self, hf]
        rfl
      · rw [find_upsert_ne _ _ _ _ hn]

theorem applyWrites_ok {ws : List Write} {m : GaugeMap}
    (h : ∀ w ∈ ws, arity? m w.name = some w.labels.length) :
    ∃ m2, applyWrites m ws = .ok m2 ∧ ∀ name, arity? m2 name = arity? m name := by
  induction ws generalizing m with
  | nil => exact ⟨m, rfl, fun _ => rfl⟩
  | cons w ws ih =>
    obtain ⟨m1, h1, ha1⟩ := setGauge_ok (h w (List.mem_cons_self _ _))
    obtain ⟨m2, h2, ha2⟩ := ih (m := m1) (fun w2 hw2 => by
      rw [ha1]
      exact h w2 (List.mem_cons_of_mem _ hw2))
    refine ⟨m2, ?_, fun name => (ha2 name).trans (ha1 name)⟩
    rw [applyWrites, h1]
    exact h2

/-- A fresh map of collections has, under the metric name of a write that fits the table, a
collection with as many label names as the write has label values. -/
theorem newGaugeMap_arity (table : List metrics.Gauge)
    (hnd : (table.map (fun g => g.Name)).Nodup) (w : Write) (hw : w.fits table = true) :
    arity? (metrics.NewGaugeMap table) w.name = some w.labels.length := by
  have h : metrics.NewGaugeMap table = table.map (fun g => (g.Name, gaugeVecOf g)) := by
    unfold metrics.NewGaugeMap
    rw [NewGaugeMap_foldl table [] (by simpa using hnd)]
    simp
  unfold arity?
  rw [h, find_map_pairs table (fun g => g.Name) gaugeVecOf w.name]
  unfold Write.fits at hw
  cases hf : table.find? (fun g => decide (g.Name = w.name)) with
  | none => simp [hf] at hw
  | some g =>
    simp only [hf, beq_iff_eq] at hw
    simp only [Option.map_some', Option.some.injEq]
    exact hw

section StatusLoopTotal

variable {Item Status : Type} (newRequest : Item → Except GoError Request)
  (doReq : Request → Option String × Option GoError)
  (unmarshal : String → Status × Option String) (writes : Item → Status → List Write)

/-- The per-item loop runs through when every write of every item goes to a collection of
the map with the right number of label values. -/
theorem statusLoop_ok (items : List Item) (st : ItemLoop)
    (h : ∀ item e, ∀ w ∈ writes item e, arity? st.mtrcs w.name = some w.labels.length) :
    ∃ st2, statusLoop newRequest doReq unmarshal writes items st = .ok st2 := by
  induction items generalizing st with
  | nil => exact ⟨st, rfl⟩
  | cons item rest ih =>
    rw [statusLoop]
    cases hreq : newRequest item with
    | error err => exact ih _ h
    | ok request =>
      simp only []
      rcases hdo : doReq request with ⟨res, oerr⟩
      cases oerr with
      | some err => exact ih _ h
      | none =>
        simp only []
        rcases hdec : unmarshal (res.getD "") with ⟨e, oe⟩
        cases oe with
        | some err => exact ih _ h
        | none =>
          simp only []
          obtain ⟨m2, hm2, ha⟩ := applyWrites_ok (m := st.mtrcs) (h item e)
          simp only [hm2]
          apply ih
          intro item2 e2 w2 hw2
          simp only []
          rw [ha]
          exact h item2 e2 w2 hw2

end StatusLoopTotal

/-- A listing stage returns, on a registry that holds none of the metric names of its table,
when the writes of its items fit the table. -/
theorem listingStage_ok {Listing Item Status : Type} (lib : Stdlib) (path : String)
    (unmarshalListing : String → Listing × Option String) (items : Listing → List Item)
    (table : List metrics.Gauge)
    (newRequest : Context → String → Item → Except GoError Request)
    (unmarshalStatus : String → Status × Option String)
    (writes : Item → Status → List Write) (ctx : Context) (registry : Registerer)
    (doReq : Request → Option String × Option GoError) (id : String) (reg : Registry)
    (hnd : (table.map (fun g => g.Name)).Nodup)
    (hfits : ∀ item e, ∀ w ∈ writes item e, w.fits table = true)
    (hfresh : ∀ x ∈ reg.collectors, x.collector.Name ∉ table.map (fun g => g.Name)) :
    ∃ r, listingStage lib path unmarshalListing items table newRequest unmarshalStatus
      writes ctx registry doReq id reg = .ok r := by
  unfold listingStage
  cases h1 : NewRequestWithContext lib ctx "GET" (url ++ unitEndpoint ++ id ++ path) with
  | error err => exact ⟨_, rfl⟩
  | ok request =>
    simp only []
    rcases h2 : doReq request with ⟨res, oerr⟩
    cases oerr with
    | some err => exact ⟨_, rfl⟩
    | none =>
      simp only []
      rcases h3 : unmarshalListing (res.getD "") with ⟨l, oe⟩
      cases oe with
      | some e => exact ⟨_, rfl⟩
      | none =>
        simp only []
        obtain ⟨reg1, hreg⟩ := registerAll_table_ok registry reg table hnd hfresh
        simp only [hreg]
        obtain ⟨st2, hst2⟩ := statusLoop_ok (newRequest ctx id) doReq unmarshalStatus writes
          (items l) { mtrcs := metrics.NewGaugeMap table, requests := [request], err := none }
          (fun item e w hw => newGaugeMap_arity table hnd w (hfits item e w hw))
        simp only [hst2]
        exact ⟨_, rfl⟩

theorem decoderProgramWrites_fits (idx : String) (e : models.NetworkInputStatus) (k : Nat)
    (prog : models.Program) :
    ∀ w ∈ decoderProgramWrites idx e k prog, w.fits networkInputMetrics = true := by
  intro w hw
  simp only [decoderProgramWrites, List.mem_append, List.mem_cons, List.mem_map,
    List.mem_singleton, List.not_mem_nil, or_false] at hw
  rcases hw with ((h | h) | ⟨a, -, h⟩) | h | h | h | h <;> subst h <;> rfl

theorem decoderWrites_fits (decoder : models.NetworkInput) (e : models.NetworkInputStatus) :
    ∀ w ∈ decoderWrites decoder e, w.fits networkInputMetrics = true := by
  intro w hw
  simp only [decoderWrites, List.mem_append, List.mem_cons, List.mem_flatMap,
    List.mem_singleton, List.not_mem_nil, or_false] at hw
  rcases hw with ((h | h | h | h | h) | h) | ⟨p, -, h⟩
  · subst h; rfl
  · subst h; rfl
  · subst h; rfl
  · subst h; rfl
  · subst h; rfl
  · split at h
    · simp only [List.mem_singleton] at h
      subst h; rfl
    · simp at h
  · exact decoderProgramWrites_fits _ e p.1 p.2 w h

theorem outputWrites_fits (output : models.VideoOutput) (e : models.VideoOutputStatus) :
    ∀ w ∈ outputWrites output e, w.fits videoMetrics = true := by
  intro w hw
  simp only [outputWrites, List.mem_append, List.mem_cons, List.mem_map,
    List.mem_singleton, List.not_mem_nil, or_false] at hw
  rcases hw with ((h | ⟨a, -, h⟩) | h) | ⟨a, -, h⟩ <;> subst h <;> rfl

theorem encoderPathWrites_fits (idx : String) (e : models.EncoderStatus)
    (basic : models.BasicOutput) (d : String) (path : models.EncoderBondingPath) :
    ∀ w ∈ encoderPathWrites idx e basic d path, w.fits encoderMetrics = true := by
  intro w hw
  simp only [encoderPathWrites, List.mem_cons, List.mem_singleton, List.not_mem_nil,
    or_false] at hw
  rcases hw with h | h | h | h | h | h | h | h <;> subst h <;> rfl

theorem encoderDestinationWrites_fits (idx : String) (e : models.EncoderStatus) (i : Nat)
    (basic : models.BasicOutput) :
    ∀ w ∈ encoderDestinationWrites idx e i basic, w.fits encoderMetrics = true := by
  intro w hw
  simp only [encoderDestinationWrites, List.mem_append, List.mem_cons, List.mem_flatMap,
    List.mem_singleton, List.not_mem_nil, or_false] at hw
  rcases hw with (h | h | h | h | h | h) | ⟨p, -, h⟩
  · subst h; rfl
  · subst h; rfl
  · subst h; rfl
  · subst h; rfl
  · subst h; rfl
  · subst h; rfl
  · exact encoderPathWrites_fits idx e basic _ p w h

theorem encoderWrites_fits (encoder : models.Encoder) (e : models.EncoderStatus) :
    ∀ w ∈ encoderWrites encoder e, w.fits encoderMetrics = true := by
  intro w hw
  simp only [encoderWrites, List.mem_append, List.mem_cons, List.mem_flatMap, List.mem_map,
    List.mem_singleton, List.not_mem_nil, or_false] at hw
  rcases hw with (((h | h) | ⟨a, -, h⟩) | h) | ⟨b, -, h⟩
  · subst h; rfl
  · subst h; rfl
  · subst h; rfl
  · subst h; rfl
  · exact encoderDestinationWrites_fits _ e b.1 b.2 w h


/-! ## Per-item failures and the labels of programs and audio tracks -/

/-- C16. In each of `decoders`, `outputs` and `encoders`, on a registry that holds none of
the metric names of the stage: when the listing is fetched and decodes to items with pairwise
distinct indices, the stage returns, and every item whose status request was built, fetched
and decoded has every one of its entries in the registry returned, with a value that item
wrote, whatever happened to the other items. -/
theorem item_failure_isolated (lib : Stdlib) (ctx : Context) (registry : Registerer)
    (doReq : Request → Option String × Option GoError) (id : String) (reg : Registry) :
    (∀ res0 listing,
      (∀ x ∈ reg.collectors, x.collector.Name ∉ networkInputMetrics.map (fun g => g.Name)) →
      lib.urlParse (url ++ unitEndpoint ++ id ++ "/network_inputs") = none →
      doReq ⟨ctx, "GET", url ++ unitEndpoint ++ id ++ "/network_inputs", none⟩ =
        (res0, none) →
      lib.unmarshalNetworkInputsResponse (res0.getD "") = (listing, none) →
      (listing.NetworkInputs.map (fun d => d.Index)).Nodup →
      ∃ r, decoders lib ctx registry doReq id reg = .ok r ∧
        ∀ decoder ∈ listing.NetworkInputs, ∀ request res e,
          decoderRequest lib ctx id decoder = .ok request → doReq request = (res, none) →
          lib.unmarshalNetworkInputStatus (res.getD "") = (e, none) →
          ∀ w ∈ decoderWrites decoder e,
            ∃ v, r.registry.value? w.name w.labels = some v ∧
              (⟨w.name, w.labels, v⟩ : Write) ∈ decoderWrites decoder e) ∧
    (∀ res0 listing,
      (∀ x ∈ reg.collectors, x.collector.Name ∉ videoMetrics.map (fun g => g.Name)) →
      lib.urlParse (url ++ unitEndpoint ++ id ++ "/video_outputs") = none →
      doReq ⟨ctx, "GET", url ++ unitEndpoint ++ id ++ "/video_outputs", none⟩ =
        (res0, none) →
      lib.unmarshalVideoOutputsResponse (res0.getD "") = (listing, none) →
      (listing.VideoOutputs.map (fun o => o.Index)).Nodup →
      ∃ r, outputs lib ctx registry doReq id reg = .ok r ∧
        ∀ output ∈ listing.VideoOutputs, ∀ request res e,
          outputRequest lib ctx id output = .ok request → doReq request = (res, none) →
          lib.unmarshalVideoOutputStatus (res.getD "") = (e, none) →
          ∀ w ∈ outputWrites output e,
            ∃ v, r.registry.value? w.name w.labels = some v ∧
              (⟨w.name, w.labels, v⟩ : Write) ∈ outputWrites output e) ∧
    (∀ res0 listing,
      (∀ x ∈ reg.collectors, x.collector.Name ∉ encoderMetrics.map (fun g => g.Name)) →
      lib.urlParse (url ++ unitEndpoint ++ id ++ "/encoders") = none →
      doReq ⟨ctx, "GET", url ++ unitEndpoint ++ id ++ "/encoders", none⟩ = (res0, none) →
      lib.unmarshalEncodersResponse (res0.getD "") = (listing, none) →
      (listing.Encoders.map (fun c => c.Index)).Nodup →
      ∃ r, encoders lib ctx registry doReq id reg = .ok r ∧
        ∀ encoder ∈ listing.Encoders, ∀ request res e,
          encoderRequest lib ctx id encoder = .ok request → doReq request = (res, none) →
          lib.unmarshalEncoderStatus (res.getD "") = (e, none) →
          ∀ w ∈ encoderWrites encoder e,
            ∃ v, r.registry.value? w.name w.labels = some v ∧
              (⟨w.name, w.labels, v⟩ : Write) ∈ encoderWrites encoder e) := by
  refine ⟨?_, ?_, ?_⟩
  · intro res0 listing hfresh hurl hdo hdec hdistinct
    obtain ⟨r, hr⟩ := listingStage_ok lib "/network_inputs" lib.unmarshalNetworkInputsResponse
      (fun l => l.NetworkInputs) networkInputMetrics (decoderRequest lib)
      lib.unmarshalNetworkInputStatus decoderWrites ctx registry doReq id reg
      networkInputMetrics_nodup decoderWrites_fits hfresh
    refine ⟨r, by rw [decoders_eq]; exact hr, ?_⟩
    intro decoder hmem request res e hreq hdo1 hdec1 w hw
    exact listingStage_entries (fun d : models.NetworkInput => d.Index) decoderWrites_head
      networkInputMetrics_nodup hr hurl hdo hdec hdistinct hmem hreq hdo1 hdec1 hw
  · intro res0 listing hfresh hurl hdo hdec hdistinct
    obtain ⟨r, hr⟩ := listingStage_ok lib "/video_outputs" lib.unmarshalVideoOutputsResponse
      (fun l => l.VideoOutputs) videoMetrics (outputRequest lib)
      lib.unmarshalVideoOutputStatus outputWrites ctx registry doReq id reg
      videoMetrics_nodup outputWrites_fits hfresh
    refine ⟨r, by rw [outputs_eq]; exact hr, ?_⟩
    intro output hmem request res e hreq hdo1 hdec1 w hw
    exact listingStage_entries (fun o : models.VideoOutput => o.Index) outputWrites_head
      videoMetrics_nodup hr hurl hdo hdec hdistinct hmem hreq hdo1 hdec1 hw
  · intro res0 listing hfresh hurl hdo hdec hdistinct
    obtain ⟨r, hr⟩ := listingStage_ok lib "/encoders" lib.unmarshalEncodersResponse
      (fun l => l.Encoders) encoderMetrics (encoderRequest lib)
      lib.unmarshalEncoderStatus encoderWrites ctx registry doReq id reg
      encoderMetrics_nodup encoderWrites_fits hfresh
    refine ⟨r, by rw [encoders_eq]; exact hr, ?_⟩
    intro encoder hmem request res e hreq hdo1 hdec1 w hw
    exact listingStage_entries (fun c : models.Encoder => c.Index) encoderWrites_head
      encoderMetrics_nodup hr hurl hdo hdec hdistinct hmem hreq hdo1 hdec1 hw

/-- C16, at a concrete unit: the status of input 1 fails, the packet-loss entry of input 2
is in the registry `decoders` returns. -/
theorem item_failure_isolated_witness :
    (flakyUnit ⟨Background, "GET",
        url ++ unitEndpoint ++ "D01" ++ "/network_inputs/1/status", none⟩).2 =
      some (.errorsNew "request failed") ∧
    ∃ r, decoders studioLib Background serialRegisterer flakyUnit "D01" NewRegistry = .ok r ∧
      ∃ v, r.registry.value? NetworkInputPacketLoss ["2", "studio"] = some v ∧
        (⟨NetworkInputPacketLoss, ["2", "studio"], v⟩ : Write) ∈
          decoderWrites { Index := 2 } studioStatus := by
  refine ⟨rfl, ?_⟩
  obtain ⟨r, hr, h⟩ := (item_failure_isolated studioLib Background serialRegisterer flakyUnit
    "D01" NewRegistry).1 (some inputsBody) twoInputs
    (fun _ hx => absurd hx (List.not_mem_nil _)) rfl rfl rfl (by decide)
  exact ⟨r, hr, h { Index := 2 } (by decide) _ (some studioBody) studioStatus rfl rfl rfl
    ⟨NetworkInputPacketLoss, ["2", "studio"], 0⟩ (by decide)⟩

/-- C18. For a decoded status of a network input and the program at position `k` of its
array of programs: every write `decoders` makes for that program is among the writes of the
input and carries the decimal string of `k` under the label `program_number`; the write for
the audio track at position `j` of the program carries the decimal string of `j` under the
label `audio_index` and that of `k` under `program_number`; and the writes of the program
are the same whatever its `Number` and `ID` fields are. -/
theorem program_and_audio_labels (decoder : models.NetworkInput)
    (e : models.NetworkInputStatus) (k : Nat) (prog : models.Program)
    (hk : e.NetworkSource.Programs[k]? = some prog) :
    (∀ w ∈ decoderProgramWrites (Itoa decoder.Index) e k prog,
      w ∈ decoderWrites decoder e ∧
        w.label networkInputMetrics LabelProgramIndex = some (toString k)) ∧
    (∀ j audio, prog.Audio[j]? = some audio →
      decoderAudioWrite (Itoa decoder.Index) e (toString k) j audio ∈
          decoderProgramWrites (Itoa decoder.Index) e k prog ∧
        (decoderAudioWrite (Itoa decoder.Index) e (toString k) j audio).label
          networkInputMetrics LevelAudioIndex = some (toString j)) ∧
    (∀ number pid,
      decoderProgramWrites (Itoa decoder.Index) e k { prog with Number := number, ID := pid } =
        decoderProgramWrites (Itoa decoder.Index) e k prog) := by
  refine ⟨?_, ?_, fun _ _ => rfl⟩
  · intro w hw
    constructor
    · unfold decoderWrites
      apply List.mem_append_right
      rw [List.mem_flatMap]
      exact ⟨(k, prog), (List.mk_mem_enum_iff_getElem? ).2 hk, hw⟩
    · simp only [decoderProgramWrites, List.mem_append, List.mem_cons, List.mem_map,
        List.mem_singleton, List.not_mem_nil, or_false] at hw
      rcases hw with ((h | h) | ⟨a, -, h⟩) | h | h | h | h <;> subst h <;> rfl
  · intro j audio hj
    constructor
    · unfold decoderProgramWrites
      apply List.mem_append_left
      apply List.mem_append_right
      rw [List.mem_map]
      exact ⟨(j, audio), (List.mk_mem_enum_iff_getElem? ).2 hj, rfl⟩
    · rfl

/-- C18, at the input "studio": its one program has number 7 and id "p7", and sits at
position 0. -/
theorem program_and_audio_labels_witness :
    studioStatus.NetworkSource.Programs[0]? = some studioProgram ∧
      (decoderAudioWrite "2" studioStatus "0" 0 {}).label networkInputMetrics
        LevelAudioIndex = some "0" ∧
      (∀ w ∈ decoderProgramWrites "2" studioStatus 0 studioProgram,
        w.label networkInputMetrics LabelProgramIndex = some "0") :=
  ⟨rfl,
    ((program_and_audio_labels { Index := 2 } studioStatus 0 studioProgram rfl).2.1 0 {}
      rfl).2,
    fun w hw =>
      ((program_and_audio_labels { Index := 2 } studioStatus 0 studioProgram rfl).1 w hw).2⟩


/-! ## The footprint of the stages in the registry -/

theorem publishOne_key (m2 : GaugeMap) (hk2 : KeyedByName m2) (x : Registered) :
    (publishOne m2 x).key = x.key := by
  unfold Registered.key
  rw [publishOne_name m2 hk2 x]
  have hl : (publishOne m2 x).constLabels = x.constLabels := by
    unfold publishOne
    cases x.collector with
    | gauge o => rfl
    | gaugeVec v =>
      simp only []
      cases find m2 v.opts.Name <;> rfl
  rw [hl]

theorem publish_keys (r : Registry) (m2 : GaugeMap) (hk2 : KeyedByName m2) :
    (r.publish m2).keys = r.keys := by
  unfold Registry.publish Registry.keys
  rw [List.map_map]
  apply List.map_congr_left
  intro x _
  exact publishOne_key m2 hk2 x

/-- After the registration loop of a stage and its gauge writes, the registry returned has
the keys it had before, followed by those of the table. -/
theorem stage_keys {registry : Registerer} {reg reg1 : Registry} {table : List metrics.Gauge}
    {m2 : GaugeMap} (hnd : (table.map (fun g => g.Name)).Nodup)
    (hreg : registerAll registry reg (metrics.NewGaugeMap table) =
      .ok (reg1, metrics.NewGaugeMap table))
    (hk2 : KeyedByName m2) :
    (reg1.publish m2).keys = reg.keys ++ tableKeys registry table := by
  obtain ⟨-, -, hvn, -⟩ := newGaugeMap_facts table hnd
  obtain ⟨hb, -, -, -⟩ := registerAll_inv hreg
  rw [publish_keys reg1 m2 hk2]
  unfold Registry.keys tableKeys
  rw [hb, List.map_append, List.map_map]
  congr 1
  have h1 : (Registered.key ∘ fun kv : String × GaugeVec =>
      (⟨registry.labels, .gaugeVec kv.2⟩ : Registered)) =
      (fun n => (registry.labels, n)) ∘ (fun kv : String × GaugeVec => kv.2.opts.Name) := rfl
  have h2 : (fun g : metrics.Gauge => (registry.labels, g.Name)) =
      (fun n => (registry.labels, n)) ∘ (fun g : metrics.Gauge => g.Name) := rfl
  rw [h1, h2, ← List.map_map, ← List.map_map, hvn]

theorem systemWrites_fits (info : models.SystemResponse) (success : Float64) :
    ∀ w ∈ systemWrites info ++ [systemInfoWrite info success], w.fits sysMetrics = true := by
  intro w hw
  simp only [systemWrites, List.mem_append, List.mem_cons, List.mem_flatMap,
    List.mem_singleton, List.not_mem_nil, or_false] at hw
  rcases hw with ((h | h | h) | ⟨p, -, h | h | h | h⟩) | h <;> subst h <;> rfl

theorem interfaceWrites_fits (nwint : models.InterfaceStatus) :
    ∀ w ∈ interfaceWrites nwint, w.fits interfaceMetrics = true := by
  intro w hw
  simp only [interfaceWrites, List.mem_cons, List.mem_singleton, List.not_mem_nil,
    or_false] at hw
  rcases hw with h | h | h | h | h <;> subst h <;> rfl

/-- The gauge writes `ws` run through on the fresh map of a table they fit, and leave a map
with the same names, each collection under its own name. -/
theorem applyWrites_table_ok (table : List metrics.Gauge)
    (hnd : (table.map (fun g => g.Name)).Nodup) (ws : List Write)
    (hfits : ∀ w ∈ ws, w.fits table = true) :
    ∃ m2, applyWrites (metrics.NewGaugeMap table) ws = .ok m2 ∧ KeyedByName m2 := by
  obtain ⟨m2, hm2, -⟩ := applyWrites_ok (m := metrics.NewGaugeMap table)
    (fun w hw => newGaugeMap_arity table hnd w (hfits w hw))
  exact ⟨m2, hm2, applyWrites_keyed hm2 (newGaugeMap_facts table hnd).1⟩

theorem system_footprint (lib : Stdlib) : Footprint sysMetrics (system lib) := by
  intro ctx registry doReq id reg hfresh
  cases hurl : lib.urlParse (url ++ unitEndpoint ++ id ++ "/system/status") with
  | some e =>
    refine ⟨⟨reg, [], some (.external e)⟩, ?_, Or.inl rfl⟩
    unfold system NewRequestWithContext
    simp only [hurl]
  | none =>
    obtain ⟨reg1, hreg⟩ := registerAll_table_ok registry reg sysMetrics sysMetrics_nodup hfresh
    obtain ⟨h1, h2⟩ := @system_eq _ ctx _ doReq _ _ _ hurl hreg
    rcases hdo : doReq ⟨ctx, "GET", url ++ unitEndpoint ++ id ++ "/system/status", none⟩
      with ⟨res, oerr⟩
    cases oerr with
    | some err =>
      have hrun := h1 res err hdo
      obtain ⟨m2, hm2, hk2⟩ := applyWrites_table_ok sysMetrics sysMetrics_nodup
        [systemInfoWrite {} 0] (fun w hw => systemWrites_fits {} 0 w (List.mem_append_right _ hw))
      simp only [hm2] at hrun
      exact ⟨_, hrun, Or.inr (stage_keys sysMetrics_nodup hreg hk2)⟩
    | none =>
      rcases hdec : lib.unmarshalSystemResponse (res.getD "") with ⟨info, oe⟩
      have hrun := h2 res info oe hdo hdec
      cases oe with
      | some e =>
        obtain ⟨m2, hm2, hk2⟩ := applyWrites_table_ok sysMetrics sysMetrics_nodup
          ([] ++ [systemInfoWrite info 0])
          (fun w hw => systemWrites_fits info 0 w (List.mem_append_right _ hw))
        simp only [hm2] at hrun
        exact ⟨_, hrun, Or.inr (stage_keys sysMetrics_nodup hreg hk2)⟩
      | none =>
        obtain ⟨m2, hm2, hk2⟩ := applyWrites_table_ok sysMetrics sysMetrics_nodup
          (systemWrites info ++ [systemInfoWrite info 1]) (systemWrites_fits info 1)
        simp only [hm2] at hrun
        exact ⟨_, hrun, Or.inr (stage_keys sysMetrics_nodup hreg hk2)⟩

theorem interfaces_footprint (lib : Stdlib) : Footprint interfaceMetrics (interfaces lib) := by
  intro ctx registry doReq id reg hfresh
  have hk := (newGaugeMap_facts interfaceMetrics interfaceMetrics_nodup).1
  unfold interfaces NewRequestWithContext
  cases hurl : lib.urlParse (url ++ unitEndpoint ++ id ++ "/network_interfaces/status") with
  | some e => exact ⟨_, rfl, Or.inl rfl⟩
  | none =>
    obtain ⟨reg1, hreg⟩ := registerAll_table_ok registry reg interfaceMetrics
      interfaceMetrics_nodup hfresh
    simp only [hreg]
    rcases hdo : doReq
        ⟨ctx, "GET", url ++ unitEndpoint ++ id ++ "/network_interfaces/status", none⟩
      with ⟨res, oerr⟩
    cases oerr with
    | some err => exact ⟨_, rfl, Or.inr (stage_keys interfaceMetrics_nodup hreg hk)⟩
    | none =>
      simp only []
      rcases hdec : lib.unmarshalStatusResponse (res.getD "") with ⟨info, oe⟩
      cases oe with
      | some e => exact ⟨_, rfl, Or.inr (stage_keys interfaceMetrics_nodup hreg hk)⟩
      | none =>
        simp only []
        obtain ⟨m2, hm2, hk2⟩ := applyWrites_table_ok interfaceMetrics interfaceMetrics_nodup
          (info.Status.flatMap interfaceWrites) (by
            intro w hw
            obtain ⟨n, -, hn⟩ := List.mem_flatMap.1 hw
            exact interfaceWrites_fits n w hn)
        simp only [hm2]
        exact ⟨_, rfl, Or.inr (stage_keys interfaceMetrics_nodup hreg hk2)⟩

theorem listingStage_footprint {Listing Item Status : Type} (lib : Stdlib) (path : String)
    (unmarshalListing : String → Listing × Option String) (items : Listing → List Item)
    (table : List metrics.Gauge)
    (newRequest : Context → String → Item → Except GoError Request)
    (unmarshalStatus : String → Status × Option String)
    (writes : Item → Status → List Write)
    (hnd : (table.map (fun g => g.Name)).Nodup)
    (hfits : ∀ item e, ∀ w ∈ writes item e, w.fits table = true) :
    Footprint table (listingStage lib path unmarshalListing items table newRequest
      unmarshalStatus writes) := by
  intro ctx registry doReq id reg hfresh
  unfold listingStage
  cases h1 : NewRequestWithContext lib ctx "GET" (url ++ unitEndpoint ++ id ++ path) with
  | error err => exact ⟨_, rfl, Or.inl rfl⟩
  | ok request =>
    simp only []
    rcases h2 : doReq request with ⟨res, oerr⟩
    cases oerr with
    | some err => exact ⟨_, rfl, Or.inl rfl⟩
    | none =>
      simp only []
      rcases h3 : unmarshalListing (res.getD "") with ⟨l, oe⟩
      cases oe with
      | some e => exact ⟨_, rfl, Or.inl rfl⟩
      | none =>
        simp only []
        obtain ⟨reg1, hreg⟩ := registerAll_table_ok registry reg table hnd hfresh
        simp only [hreg]
        obtain ⟨st2, hst2⟩ := statusLoop_ok (newRequest ctx id) doReq unmarshalStatus writes
          (items l) { mtrcs := metrics.NewGaugeMap table, requests := [request], err := none }
          (fun item e w hw => newGaugeMap_arity table hnd w (hfits item e w hw))
        simp only [hst2]
        refine ⟨_, rfl, Or.inr ?_⟩
        exact stage_keys hnd hreg
          ((statusLoop_keys (newRequest ctx id) doReq unmarshalStatus writes hst2).2
            (newGaugeMap_facts table hnd).1)

/-- Each of the five stages keeps to the table of its file. -/
theorem stages_footprint (lib : Stdlib) : List.Forall₂ Footprint stageTables (stages lib) := by
  refine .cons (system_footprint lib) (.cons (interfaces_footprint lib) (.cons ?_ (.cons ?_
    (.cons ?_ .nil))))
  · rw [decoders_eq]
    exact listingStage_footprint lib _ _ _ _ _ _ _ networkInputMetrics_nodup decoderWrites_fits
  · rw [outputs_eq]
    exact listingStage_footprint lib _ _ _ _ _ _ _ videoMetrics_nodup outputWrites_fits
  · rw [encoders_eq]
    exact listingStage_footprint lib _ _ _ _ _ _ _ encoderMetrics_nodup encoderWrites_fits


/-! ## The pipeline of the five stages -/

/-- The metric names of the two scalar gauges and of the five tables are pairwise
distinct. -/
theorem metricNames_nodup :
    ([successGaugeOpts.Name, durationGaugeOpts.Name] ++
      stageTables.flatten.map (fun g => g.Name)).Nodup := by
  decide

/-- The loop over stages that keep to their tables runs to its end, or to an offline error,
when the names of the tables are pairwise distinct and none is in the registry; the registry
it leaves holds what it held, and collections of the tables registered through the
registerer. -/
theorem gatherLoop_footprint (ctx : Context) (registry : Registerer)
    (doReq : Request → Option String × Option GoError) (id : String)
    {tables : List (List metrics.Gauge)} {ms : List metricGatherer}
    (hfp : List.Forall₂ Footprint tables ms) (i : Nat) (st : LoopState)
    (hnd : (st.registry.keys.map Prod.snd ++
      tables.flatten.map (fun g => g.Name)).Nodup) :
    ∃ st2, gatherLoop ctx registry doReq id ms i st = .ok st2 ∧
      (∀ k ∈ st.registry.keys, k ∈ st2.registry.keys) ∧
      ∀ k ∈ st2.registry.keys, k ∈ st.registry.keys ∨
        (k.1 = registry.labels ∧ k.2 ∈ tables.flatten.map (fun g => g.Name)) := by
  induction hfp generalizing i st with
  | nil =>
    exact ⟨st, gatherLoop_nil ctx registry doReq id i st, fun k hk => hk, fun k hk => Or.inl hk⟩
  | @cons T m Ts ms hT _ ih =>
    simp only [List.flatten_cons, List.map_append] at hnd ⊢
    have hfresh : ∀ x ∈ st.registry.collectors,
        x.collector.Name ∉ T.map (fun g => g.Name) := by
      intro x hx hmem
      have hdis := (List.nodup_append.1 hnd).2.2
      exact hdis (List.mem_map.2 ⟨x.key, List.mem_map.2 ⟨x, hx, rfl⟩, rfl⟩)
        (List.mem_append_left _ hmem)
    obtain ⟨r, hr, hkeys⟩ := hT ctx registry doReq id st.registry hfresh
    have hsub : ∀ k ∈ r.registry.keys, k ∈ st.registry.keys ∨
        (k.1 = registry.labels ∧ k.2 ∈ T.map (fun g => g.Name)) := by
      intro k hk
      rcases hkeys with h | h
      · rw [h] at hk
        exact Or.inl hk
      · rw [h] at hk
        rcases List.mem_append.1 hk with h1 | h1
        · exact Or.inl h1
        · obtain ⟨g, hg, rfl⟩ := List.mem_map.1 h1
          exact Or.inr ⟨rfl, List.mem_map.2 ⟨g, hg, rfl⟩⟩
    have hsup : ∀ k ∈ st.registry.keys, k ∈ r.registry.keys := by
      intro k hk
      rcases hkeys with h | h
      · rw [h]
        exact hk
      · rw [h]
        exact List.mem_append_left _ hk
    rw [gatherLoop_cons, hr]
    simp only []
    by_cases hab : r.aborts = true
    · simp only [hab, if_true]
      refine ⟨_, rfl, hsup, ?_⟩
      intro k hk
      rcases hsub k hk with h | ⟨h1, h2⟩
      · exact Or.inl h
      · exact Or.inr ⟨h1, List.mem_append_left _ h2⟩
    · simp only [hab, Bool.false_eq_true, if_false]
      have hnd2 : ((st.next i r).registry.keys.map Prod.snd ++
          Ts.flatten.map (fun g => g.Name)).Nodup := by
        have hreg : (st.next i r).registry = r.registry := rfl
        rw [hreg]
        rcases hkeys with h | h
        · rw [h]
          rw [← List.append_assoc] at hnd
          exact hnd.sublist
            (List.Sublist.append (List.sublist_append_left _ _) (List.Sublist.refl _))
        · rw [h, List.map_append]
          have ht : (tableKeys registry T).map Prod.snd = T.map (fun g => g.Name) := by
            unfold tableKeys
            rw [List.map_map]
            rfl
          rw [ht, List.append_assoc]
          exact hnd
      obtain ⟨st2, hst2, hk1, hk2⟩ := ih (i + 1) (st.next i r) hnd2
      refine ⟨st2, hst2, fun k hk => hk1 k (hsup k hk), ?_⟩
      intro k hk
      rcases hk2 k hk with h | ⟨h1, h2⟩
      · rcases hsub k h with h3 | ⟨h3, h4⟩
        · exact Or.inl h3
        · exact Or.inr ⟨h3, List.mem_append_left _ h4⟩
      · exact Or.inr ⟨h1, List.mem_append_right _ h2⟩

/-- The method `gatherMetrics` returns on the five stages, whatever the unit answers and
however the bodies decode, and every collector of the registry it returns was registered
under the serial label with a name of the pipeline. -/
theorem pipeline_runs (d : Direkt) (lib : Stdlib) (ctx : Context) (id : String)
    (duration : Float64) :
    ∃ st, gatherLoop ctx (WrapRegistererWith [("serial", id)]) d.doRequest id (stages lib) 0
        (initialState id) = .ok st ∧
      d.gatherMetrics ctx (stages lib) id duration = .ok (finish duration st) ∧
      (∀ k ∈ (initialState id).registry.keys, k ∈ st.registry.keys) ∧
      ∀ k ∈ st.registry.keys, k.1 = [("serial", id)] ∧
        k.2 ∈ [successGaugeOpts.Name, durationGaugeOpts.Name] ++
          stageTables.flatten.map (fun g => g.Name) := by
  obtain ⟨st, hst, hk0, hk⟩ := gatherLoop_footprint ctx (WrapRegistererWith [("serial", id)])
    d.doRequest id (stages_footprint lib) 0 (initialState id) metricNames_nodup
  refine ⟨st, hst, ?_, hk0, ?_⟩
  · rw [gatherMetrics_eq, hst]
  · intro k hk1
    rcases hk k hk1 with h | ⟨h1, h2⟩
    · have h0 : (initialState id).registry.keys =
          [([("serial", id)], successGaugeOpts.Name),
            ([("serial", id)], durationGaugeOpts.Name)] := rfl
      rw [h0] at h
      simp only [List.mem_cons, List.mem_singleton, List.not_mem_nil, or_false] at h
      rcases h with h | h <;> subst h <;> simp
    · exact ⟨h1, List.mem_append_right _ h2⟩


/-- Every call the loop records is a run of the stage at its position, on the registry the
call records as its input. -/
theorem gatherLoop_runs (ctx : Context) (registry : Registerer)
    (doReq : Request → Option String × Option GoError) (id : String)
    {ms : List metricGatherer} {i : Nat} {st st2 : LoopState} {news : List Call}
    (h : gatherLoop ctx registry doReq id ms i st = .ok st2)
    (hc : st2.calls = st.calls ++ news) :
    ∀ (j : Nat) (c : Call), news[j]? = some c →
      ∃ (m : metricGatherer) (r : StageReturn), ms[j]? = some m ∧
        m ctx registry doReq id c.input = .ok r ∧
        c.output = r.registry ∧ c.err = r.err := by
  induction ms generalizing i st news with
  | nil =>
    rw [gatherLoop_nil] at h
    cases h
    have : news = [] := by simpa using hc
    simp [this]
  | cons m rest ih =>
    obtain ⟨r, hm, h1 | h2⟩ := gatherLoop_cons_inv ctx registry doReq id h hc
    · obtain ⟨-, -, hn⟩ := h1
      intro j c hj
      subst hn
      cases j with
      | zero =>
        simp at hj
        subst hj
        exact ⟨m, r, by simp, hm, rfl, rfl⟩
      | succ j => simp at hj
    · obtain ⟨-, hl, news1, hn, hc1⟩ := h2
      intro j c hj
      subst hn
      cases j with
      | zero =>
        simp at hj
        subst hj
        exact ⟨m, r, by simp, hm, rfl, rfl⟩
      | succ j =>
        simp at hj
        simpa using ih hl hc1 j c hj

/-- The loop only ever sets the success gauge to 0. -/
theorem gatherLoop_successGauge (ctx : Context) (registry : Registerer)
    (doReq : Request → Option String × Option GoError) (id : String)
    {ms : List metricGatherer} {i : Nat} {st st2 : LoopState}
    (h : gatherLoop ctx registry doReq id ms i st = .ok st2) (h0 : st.successGauge = 0) :
    st2.successGauge = 0 := by
  induction ms generalizing i st with
  | nil =>
    rw [gatherLoop_nil] at h
    cases h
    exact h0
  | cons m rest ih =>
    rw [gatherLoop_cons] at h
    cases hm : m ctx registry doReq id st.registry with
    | error p => simp [hm] at h
    | ok r =>
      simp only [hm] at h
      have hn : (st.next i r).successGauge = 0 := by
        unfold LoopState.next
        simp only []
        split
        · exact h0
        · rfl
      by_cases hab : r.aborts = true
      · simp only [hab, if_true, Except.ok.injEq] at h
        subst h
        exact hn
      · simp only [hab, Bool.false_eq_true, if_false] at h
        exact ih h hn

/-- Every sample of a collector carries the constant labels of the collector first. -/
theorem collect_labels (gauges : String → Float64) (x : Registered) (s : Sample)
    (hs : s ∈ x.collect gauges) : ∃ rest, s.labels = x.constLabels ++ rest := by
  unfold Registered.collect at hs
  cases hc : x.collector with
  | gauge o =>
    simp only [hc, List.mem_singleton] at hs
    subst hs
    exact ⟨[], by simp⟩
  | gaugeVec v =>
    simp only [hc, List.mem_map] at hs
    obtain ⟨e, -, rfl⟩ := hs
    exact ⟨_, rfl⟩


/-! ## The orchestrator on the five stages -/

/-- C21. The method `gatherMetrics` returns on the five stages, and in the registry it
returns every collector, the two scalar gauges `request_success` and
`request_duration_seconds` (both present) and every collection a stage registered, has the
constant labels `serial = id` and no other; every gathered sample carries that label
first. -/
theorem serial_label_on_every_metric (d : Direkt) (lib : Stdlib) (ctx : Context)
    (id : String) (duration : Float64) :
    ∃ g, d.gatherMetrics ctx (stages lib) id duration = .ok g ∧
      (∀ x ∈ g.baseRegistry.collectors, x.constLabels = [("serial", id)]) ∧
      ([("serial", id)], "request_success") ∈ g.baseRegistry.keys ∧
      ([("serial", id)], "request_duration_seconds") ∈ g.baseRegistry.keys ∧
      ∀ s ∈ g.baseRegistry.Gather g.gauges,
        s.labels.head? = some ("serial", id) ∧ ("serial", id) ∈ s.labels := by
  obtain ⟨st, -, hg, hk0, hk⟩ := pipeline_runs d lib ctx id duration
  have hlabels : ∀ x ∈ st.registry.collectors, x.constLabels = [("serial", id)] :=
    fun x hx => (hk x.key (List.mem_map.2 ⟨x, hx, rfl⟩)).1
  refine ⟨finish duration st, hg, hlabels, ?_, ?_, ?_⟩
  · exact hk0 _ (List.mem_cons_self _ _)
  · exact hk0 _ (List.mem_cons_of_mem _ (List.mem_cons_self _ _))
  · intro s hs
    unfold Registry.Gather at hs
    obtain ⟨l, hl, hsl⟩ := List.mem_flatten.1 hs
    obtain ⟨x, hx, rfl⟩ := List.mem_map.1 hl
    obtain ⟨rest, hrest⟩ := collect_labels _ x s hsl
    rw [hrest, hlabels x hx]
    simp

/-- C26. A run of `gatherMetrics` that returns leaves `request_success` at 1 exactly when
the error it returns is nil and at 0 exactly when it is not; the gauge holds no other
value. -/
theorem request_success_tracks_error (d : Direkt) (ctx : Context)
    (metrics : List metricGatherer) (id : String) (duration : Float64) (g : GatherResult)
    (hrun : d.gatherMetrics ctx metrics id duration = .ok g) :
    (g.successGauge = 1 ↔ g.retErr = none) ∧ (g.successGauge = 0 ↔ g.retErr ≠ none) ∧
      (g.successGauge = 0 ∨ g.successGauge = 1) ∧
      g.gauges "request_success" = g.successGauge := by
  obtain ⟨st, hloop, hg, -⟩ := gatherMetrics_inv hrun
  have h0 := gatherLoop_successGauge ctx _ d.doRequest id hloop rfl
  subst hg
  unfold finish
  simp only []
  refine ⟨?_, ?_, ?_, rfl⟩
  · by_cases he : st.retErr = none
    · simp [he]
    · simp [he, h0]
  · by_cases he : st.retErr = none
    · simp [he]
    · simp [he, h0]
  · by_cases he : st.retErr = none
    · simp [he]
    · simp [he, h0]

/-- C26, at a run of two failing stages. -/
theorem request_success_tracks_error_witness :
    probe.gatherMetrics Background twoFailing "D01" 0 =
        .ok (returned (probe.gatherMetrics Background twoFailing "D01" 0)) ∧
      (returned (probe.gatherMetrics Background twoFailing "D01" 0)).successGauge = 0 ∧
      (returned (probe.gatherMetrics Background twoFailing "D01" 0)).retErr ≠ none :=
  ⟨rfl, rfl,
    (request_success_tracks_error probe Background twoFailing "D01" 0 _ rfl).2.1.1 rfl⟩

/-- C29. The metric names of the five tables of gauge definitions and of the two scalar
gauges are pairwise distinct, and `gatherMetrics` on the five stages returns, whatever the
unit answers and however the bodies decode: no registration panics. -/
theorem metric_names_pairwise_distinct (d : Direkt) (lib : Stdlib) (ctx : Context)
    (id : String) (duration : Float64) :
    ((sysMetrics ++ interfaceMetrics ++ networkInputMetrics ++ videoMetrics ++
        encoderMetrics).map (fun g => g.Name) ++
      ["request_success", "request_duration_seconds"]).Nodup ∧
    ∃ g, d.gatherMetrics ctx (stages lib) id duration = .ok g := by
  refine ⟨by decide, ?_⟩
  obtain ⟨st, -, hg, -, -⟩ := pipeline_runs d lib ctx id duration
  exact ⟨finish duration st, hg⟩


/-! ## Contexts and timeouts -/

set_option maxRecDepth 100000 in
/-- C23, the code at the failing input. In a probe of a unit that lists one encoder, every
request carries the 10 second context of the probe but the status request of the encoder,
which carries no deadline: `encoders` builds it with `http.NewRequest`, where `decoders` and
`outputs` build theirs with the context of the stage. -/
theorem encoder_status_request_without_context :
    (mediaUnit.Handle mediaLib (probeRequest ["D01"]) 0).map
        (fun h => h.requests.map (fun q => (q.url, q.ctx.timeout))) =
      .ok [("https://iss.intinor.se/api/v1/units/D01/system/status", some (10 * Second)),
        ("https://iss.intinor.se/api/v1/units/D01/network_interfaces/status",
          some (10 * Second)),
        ("https://iss.intinor.se/api/v1/units/D01/network_inputs", some (10 * Second)),
        ("https://iss.intinor.se/api/v1/units/D01/video_outputs", some (10 * Second)),
        ("https://iss.intinor.se/api/v1/units/D01/video_outputs/0/status",
          some (10 * Second)),
        ("https://iss.intinor.se/api/v1/units/D01/encoders", some (10 * Second)),
        ("https://iss.intinor.se/api/v1/units/D01/encoders/0/status", none)] ∧
    (∀ (lib : Stdlib) (ctx : Context) (id : String) (encoder : models.Encoder)
        (request : Request),
      encoderRequest lib ctx id encoder = .ok request → request.ctx = Background) ∧
    (∀ (lib : Stdlib) (ctx : Context) (id : String) (decoder : models.NetworkInput)
        (request : Request),
      decoderRequest lib ctx id decoder = .ok request → request.ctx = ctx) ∧
    (∀ (lib : Stdlib) (ctx : Context) (id : String) (output : models.VideoOutput)
        (request : Request),
      outputRequest lib ctx id output = .ok request → request.ctx = ctx) := by
  refine ⟨rfl, ?_, ?_, ?_⟩
  · intro lib ctx id encoder request h
    unfold encoderRequest NewRequest NewRequestWithContext at h
    split at h
    · cases h
    · cases h
      rfl
  · intro lib ctx id decoder request h
    unfold decoderRequest NewRequestWithContext at h
    split at h
    · cases h
    · cases h
      rfl
  · intro lib ctx id output request h
    unfold outputRequest NewRequestWithContext at h
    split at h
    · cases h
    · cases h
      rfl

/-- C24, refuted as stated: the timeout of the client that `New` builds is 15 seconds, not
smaller than the 10 seconds of the context that `Handle` hands to the stages. -/
theorem client_timeout_counterexample :
    probe.client.Timeout = 15 * Second ∧
      (probe.HandleWith [stageFetching "/system/status"] (probeRequest ["D01"]) 0).map
          (fun h => h.requests.map (fun q => q.ctx.timeout)) = .ok [some (10 * Second)] ∧
      ¬ probe.client.Timeout < 10 * Second :=
  ⟨rfl, rfl, by decide⟩

/-- C24, amended. The timeout of every client that `New` builds is 15 seconds, the context
that `Handle` hands to its stages has a timeout of 10 seconds, and the second is strictly
smaller: on a call bound to the context it is the context that fires first. -/
theorem context_timeout_tighter (username password : String)
    (network : Request → Option Response × Option String) (resource : String)
    (duration : Float64) :
    (New username password network).client.Timeout = 15 * Second ∧
      (WithTimeout Background (10 * Second)).timeout = some (10 * Second) ∧
      ((New username password network).HandleWith [stageFetching resource]
          (probeRequest ["D01"]) duration).map
          (fun h => h.requests.map (fun q => q.ctx.timeout)) = .ok [some (10 * Second)] ∧
      10 * Second < (New username password network).client.Timeout := by
  refine ⟨rfl, rfl, ?_, show 10 * Second < 15 * Second by decide⟩
  rw [HandleWith_valid (New username password network) [stageFetching resource]
    (probeRequest ["D01"]) duration "D01" rfl, gatherMetrics_eq]
  have hloop : gatherLoop (WithTimeout Background (10 * Second))
      (WrapRegistererWith [("serial", "D01")]) (New username password network).doRequest "D01"
      [stageFetching resource] 0 (initialState "D01") =
      .ok ((initialState "D01").next 0
        ⟨(initialState "D01").registry,
          [⟨WithTimeout Background (10 * Second), "GET",
            "https://iss.intinor.se/" ++ "api/v1/units/" ++ "D01" ++ resource, none⟩],
          ((New username password network).doRequest
            ⟨WithTimeout Background (10 * Second), "GET",
              "https://iss.intinor.se/" ++ "api/v1/units/" ++ "D01" ++ resource, none⟩).2⟩) := by
    rw [gatherLoop_cons]
    simp only [stageFetching, gatherLoop_nil]
    split <;> rfl
  rw [hloop]
  simp only []
  cases (finish duration _).retErr <;> rfl


/-! ## The audio entries of `outputs` -/

set_option maxRecDepth 100000 in
/-- C25, the code at the failing input. The source of the output has one audio stream and
the output side has none: `outputs` returns without error and `output_audio_source_available`
has no entry. In general the entries of that metric are one per audio stream of the output
side (`video_out.audio`), labelled from that stream; the audio streams of the source are not
read. -/
theorem outputs_source_audio_counterexample :
    sourceAudioStatus.VideoSource.Audio.length = 1 ∧
    (outputs mediaLib Background serialRegisterer mediaUnit.doRequest "D01" NewRegistry).map
        (fun r => (r.err, (r.registry.vec? OutputAudioSourceAvailable).map
          (fun v => v.entries))) = .ok (none, some []) ∧
    (∀ (output : models.VideoOutput) (e : models.VideoOutputStatus),
      (outputWrites output e).filter (fun w => w.name = OutputAudioSourceAvailable) =
        e.VideoOut.Audio.enum.map (fun a =>
          ⟨OutputAudioSourceAvailable,
            [Itoa output.Index, output.Description, Itoa (Int.ofNat a.1), a.2.Codec.Name,
              Itoa a.2.Format.Channels, Itoa a.2.Format.SampleRate,
              Itoa a.2.Format.BitDepth],
            metrics.BoolToFloat64 e.VideoSource.Available⟩)) ∧
    (∀ (output : models.VideoOutput) (e : models.VideoOutputStatus)
        (audio : List models.AudioStream),
      outputWrites output { e with VideoSource := { e.VideoSource with Audio := audio } } =
        outputWrites output e) := by
  refine ⟨rfl, rfl, ?_, fun _ _ _ => rfl⟩
  intro output e
  unfold outputWrites
  simp only [List.filter_append, List.filter_map]
  have h1 : ∀ l : List (Nat × models.AudioStream),
      l.filter ((fun w : Write => decide (w.name = OutputAudioSourceAvailable)) ∘
        fun a => ⟨OutputAudioActive,
          [Itoa output.Index, output.Description, Itoa (Int.ofNat a.1),
            Itoa a.2.Format.Channels, Itoa a.2.Format.SampleRate, Itoa a.2.Format.BitDepth],
          metrics.BoolToFloat64 e.Active⟩) = [] := by
    intro l
    apply List.filter_eq_nil_iff.2
    intro a _
    show ¬ decide (OutputAudioActive = OutputAudioSourceAvailable) = true
    decide
  have h2 : ∀ l : List (Nat × models.AudioStream),
      l.filter ((fun w : Write => decide (w.name = OutputAudioSourceAvailable)) ∘
        fun a => ⟨OutputAudioSourceAvailable,
          [Itoa output.Index, output.Description, Itoa (Int.ofNat a.1), a.2.Codec.Name,
            Itoa a.2.Format.Channels, Itoa a.2.Format.SampleRate, Itoa a.2.Format.BitDepth],
          metrics.BoolToFloat64 e.VideoSource.Available⟩) = l := by
    intro l
    apply List.filter_eq_self.2
    intro a _
    show decide (OutputAudioSourceAvailable = OutputAudioSourceAvailable) = true
    decide
  rw [h1, h2]
  have h3 : ∀ (ls : List String) (v : Float64),
      [(⟨OutputVideoActive, ls, v⟩ : Write)].filter
        (fun w => decide (w.name = OutputAudioSourceAvailable)) = [] := by
    intro ls v
    apply List.filter_eq_nil_iff.2
    intro w hw
    rw [List.mem_singleton.1 hw]
    show ¬ decide (OutputVideoActive = OutputAudioSourceAvailable) = true
    decide
  have h4 : ∀ (ls : List String) (v : Float64),
      [(⟨OutputVideoSourceAvailable, ls, v⟩ : Write)].filter
        (fun w => decide (w.name = OutputAudioSourceAvailable)) = [] := by
    intro ls v
    apply List.filter_eq_nil_iff.2
    intro w hw
    rw [List.mem_singleton.1 hw]
    show ¬ decide (OutputVideoSourceAvailable = OutputAudioSourceAvailable) = true
    decide
  rw [h3, h4]
  simp


/-! ## Errors of the items of a listing -/

section StatusLoopErr

variable {Item Status : Type} (newRequest : Item → Except GoError Request)
  (doReq : Request → Option String × Option GoError)
  (unmarshal : String → Status × Option String) (writes : Item → Status → List Write)

/-- The variable `err` of the function is nil after the loop when every status request was
built: no fetch or decode of an item assigns it. -/
theorem statusLoop_err {items : List Item} {st st2 : ItemLoop}
    (h : statusLoop newRequest doReq unmarshal writes items st = .ok st2)
    (hreq : ∀ item ∈ items, ∃ request, newRequest item = .ok request)
    (h0 : st.err = none) : st2.err = none := by
  induction items generalizing st with
  | nil =>
    rw [statusLoop] at h
    cases h
    exact h0
  | cons item rest ih =>
    have hrest : ∀ item ∈ rest, ∃ request, newRequest item = .ok request :=
      fun i hi => hreq i (List.mem_cons_of_mem _ hi)
    obtain ⟨request, hrq⟩ := hreq item (List.mem_cons_self _ _)
    rw [statusLoop] at h
    simp only [hrq] at h
    rcases hdo : doReq request with ⟨res, oerr⟩
    rw [hdo] at h
    cases oerr with
    | some err => exact ih h hrest rfl
    | none =>
      simp only [] at h
      rcases hdec : unmarshal (res.getD "") with ⟨e, oe⟩
      rw [hdec] at h
      cases oe with
      | some err => exact ih h hrest rfl
      | none =>
        simp only [] at h
        cases happly : applyWrites st.mtrcs (writes item e) with
        | error p => simp [happly] at h
        | ok m2 =>
          simp only [happly] at h
          exact ih h hrest rfl

end StatusLoopErr

/-- A listing stage that fetched and decoded its listing and built the status request of
every item returns a nil error, on a registry that holds none of its metric names. -/
theorem listingStage_nil_error {Listing Item Status : Type} (lib : Stdlib) (path : String)
    (unmarshalListing : String → Listing × Option String) (items : Listing → List Item)
    (table : List metrics.Gauge)
    (newRequest : Context → String → Item → Except GoError Request)
    (unmarshalStatus : String → Status × Option String)
    (writes : Item → Status → List Write) (ctx : Context) (registry : Registerer)
    (doReq : Request → Option String × Option GoError) (id : String) (reg : Registry)
    {res0 : Option String} {listing : Listing}
    (hnd : (table.map (fun g => g.Name)).Nodup)
    (hfits : ∀ item e, ∀ w ∈ writes item e, w.fits table = true)
    (hfresh : ∀ x ∈ reg.collectors, x.collector.Name ∉ table.map (fun g => g.Name))
    (hurl : lib.urlParse (url ++ unitEndpoint ++ id ++ path) = none)
    (hdo : doReq ⟨ctx, "GET", url ++ unitEndpoint ++ id ++ path, none⟩ = (res0, none))
    (hdec : unmarshalListing (res0.getD "") = (listing, none))
    (hitems : ∀ item ∈ items listing, ∃ request, newRequest ctx id item = .ok request) :
    ∃ r, listingStage lib path unmarshalListing items table newRequest unmarshalStatus
      writes ctx registry doReq id reg = .ok r ∧ r.err = none := by
  obtain ⟨r, hr⟩ := listingStage_ok lib path unmarshalListing items table newRequest
    unmarshalStatus writes ctx registry doReq id reg hnd hfits hfresh
  obtain ⟨reg1, st, -, hloop, hst⟩ := listingStage_inv hnd hr hurl hdo hdec
  refine ⟨r, hr, ?_⟩
  rw [hst]
  exact statusLoop_err (newRequest ctx id) doReq unmarshalStatus writes hloop hitems rfl

/-- After a stage that returned a nil error the loop of `gatherMetrics` goes on with the
stages that follow. -/
theorem gatherLoop_continues (ctx : Context) (registry : Registerer)
    (doReq : Request → Option String × Option GoError) (id : String) (m : metricGatherer)
    (reg : Registry) (r : StageReturn) (hr : m ctx registry doReq id reg = .ok r)
    (herr : r.err = none) (rest : List metricGatherer) (i : Nat) (st : LoopState)
    (hst : st.registry = reg) :
    gatherLoop ctx registry doReq id (m :: rest) i st =
      gatherLoop ctx registry doReq id rest (i + 1) (st.next i r) := by
  rw [gatherLoop_cons, hst, hr]
  have hab : r.aborts = false := by
    unfold StageReturn.aborts
    rw [herr]
  simp only [hab, Bool.false_eq_true, if_false]

/-- C27. In each of `decoders`, `outputs` and `encoders`, on a registry that holds none of
the metric names of the stage: when the listing is fetched and decoded and the status
request of every item is built, the stage returns a nil error, whatever the fetches of the
item statuses return, the offline sentinel included; the loop of `gatherMetrics` then goes
on with the stages that follow. -/
theorem item_errors_not_returned (lib : Stdlib) (ctx : Context) (registry : Registerer)
    (doReq : Request → Option String × Option GoError) (id : String) (reg : Registry) :
    (∀ res0 listing,
      (∀ x ∈ reg.collectors, x.collector.Name ∉ networkInputMetrics.map (fun g => g.Name)) →
      lib.urlParse (url ++ unitEndpoint ++ id ++ "/network_inputs") = none →
      doReq ⟨ctx, "GET", url ++ unitEndpoint ++ id ++ "/network_inputs", none⟩ =
        (res0, none) →
      lib.unmarshalNetworkInputsResponse (res0.getD "") = (listing, none) →
      (∀ decoder ∈ listing.NetworkInputs,
        ∃ request, decoderRequest lib ctx id decoder = .ok request) →
      ∃ r, decoders lib ctx registry doReq id reg = .ok r ∧ r.err = none ∧
        ∀ (rest : List metricGatherer) (i : Nat) (st : LoopState), st.registry = reg →
          gatherLoop ctx registry doReq id (decoders lib :: rest) i st =
            gatherLoop ctx registry doReq id rest (i + 1) (st.next i r)) ∧
    (∀ res0 listing,
      (∀ x ∈ reg.collectors, x.collector.Name ∉ videoMetrics.map (fun g => g.Name)) →
      lib.urlParse (url ++ unitEndpoint ++ id ++ "/video_outputs") = none →
      doReq ⟨ctx, "GET", url ++ unitEndpoint ++ id ++ "/video_outputs", none⟩ =
        (res0, none) →
      lib.unmarshalVideoOutputsResponse (res0.getD "") = (listing, none) →
      (∀ output ∈ listing.VideoOutputs,
        ∃ request, outputRequest lib ctx id output = .ok request) →
      ∃ r, outputs lib ctx registry doReq id reg = .ok r ∧ r.err = none ∧
        ∀ (rest : List metricGatherer) (i : Nat) (st : LoopState), st.registry = reg →
          gatherLoop ctx registry doReq id (outputs lib :: rest) i st =
            gatherLoop ctx registry doReq id rest (i + 1) (st.next i r)) ∧
    (∀ res0 listing,
      (∀ x ∈ reg.collectors, x.collector.Name ∉ encoderMetrics.map (fun g => g.Name)) →
      lib.urlParse (url ++ unitEndpoint ++ id ++ "/encoders") = none →
      doReq ⟨ctx, "GET", url ++ unitEndpoint ++ id ++ "/encoders", none⟩ = (res0, none) →
      lib.unmarshalEncodersResponse (res0.getD "") = (listing, none) →
      (∀ encoder ∈ listing.Encoders,
        ∃ request, encoderRequest lib ctx id encoder = .ok request) →
      ∃ r, encoders lib ctx registry doReq id reg = .ok r ∧ r.err = none ∧
        ∀ (rest : List metricGatherer) (i : Nat) (st : LoopState), st.registry = reg →
          gatherLoop ctx registry doReq id (encoders lib :: rest) i st =
            gatherLoop ctx registry doReq id rest (i + 1) (st.next i r)) := by
  refine ⟨?_, ?_, ?_⟩
  · intro res0 listing hfresh hurl hdo hdec hitems
    obtain ⟨r, hr, herr⟩ := listingStage_nil_error lib "/network_inputs"
      lib.unmarshalNetworkInputsResponse (fun l => l.NetworkInputs) networkInputMetrics
      (decoderRequest lib) lib.unmarshalNetworkInputStatus decoderWrites ctx registry doReq id
      reg networkInputMetrics_nodup decoderWrites_fits hfresh hurl hdo hdec hitems
    rw [← decoders_eq] at hr
    exact ⟨r, hr, herr, gatherLoop_continues ctx registry doReq id _ reg r hr herr⟩
  · intro res0 listing hfresh hurl hdo hdec hitems
    obtain ⟨r, hr, herr⟩ := listingStage_nil_error lib "/video_outputs"
      lib.unmarshalVideoOutputsResponse (fun l => l.VideoOutputs) videoMetrics
      (outputRequest lib) lib.unmarshalVideoOutputStatus outputWrites ctx registry doReq id
      reg videoMetrics_nodup outputWrites_fits hfresh hurl hdo hdec hitems
    rw [← outputs_eq] at hr
    exact ⟨r, hr, herr, gatherLoop_continues ctx registry doReq id _ reg r hr herr⟩
  · intro res0 listing hfresh hurl hdo hdec hitems
    obtain ⟨r, hr, herr⟩ := listingStage_nil_error lib "/encoders"
      lib.unmarshalEncodersResponse (fun l => l.Encoders) encoderMetrics
      (encoderRequest lib) lib.unmarshalEncoderStatus encoderWrites ctx registry doReq id
      reg encoderMetrics_nodup encoderWrites_fits hfresh hurl hdo hdec hitems
    rw [← encoders_eq] at hr
    exact ⟨r, hr, herr, gatherLoop_continues ctx registry doReq id _ reg r hr herr⟩

/-- C27, at a unit that answers the status of both its network inputs with 503. -/
theorem item_errors_not_returned_witness :
    offlineItems.doRequest ⟨Background, "GET",
        url ++ unitEndpoint ++ "D01" ++ "/network_inputs/1/status", none⟩ =
      (none, some .errUnitOffline) ∧
    ∃ r, decoders studioLib Background serialRegisterer offlineItems.doRequest "D01"
        NewRegistry = .ok r ∧ r.err = none := by
  refine ⟨rfl, ?_⟩
  obtain ⟨r, hr, herr, -⟩ := (item_errors_not_returned studioLib Background serialRegisterer
    offlineItems.doRequest "D01" NewRegistry).1 (some inputsBody) twoInputs
    (fun _ hx => absurd hx (List.not_mem_nil _)) rfl rfl rfl (fun _ _ => ⟨_, rfl⟩)
  exact ⟨r, hr, herr⟩

/-! ## Well-formed gauge writes -/

/-- C28. Every gauge write of the five stages fits the table of gauge definitions of its
stage: the table defines the metric name of the write, with as many label names as the write
passes label values. Writes that fit their table run through on the map `NewGaugeMap` makes
from it, and each stage returns on every registry that holds none of its metric names: no
write panics. -/
theorem gauge_writes_well_formed :
    (∀ (info : models.SystemResponse) (success : Float64),
      ∀ w ∈ systemWrites info ++ [systemInfoWrite info success], w.fits sysMetrics = true) ∧
    (∀ (nwint : models.InterfaceStatus),
      ∀ w ∈ interfaceWrites nwint, w.fits interfaceMetrics = true) ∧
    (∀ (decoder : models.NetworkInput) (e : models.NetworkInputStatus),
      ∀ w ∈ decoderWrites decoder e, w.fits networkInputMetrics = true) ∧
    (∀ (output : models.VideoOutput) (e : models.VideoOutputStatus),
      ∀ w ∈ outputWrites output e, w.fits videoMetrics = true) ∧
    (∀ (encoder : models.Encoder) (e : models.EncoderStatus),
      ∀ w ∈ encoderWrites encoder e, w.fits encoderMetrics = true) ∧
    (∀ (table : List metrics.Gauge) (w : Write), w.fits table = true →
      ∃ g ∈ table, g.Name = w.name ∧ g.Labels.length = w.labels.length) ∧
    (∀ (table : List metrics.Gauge) (ws : List Write),
      (table.map (fun g => g.Name)).Nodup → (∀ w ∈ ws, w.fits table = true) →
      ∃ m2, applyWrites (metrics.NewGaugeMap table) ws = .ok m2) ∧
    (∀ lib : Stdlib, List.Forall₂ Footprint stageTables (stages lib)) := by
  refine ⟨systemWrites_fits, interfaceWrites_fits, decoderWrites_fits, outputWrites_fits,
    encoderWrites_fits, ?_, ?_, stages_footprint⟩
  · intro table w hw
    unfold Write.fits at hw
    cases hf : table.find? (fun g => decide (g.Name = w.name)) with
    | none => simp [hf] at hw
    | some g =>
      simp only [hf, beq_iff_eq] at hw
      have hname := List.find?_some hf
      simp only [decide_eq_true_eq] at hname
      exact ⟨g, List.mem_of_find?_eq_some hf, hname, hw⟩
  · intro table ws hnd hfits
    obtain ⟨m2, hm2, -⟩ := applyWrites_table_ok table hnd ws hfits
    exact ⟨m2, hm2⟩

/-! ## Idempotence of `simplifyNetworkInterface` -/

/-- A text without the separator is the one piece of its split. -/
theorem splitChars_of_not_mem (sep : Char) (l : List Char) (h : sep ∉ l) :
    splitChars sep l = [l] := by
  induction l with
  | nil => rfl
  | cons c cs ih =>
    simp only [List.mem_cons, not_or] at h
    unfold splitChars
    have hc : ¬ c = sep := fun hh => h.1 hh.symm
    simp only [hc, if_false, ih h.2]

/-- C30. The function `simplifyNetworkInterface` is idempotent: its result is either the
path itself, of fewer than 7 pieces, or a piece of the path, which holds no "/" and is
returned unchanged. -/
theorem simplifyNetworkInterface_idempotent (p : String) :
    simplifyNetworkInterface (simplifyNetworkInterface p) = simplifyNetworkInterface p ∧
      (simplifyNetworkInterface p = p ∨ '/' ∉ (simplifyNetworkInterface p).data) := by
  by_cases hlt : (Split p '/').length < 7
  · have hp : simplifyNetworkInterface p = p := by
      unfold simplifyNetworkInterface
      simp only [hlt, if_true]
    rw [hp]
    exact ⟨hp, Or.inl rfl⟩
  · have hq : simplifyNetworkInterface p = (Split p '/').getD 6 "" := by
      unfold simplifyNetworkInterface
      simp only [hlt, if_false]
    have h6 : 6 < (Split p '/').length := by omega
    have hmem : (Split p '/').getD 6 "" ∈ Split p '/' := by
      rw [List.getD_eq_getElem?_getD, List.getElem?_eq_getElem h6]
      exact List.getElem_mem h6
    generalize (Split p '/').getD 6 "" = q at hq hmem
    have hno : '/' ∉ q.data := by
      unfold Split at hmem
      obtain ⟨c, hcm, hce⟩ := List.mem_map.1 hmem
      rw [← hce]
      exact not_mem_of_mem_splitChars '/' p.data c hcm
    rw [hq]
    refine ⟨?_, Or.inr hno⟩
    have hone : Split q '/' = [q] := by
      unfold Split
      rw [splitChars_of_not_mem '/' q.data hno]
      rfl
    unfold simplifyNetworkInterface
    rw [hone]
    simp


/-! ## Stages leave in place what they find -/

/-- Publishing the collections of a stage leaves every collector that was in the registry
before the stage registered its own. -/
theorem publish_keeps {registry : Registerer} {reg reg1 : Registry} {m m1 m2 : GaugeMap}
    (hreg : registerAll registry reg m = .ok (reg1, m1)) (hkm : KeyedByName m)
    (hkeys : m2.map Prod.fst = m.map Prod.fst) :
    ∀ x ∈ reg.collectors, x ∈ (reg1.publish m2).collectors := by
  obtain ⟨hb, -, hf, -⟩ := registerAll_inv hreg
  intro x hx
  have hsame : publishOne m2 x = x := by
    unfold publishOne
    cases hc : x.collector with
    | gauge o => rfl
    | gaugeVec v =>
      simp only []
      cases hfind : find m2 v.opts.Name with
      | none => rfl
      | some v2 =>
        exfalso
        have hmem : v.opts.Name ∈ m.map Prod.fst := by
          rw [← hkeys]
          exact (find_isSome_iff_mem_keys m2 v.opts.Name).1 ⟨v2, hfind⟩
        obtain ⟨kv, hkv, hk1⟩ := List.mem_map.1 hmem
        apply hf kv hkv x hx
        rw [hkm kv hkv, hk1, hc]
        rfl
  unfold Registry.publish
  simp only [List.mem_map]
  exact ⟨x, by rw [hb]; exact List.mem_append_left _ hx, hsame⟩

theorem system_keeps (lib : Stdlib) : Keeps (system lib) := by
  intro ctx registry doReq id reg r hrun
  cases hurl : lib.urlParse (url ++ unitEndpoint ++ id ++ "/system/status") with
  | some e =>
    unfold system NewRequestWithContext at hrun
    simp only [hurl, Except.ok.injEq] at hrun
    subst hrun
    exact fun x hx => hx
  | none =>
    obtain ⟨reg1, m2, ws, hreg, happly, hregistry, -, -⟩ := system_inv hurl hrun
    rw [hregistry]
    exact publish_keeps hreg (newGaugeMap_facts sysMetrics sysMetrics_nodup).1
      (applyWrites_keys happly).1

theorem interfaces_keeps (lib : Stdlib) : Keeps (interfaces lib) := by
  intro ctx registry doReq id reg r hrun
  have hk := (newGaugeMap_facts interfaceMetrics interfaceMetrics_nodup).1
  unfold interfaces NewRequestWithContext at hrun
  cases hurl : lib.urlParse (url ++ unitEndpoint ++ id ++ "/network_interfaces/status") with
  | some e =>
    simp only [hurl, Except.ok.injEq] at hrun
    subst hrun
    exact fun x hx => hx
  | none =>
    simp only [hurl] at hrun
    cases hreg : registerAll registry reg (metrics.NewGaugeMap interfaceMetrics) with
    | error p => simp [hreg] at hrun
    | ok res1 =>
      obtain ⟨reg1, mtrcs⟩ := res1
      have hm := registerAll_table_inv interfaceMetrics_nodup hreg
      subst hm
      simp only [hreg] at hrun
      rcases hdo : doReq
          ⟨ctx, "GET", url ++ unitEndpoint ++ id ++ "/network_interfaces/status", none⟩
        with ⟨res, oerr⟩
      rw [hdo] at hrun
      cases oerr with
      | some err =>
        simp only [Except.ok.injEq] at hrun
        subst hrun
        exact publish_keeps hreg hk rfl
      | none =>
        simp only [] at hrun
        rcases hdec : lib.unmarshalStatusResponse (res.getD "") with ⟨info, oe⟩
        rw [hdec] at hrun
        cases oe with
        | some e =>
          simp only [Except.ok.injEq] at hrun
          subst hrun
          exact publish_keeps hreg hk rfl
        | none =>
          simp only [] at hrun
          cases happly : applyWrites (metrics.NewGaugeMap interfaceMetrics)
              (info.Status.flatMap interfaceWrites) with
          | error p => simp [happly] at hrun
          | ok m2 =>
            simp only [happly, Except.ok.injEq] at hrun
            subst hrun
            exact publish_keeps hreg hk (applyWrites_keys happly).1

theorem listingStage_keeps {Listing Item Status : Type} (lib : Stdlib) (path : String)
    (unmarshalListing : String → Listing × Option String) (items : Listing → List Item)
    (table : List metrics.Gauge)
    (newRequest : Context → String → Item → Except GoError Request)
    (unmarshalStatus : String → Status × Option String)
    (writes : Item → Status → List Write)
    (hnd : (table.map (fun g => g.Name)).Nodup) :
    Keeps (listingStage lib path unmarshalListing items table newRequest unmarshalStatus
      writes) := by
  intro ctx registry doReq id reg r hrun
  unfold listingStage at hrun
  cases h1 : NewRequestWithContext lib ctx "GET" (url ++ unitEndpoint ++ id ++ path) with
  | error err =>
    simp only [h1, Except.ok.injEq] at hrun
    subst hrun
    exact fun x hx => hx
  | ok request =>
    simp only [h1] at hrun
    rcases h2 : doReq request with ⟨res, oerr⟩
    rw [h2] at hrun
    cases oerr with
    | some err =>
      simp only [Except.ok.injEq] at hrun
      subst hrun
      exact fun x hx => hx
    | none =>
      simp only [] at hrun
      rcases h3 : unmarshalListing (res.getD "") with ⟨l, oe⟩
      rw [h3] at hrun
      cases oe with
      | some e =>
        simp only [Except.ok.injEq] at hrun
        subst hrun
        exact fun x hx => hx
      | none =>
        simp only [] at hrun
        cases hreg : registerAll registry reg (metrics.NewGaugeMap table) with
        | error p => simp [hreg] at hrun
        | ok res1 =>
          obtain ⟨reg1, mtrcs⟩ := res1
          have hm := registerAll_table_inv hnd hreg
          subst hm
          simp only [hreg] at hrun
          cases hloop : statusLoop (newRequest ctx id) doReq unmarshalStatus writes (items l)
              { mtrcs := metrics.NewGaugeMap table, requests := [request], err := none } with
          | error p => simp [hloop] at hrun
          | ok st =>
            simp only [hloop, Except.ok.injEq] at hrun
            subst hrun
            exact publish_keeps hreg (newGaugeMap_facts table hnd).1
              (statusLoop_keys (newRequest ctx id) doReq unmarshalStatus writes hloop).1

/-- Each of the five stages leaves in place what it finds in the registry. -/
theorem stages_keep (lib : Stdlib) : ∀ m ∈ stages lib, Keeps m := by
  intro m hm
  simp only [stages, List.mem_cons, List.mem_singleton, List.not_mem_nil, or_false] at hm
  rcases hm with h | h | h | h | h <;> subst h
  · exact system_keeps lib
  · exact interfaces_keeps lib
  · rw [decoders_eq]
    exact listingStage_keeps lib _ _ _ _ _ _ _ networkInputMetrics_nodup
  · rw [outputs_eq]
    exact listingStage_keeps lib _ _ _ _ _ _ _ videoMetrics_nodup
  · rw [encoders_eq]
    exact listingStage_keeps lib _ _ _ _ _ _ _ encoderMetrics_nodup

/-- In a threaded list of calls each of which left in place what it found, what a call left
is still there after every later call. -/
theorem Threaded.output_kept {r0 r : Registry} {l : List Call} (h : Threaded r0 l r)
    (hkeep : ∀ c ∈ l, ∀ x ∈ c.input.collectors, x ∈ c.output.collectors) :
    ∀ (n j : Nat) (p c : Call), l[j]? = some p → l[j + n]? = some c →
      ∀ x ∈ p.output.collectors, x ∈ c.output.collectors := by
  intro n
  induction n with
  | zero =>
    intro j p c hp hc x hx
    rw [Nat.add_zero, hp] at hc
    cases hc
    exact hx
  | succ n ih =>
    intro j p c hp hc x hx
    have hlt : j + n < l.length := by
      have := (List.getElem?_eq_some_iff.1 hc).1
      omega
    have hq : l[j + n]? = some l[j + n] := List.getElem?_eq_getElem hlt
    have hx1 := ih j p l[j + n] hp hq x hx
    have hin := h.input_eq (j + n) l[j + n] c hq hc
    have hcmem : c ∈ l := by
      obtain ⟨hlen, heq⟩ := List.getElem?_eq_some_iff.1 hc
      rw [← heq]
      exact List.getElem_mem hlen
    apply hkeep c hcmem
    rw [hin]
    exact hx1


/-! ## The response after an offline stage -/

/-- C6, amended. For stages that leave in place the collectors they find (as the five stages
of the package do): when the stage at position `k` returns the offline sentinel and no stage
before it returned an error, no stage after `k` ran and the response is the same whatever
stages follow `k`; the response is the exposition of the registry as stage `k` left it; and
for every position `j` before `k`, the call recorded there is the run of stage `j`, and
every collector of the registry that run returned is in the exposed registry, unchanged,
with all its samples in the response. -/
theorem Handle_offline_response (d : Direkt) (stages : List metricGatherer)
    (r : ProbeRequest) (duration : Float64) (h : HandleResult) (k : Nat) (c : Call)
    (hkeep : ∀ m ∈ stages, Keeps m)
    (hrun : d.HandleWith stages r duration = .ok h)
    (hk : h.calls[k]? = some c) (hoff : c.offline = true)
    (hprev : ∀ j p, j < k → h.calls[j]? = some p → p.err = none) :
    h.calls.length = k + 1 ∧
      (∀ later, d.HandleWith (stages.take (k + 1) ++ later) r duration = .ok h) ∧
      ∃ id gauges, validateRequest r = (id, none) ∧
        h.w.body = [.exposition (c.output.Gather gauges)] ∧
        ∀ (j : Nat) (p : Call), j < k → h.calls[j]? = some p →
          (∃ (m : metricGatherer) (res : StageReturn), stages[j]? = some m ∧
            m (WithTimeout Background (10 * Second)) (WrapRegistererWith [("serial", id)])
              d.doRequest id p.input = .ok res ∧ res.registry = p.output) ∧
          ∀ x ∈ p.output.collectors, x ∈ c.output.collectors ∧
            ∀ s ∈ x.collect gauges, s ∈ c.output.Gather gauges := by
  obtain ⟨id, g, hv, hg, hcalls, hbody⟩ := HandleWith_inv hrun hk
  obtain ⟨st, hl, hfin, hc⟩ := gatherMetrics_inv hg
  rw [← hcalls] at hk hprev
  obtain ⟨hlen, hreg, hlater⟩ := gatherLoop_offline _ _ d.doRequest id hl hc k c hk hoff
  have hsoft : ∀ c2 ∈ g.calls, c2.softErr = none := by
    intro c2 hc2
    obtain ⟨j, hj, hget⟩ := List.getElem_of_mem hc2
    have hj2 : g.calls[j]? = some c2 := by rw [List.getElem?_eq_getElem hj, hget]
    by_cases hjk : j < k
    · simp [Call.softErr, hprev j c2 hjk hj2]
    · have hjeq : j = k := by omega
      rw [hjeq, hk] at hj2
      cases hj2
      unfold Call.offline at hoff
      unfold Call.softErr
      cases he : c.err with
      | none => rfl
      | some e =>
        rw [he] at hoff
        simp only [] at hoff
        simp [hoff]
  have hnil : g.calls.filterMap Call.softErr = [] := by
    rw [List.filterMap_eq_nil_iff]
    exact hsoft
  have hret : g.retErr = none := by
    have h1 := gatherLoop_retErr _ _ d.doRequest id hl hc
    rw [hnil] at h1
    rw [hfin]
    simpa [finish, initialState] using h1
  have hbase : g.baseRegistry = c.output := by rw [hfin]; exact hreg
  have hruns := gatherLoop_runs (WithTimeout Background (10 * Second))
    (WrapRegistererWith [("serial", id)]) d.doRequest id hl hc
  have hthread := gatherLoop_threaded (WithTimeout Background (10 * Second))
    (WrapRegistererWith [("serial", id)]) d.doRequest id hl hc
  have hcallkeep : ∀ c2 ∈ g.calls, ∀ x ∈ c2.input.collectors, x ∈ c2.output.collectors := by
    intro c2 hc2 x hx
    obtain ⟨j, hj, hget⟩ := List.getElem_of_mem hc2
    have hj2 : g.calls[j]? = some c2 := by rw [List.getElem?_eq_getElem hj, hget]
    obtain ⟨m, res, hm, hres, hout, -⟩ := hruns j c2 hj2
    have hmem : m ∈ stages := by
      obtain ⟨hlt, heq⟩ := List.getElem?_eq_some_iff.1 hm
      rw [← heq]
      exact List.getElem_mem hlt
    rw [hout]
    exact hkeep m hmem _ _ _ _ _ res hres x hx
  refine ⟨by rw [← hcalls]; exact hlen, ?_, id, g.gauges, hv, ?_, ?_⟩
  · intro later
    have hg2 : d.gatherMetrics (WithTimeout Background (10 * Second))
        (stages.take (k + 1) ++ later) id duration = .ok g := by
      rw [gatherMetrics_eq, hlater later, hfin]
    rw [HandleWith_valid d _ r duration id hv, hg2, ← hrun,
      HandleWith_valid d _ r duration id hv, hg]
  · rw [hbody, hret, hbase]
  · intro j p hjk hp
    rw [← hcalls] at hp
    obtain ⟨m, res, hm, hres, hout, -⟩ := hruns j p hp
    refine ⟨⟨m, res, hm, hres, hout.symm⟩, ?_⟩
    intro x hx
    have hkj : g.calls[j + (k - j)]? = some c := by
      have : j + (k - j) = k := by omega
      rw [this]
      exact hk
    have hxc := hthread.output_kept hcallkeep (k - j) j p c hp hkj x hx
    refine ⟨hxc, ?_⟩
    intro s hs
    unfold Registry.Gather
    rw [List.mem_flatten]
    exact ⟨x.collect g.gauges, List.mem_map_of_mem _ hxc, hs⟩

set_option maxRecDepth 100000 in
/-- C6, amended, at a probe of the five stages: `system` sets the CPU usage, `interfaces`
succeeds, the listing of `decoders` is answered with 503; the CPU usage is in the
response. -/
theorem Handle_offline_response_witness :
    ((∀ m ∈ stages healthyLib, Keeps m) ∧
      offlineAtDecoders.HandleWith (stages healthyLib) (probeRequest ["D01"]) 0 =
        .ok (answered offlineRun) ∧
      (answered offlineRun).calls[2]? = some (callAt (answered offlineRun).calls 2) ∧
      (callAt (answered offlineRun).calls 2).offline = true ∧
      (callAt (answered offlineRun).calls 0).err = none ∧
      (callAt (answered offlineRun).calls 1).err = none) ∧
    (exposed (answered offlineRun)).filter (fun s => s.name == "cpu_utilisation_percent") =
      [⟨"cpu_utilisation_percent", [("serial", "D01")], 42.5⟩] ∧
    (answered offlineRun).calls.length = 2 + 1 ∧
    ∀ later, offlineAtDecoders.HandleWith ((stages healthyLib).take (2 + 1) ++ later)
      (probeRequest ["D01"]) 0 = .ok (answered offlineRun) := by
  have hprev : ∀ j p, j < 2 → (answered offlineRun).calls[j]? = some p → p.err = none := by
    intro j p hj hp
    have hcases : j = 0 ∨ j = 1 := by omega
    rcases hcases with h0 | h1
    · subst h0
      have hp2 : some (callAt (answered offlineRun).calls 0) = some p := hp
      cases hp2
      rfl
    · subst h1
      have hp2 : some (callAt (answered offlineRun).calls 1) = some p := hp
      cases hp2
      rfl
  have hthm := Handle_offline_response offlineAtDecoders (stages healthyLib)
    (probeRequest ["D01"]) 0 (answered offlineRun) 2 (callAt (answered offlineRun).calls 2)
    (stages_keep healthyLib) rfl rfl rfl hprev
  exact ⟨⟨stages_keep healthyLib, rfl, rfl, rfl, rfl, rfl⟩, rfl, hthm.1, hthm.2.1⟩


/-! ## The order of the stages -/

/-- Which stages the loop invokes: the stage at position `j` is invoked when no stage before
it returned the offline sentinel, and nothing is invoked after a stage that did. -/
theorem gatherLoop_invokes (ctx : Context) (registry : Registerer)
    (doReq : Request → Option String × Option GoError) (id : String)
    {ms : List metricGatherer} {i : Nat} {st st2 : LoopState} {news : List Call}
    (h : gatherLoop ctx registry doReq id ms i st = .ok st2)
    (hc : st2.calls = st.calls ++ news) :
    (∀ (j : Nat), j < ms.length →
      (∀ (n : Nat) (c : Call), n < j → news[n]? = some c → c.offline = false) →
      ∃ c, news[j]? = some c) ∧
    (∀ (j : Nat) (c : Call), news[j]? = some c → c.offline = true → news.length = j + 1) := by
  constructor
  · intro j hj hno
    by_cases hjl : j < news.length
    · exact ⟨news[j], List.getElem?_eq_getElem hjl⟩
    · exfalso
      have hlt : news.length < ms.length := by omega
      obtain ⟨c, hlast, hoffl⟩ := gatherLoop_short ctx registry doReq id h hc hlt
      rw [List.getLast?_eq_getElem?] at hlast
      have hpos : 0 < news.length := by
        by_contra hz
        have : news = [] := List.length_eq_zero.1 (by omega)
        subst this
        simp at hlast
      have := hno (news.length - 1) c (by omega) hlast
      rw [hoffl] at this
      cases this
  · intro j c hj hoffl
    exact (gatherLoop_offline ctx registry doReq id h hc j c hj hoffl).1

/-- C22. For a probe request that passes validation, `Handle` returns, and the calls it made
are runs of the stages `system`, `interfaces`, `decoders`, `outputs`, `encoders` in that
order: `system` is invoked; the stage at position `j` is invoked when no stage before it
returned the offline sentinel, and no stage is invoked after one that did; the call at
position `j` is a run of the stage at position `j`, so no stage runs twice; and each call
runs on the registry the call before it left. The same holds of `gatherMetrics` for every
stage list it is given. -/
theorem Handle_runs_stages_in_order (d : Direkt) (lib : Stdlib) (r : ProbeRequest)
    (duration : Float64) (id : String) (hv : validateRequest r = (id, none)) :
    stages lib = [system lib, interfaces lib, decoders lib, outputs lib, encoders lib] ∧
    (∃ h, d.Handle lib r duration = .ok h ∧ 1 ≤ h.calls.length ∧ h.calls.length ≤ 5 ∧
      (∀ (j : Nat), j < 5 →
        (∀ (n : Nat) (c : Call), n < j → h.calls[n]? = some c → c.offline = false) →
        ∃ c, h.calls[j]? = some c) ∧
      (∀ (j : Nat) (c : Call), h.calls[j]? = some c → c.offline = true →
        h.calls.length = j + 1) ∧
      (∀ (j : Nat) (c : Call), h.calls[j]? = some c →
        c.index = j ∧
        ∃ (m : metricGatherer) (res : StageReturn), (stages lib)[j]? = some m ∧
          m (WithTimeout Background (10 * Second)) (WrapRegistererWith [("serial", id)])
            d.doRequest id c.input = .ok res ∧
          c.output = res.registry ∧ c.err = res.err) ∧
      ∀ (j : Nat) (p c : Call), h.calls[j]? = some p → h.calls[j + 1]? = some c →
        c.input = p.output) ∧
    (∀ (ctx : Context) (metrics : List metricGatherer) (g : GatherResult),
      d.gatherMetrics ctx metrics id duration = .ok g →
      g.calls.length ≤ metrics.length ∧
      (∀ (j : Nat), j < metrics.length →
        (∀ (n : Nat) (c : Call), n < j → g.calls[n]? = some c → c.offline = false) →
        ∃ c, g.calls[j]? = some c) ∧
      (∀ (j : Nat) (c : Call), g.calls[j]? = some c → c.offline = true →
        g.calls.length = j + 1) ∧
      (∀ (j : Nat) (c : Call), g.calls[j]? = some c →
        c.index = j ∧
        ∃ (m : metricGatherer) (res : StageReturn), metrics[j]? = some m ∧
          m ctx (WrapRegistererWith [("serial", id)]) d.doRequest id c.input = .ok res ∧
          c.output = res.registry ∧ c.err = res.err) ∧
      ∀ (j : Nat) (p c : Call), g.calls[j]? = some p → g.calls[j + 1]? = some c →
        c.input = p.output) := by
  have hgen : ∀ (ctx : Context) (metrics : List metricGatherer) (g : GatherResult),
      d.gatherMetrics ctx metrics id duration = .ok g →
      g.calls.length ≤ metrics.length ∧
      (∀ (j : Nat), j < metrics.length →
        (∀ (n : Nat) (c : Call), n < j → g.calls[n]? = some c → c.offline = false) →
        ∃ c, g.calls[j]? = some c) ∧
      (∀ (j : Nat) (c : Call), g.calls[j]? = some c → c.offline = true →
        g.calls.length = j + 1) ∧
      (∀ (j : Nat) (c : Call), g.calls[j]? = some c →
        c.index = j ∧
        ∃ (m : metricGatherer) (res : StageReturn), metrics[j]? = some m ∧
          m ctx (WrapRegistererWith [("serial", id)]) d.doRequest id c.input = .ok res ∧
          c.output = res.registry ∧ c.err = res.err) ∧
      ∀ (j : Nat) (p c : Call), g.calls[j]? = some p → g.calls[j + 1]? = some c →
        c.input = p.output := by
    intro ctx metrics g hrun
    obtain ⟨st, hloop, -, hc⟩ := gatherMetrics_inv hrun
    obtain ⟨hinv, hstop⟩ := gatherLoop_invokes ctx _ d.doRequest id hloop hc
    refine ⟨gatherLoop_length ctx _ d.doRequest id hloop hc, hinv, hstop, ?_, ?_⟩
    · intro j c hj
      refine ⟨?_, gatherLoop_runs ctx _ d.doRequest id hloop hc j c hj⟩
      have := gatherLoop_index ctx _ d.doRequest id hloop hc j c hj
      omega
    · intro j p c hp hcj
      exact (gatherLoop_threaded ctx _ d.doRequest id hloop hc).input_eq j p c hp hcj
  refine ⟨rfl, ?_, hgen⟩
  obtain ⟨st, -, hg, -, -⟩ := pipeline_runs d lib (WithTimeout Background (10 * Second)) id
    duration
  obtain ⟨hlen, hinv, hstop, hruns, hthread⟩ := hgen _ _ _ hg
  have hH : ∃ h, d.Handle lib r duration = .ok h ∧ h.calls = (finish duration st).calls := by
    unfold Direkt.Handle
    rw [HandleWith_valid d (stages lib) r duration id hv, hg]
    simp only []
    cases (finish duration st).retErr with
    | some err => exact ⟨_, rfl, rfl⟩
    | none => exact ⟨_, rfl, rfl⟩
  obtain ⟨h, hh, hcalls⟩ := hH
  have hfirst : 1 ≤ (finish duration st).calls.length := by
    obtain ⟨c, hc0⟩ := hinv 0 (by simp [stages]) (fun n c hn => absurd hn (Nat.not_lt_zero n))
    have := (List.getElem?_eq_some_iff.1 hc0).1
    omega
  refine ⟨h, hh, ?_, ?_, ?_, ?_, ?_, ?_⟩
  · rw [hcalls]
    exact hfirst
  · rw [hcalls]
    exact hlen
  · rw [hcalls]
    exact hinv
  · rw [hcalls]
    exact hstop
  · rw [hcalls]
    exact hruns
  · rw [hcalls]
    exact hthread

set_option maxRecDepth 100000 in
/-- C22, at a probe for unit D01 on a network that never answers: no stage returns the
offline sentinel, and all five stages are invoked, in order. -/
theorem Handle_runs_stages_in_order_witness :
    validateRequest (probeRequest ["D01"]) = ("D01", none) ∧
      (probe.Handle cpuLib (probeRequest ["D01"]) 0).map
          (fun h => h.calls.map (fun c => (c.index, c.offline))) =
        .ok [(0, false), (1, false), (2, false), (3, false), (4, false)] ∧
      ∃ h, probe.Handle cpuLib (probeRequest ["D01"]) 0 = .ok h ∧ 1 ≤ h.calls.length ∧
        h.calls.length ≤ 5 ∧
        (∀ (j : Nat), j < 5 →
          (∀ (n : Nat) (c : Call), n < j → h.calls[n]? = some c → c.offline = false) →
          ∃ c, h.calls[j]? = some c) :=
  ⟨rfl, rfl, by
    obtain ⟨h, hh, h1, h5, hinv, -⟩ :=
      (Handle_runs_stages_in_order probe cpuLib (probeRequest ["D01"]) 0 "D01" rfl).2.1
    exact ⟨h, hh, h1, h5, hinv⟩⟩

end DirektExporter
